import Mathlib

/-!
# Kokkos-EDP-Logger: the quantum accounting engine

A shallow embedding of `LibKokkosEDPLogger.cpp` / `LibKokkosEDPLogger.hpp`.

* `uint64_t` fields are natural numbers kept below `2 ^ 64` by explicit reduction.
* The file system is a function from file names to what one `open` + `read` of
  that file yields at the moment of the call (`FileRead`).
* `steady_clock::now()` is an integer time point handed to each call.
* The two CSV streams are lists of structured lines; the elapsed time of a line
  is the integer duration `tock - tick` before its conversion to float milliseconds.
* A C++ exception is the constructor `Outcome.thrown`, carrying the engine state
  the throw leaves behind.
* `energyDescriptor::fd`, `energyDescriptor::file` and `maxThreads` never influence
  behaviour and are left out.
* The constructor does not initialise `shouldCreateQuantum` and `quantumSize`; the
  values they happen to hold are parameters of `KokkosEDPLogger.new`.
-/

namespace KokkosEDP

/-! ## Machine integers -/

/-- Number of values of a `uint64_t`. -/
def U64 : Nat := 2 ^ 64

/-- Largest `long long`. -/
def LLONG_MAX : Int := 2 ^ 63 - 1

/-- Smallest `long long`. -/
def LLONG_MIN : Int := -(2 ^ 63)

/-- Conversion of a signed integer to `uint64_t` (reduction modulo `2 ^ 64`). -/
def toU64 (v : Int) : Nat := (v % (2 ^ 64 : Int)).toNat

/-- Subtraction of two `uint64_t` values, as the machine computes it. -/
def sub64 (a b : Nat) : Nat := (a % U64 + (U64 - b % U64)) % U64

/-! ## Reading a counter file -/

/-- What `open(filename, O_RDONLY)` followed by `read(fd, buf, 32)` yields:
either `open` fails (`fd < 0`, with the text of `strerror(errno)`), or it succeeds and
`read` delivers some bytes. -/
inductive FileRead where
  | openFails (strerror : String) : FileRead
  | bytes (delivered : List Char) : FileRead
deriving DecidableEq, Repr

/-- The `open` call returned a usable descriptor. -/
def FileRead.opened : FileRead → Bool
  | .openFails _ => false
  | .bytes _ => true

/-- The text of `strerror(errno)` after the `open` call. -/
def FileRead.strerror : FileRead → String
  | .openFails e => e
  | .bytes _ => "Success"

/-- The C locale `isspace`. -/
def isspace (c : Char) : Bool := c.toNat = 32 ∨ (9 ≤ c.toNat ∧ c.toNat ≤ 13)

/-- The C `isdigit`. -/
def isdigit (c : Char) : Bool := 48 ≤ c.toNat ∧ c.toNat ≤ 57

/-- Value of the leading run of decimal digits, continuing from `acc`. -/
def digitsValue : Nat → List Char → Nat
  | acc, [] => acc
  | acc, c :: cs => if isdigit c then digitsValue (acc * 10 + (c.toNat - 48)) cs else acc

/-- The libc `atoll` on a C string: leading white space, an optional sign, then
decimal digits; out-of-range values saturate as `strtoll` does. -/
def atoll (s : List Char) : Int :=
  match s.dropWhile isspace with
  | [] => 0
  | c :: cs =>
    if c.toNat = 45 then max LLONG_MIN (-(digitsValue 0 cs : Int))
    else if c.toNat = 43 then min LLONG_MAX (digitsValue 0 cs : Int)
    else min LLONG_MAX (digitsValue 0 (c :: cs) : Int)

/-- The C string held by `char buf[32] = {0}` after `open`/`read`/`close`: when
`open` failed the `read` on the bad descriptor leaves the zero-filled buffer
untouched; otherwise the first 32 delivered bytes, up to the first NUL. -/
def readBuf : FileRead → List Char
  | .openFails _ => []
  | .bytes delivered => (delivered.take 32).takeWhile (fun c => c.toNat ≠ 0)

/-- The `uint64_t` obtained from `atoll(buf)`. -/
def readCounter (r : FileRead) : Nat := toU64 (atoll (readBuf r))

/-! ## Data model -/

/-- The `struct energyDescriptor` of one power zone. -/
structure energyDescriptor where
  filename : String
  globalTick : Nat
  globalTock : Nat
  tick : Nat
  tock : Nat
deriving DecidableEq, Repr

/-- The `struct timeDecriptor`; time points are integer clock readings. -/
structure timeDecriptor where
  globalTick : Int
  globalTock : Int
  tick : Int
  tock : Int
deriving DecidableEq, Repr

/-- One line of `KokkosEDPLogger.kernel.csv`. -/
inductive KernelLine where
  | header (columns : List String) : KernelLine
  | sample (name : String) (count : Nat) (timeDiff : Int) (energy : List Nat) : KernelLine
deriving DecidableEq, Repr

/-- One line of `KokkosEDPLogger.global.csv`. -/
inductive GlobalLine where
  | header (columns : List String) : GlobalLine
  | sample (timeDiff : Int) (energy : List Nat) : GlobalLine
deriving DecidableEq, Repr

/-- The `class KokkosEDPLogger`. -/
structure KokkosEDPLogger where
  shouldCreateQuantum : Bool
  energyDescs : List energyDescriptor
  timeDesc : timeDecriptor
  logFile : List KernelLine
  globalLogFile : List GlobalLine
  curKernel : String
  prevKernel : String
  quantumSize : Nat
deriving DecidableEq, Repr

/-- Result of a call that may throw: it returned, or it threw `std::runtime_error`
with message `what`, leaving the engine in state `k`. -/
inductive Outcome where
  | returned (k : KokkosEDPLogger) : Outcome
  | thrown (k : KokkosEDPLogger) (what : String) : Outcome
deriving DecidableEq, Repr

/-- The member function `HasValidMeasure`. -/
def KokkosEDPLogger.HasValidMeasure (k : KokkosEDPLogger) : Bool := k.shouldCreateQuantum

/-- The engine state a call leaves behind, whether it returned or threw. -/
def Outcome.state : Outcome → KokkosEDPLogger
  | .returned k => k
  | .thrown k _ => k

/-- The call returned normally (no exception). -/
def Outcome.isReturned : Outcome → Bool
  | .returned _ => true
  | .thrown _ _ => false

/-! ## Construction -/

/-- The libc `atoi`: `strtol` saturated to `long`, then truncated to a 32-bit `int`. -/
def atoi (s : List Char) : Int := (atoll s + 2 ^ 31) % (2 ^ 32 : Int) - 2 ^ 31

/-- The path of zone `i`, as built by `std::format` in the constructor. -/
def zoneFilename (i : Nat) : String :=
  "/sys/devices/virtual/powercap/intel-rapl/intel-rapl:" ++ toString i ++ "/energy_uj"

/-- The `energyDescriptor()` value-initialised in the constructor, with its file name set. -/
def newDescriptor (i : Nat) : energyDescriptor :=
  { filename := zoneFilename i, globalTick := 0, globalTock := 0, tick := 0, tock := 0 }

/-- The loop of the constructor that checks and appends the zones `i, i+1, ..` (`n` of them). -/
def openZones (fileExists : String → Bool) : Nat → Nat → Except String (List energyDescriptor)
  | _, 0 => .ok []
  | i, n + 1 =>
    if fileExists (zoneFilename i) then
      match openZones fileExists (i + 1) n with
      | .ok ds => .ok (newDescriptor i :: ds)
      | .error e => .error e
    else .error ("powercap file " ++ zoneFilename i ++ " doesn't exist")

/-- The columns `,energy_uj0`, `,energy_uj1`, .. of both CSV headers. -/
def energyColumns (n : Nat) : List String :=
  (List.range n).map (fun i => "energy_uj" ++ toString i)

/-- The constructor `KokkosEDPLogger::KokkosEDPLogger()`. `getenv` is the value of
`KEDP_NUM_POWER_ZONES`, `fileExists` is `std::filesystem::exists`. The members
`shouldCreateQuantum` and `quantumSize` are not initialised by the constructor:
their indeterminate values are the parameters `scq0` and `qs0`. -/
def KokkosEDPLogger.new (getenv : Option String) (fileExists : String → Bool)
    (scq0 : Bool) (qs0 : Nat) : Except String KokkosEDPLogger :=
  match getenv with
  | none => .error "KEDP_NUM_POWER_ZONES environment variable not set!"
  | some numPowerZones_env =>
    let numPowerZones := (atoi numPowerZones_env.toList).toNat
    match openZones fileExists 0 numPowerZones with
    | .error e => .error e
    | .ok descs =>
      .ok { shouldCreateQuantum := scq0
            energyDescs := descs
            timeDesc := { globalTick := 0, globalTock := 0, tick := 0, tock := 0 }
            logFile := [.header (["kernel_name", "count", "time_ms"] ++ energyColumns numPowerZones)]
            globalLogFile := [.header (["time_ms"] ++ energyColumns numPowerZones)]
            curKernel := ""
            prevKernel := ""
            quantumSize := qs0 % U64 }

/-! ## Tick and Tock -/

/-- The member function `Tick`. -/
def Tick (k : KokkosEDPLogger) (fs : String → FileRead) (now : Int) : KokkosEDPLogger :=
  if k.shouldCreateQuantum = true ∨ k.prevKernel ≠ k.curKernel then
    { k with
      energyDescs := k.energyDescs.map (fun desc => { desc with tick := readCounter (fs desc.filename) })
      timeDesc := { k.timeDesc with tick := now }
      quantumSize := 0 }
  else k

/-- How a loop over `energyDescs` ends, with the descriptors as it leaves them:
it ran to the end, it hit the early `return`, or it threw. -/
inductive LoopExit where
  | finished (descs : List energyDescriptor) : LoopExit
  | stale (descs : List energyDescriptor) : LoopExit
  | thrown (descs : List energyDescriptor) (what : String) : LoopExit
deriving DecidableEq, Repr

/-- Put `desc` back in front of the descriptors a loop left behind. -/
def LoopExit.cons (desc : energyDescriptor) : LoopExit → LoopExit
  | .finished ds => .finished (desc :: ds)
  | .stale ds => .stale (desc :: ds)
  | .thrown ds w => .thrown (desc :: ds) w

/-- The message of the `std::runtime_error` thrown on a failed `open`. -/
def cannotRead (filename : String) (r : FileRead) : String :=
  "cannot read file " ++ filename ++ ", " ++ r.strerror

/-- The `for (auto &desc : energyDescs)` loop of `Tock`. -/
def tockLoop (fs : String → FileRead) : List energyDescriptor → LoopExit
  | [] => .finished []
  | desc :: rest =>
    if (fs desc.filename).opened then
      let tock := readCounter (fs desc.filename)
      if tock = desc.tick then .stale (desc :: rest)
      else (tockLoop fs rest).cons { desc with tock := tock }
    else .thrown (desc :: rest) (cannotRead desc.filename (fs desc.filename))

/-- The member function `Tock`. -/
def Tock (k : KokkosEDPLogger) (fs : String → FileRead) (now : Int) : Outcome :=
  let k1 := { k with quantumSize := (k.quantumSize + 1) % U64, shouldCreateQuantum := true }
  match tockLoop fs k1.energyDescs with
  | .finished ds => .returned { k1 with energyDescs := ds, timeDesc := { k1.timeDesc with tock := now } }
  | .stale ds => .returned { k1 with energyDescs := ds, shouldCreateQuantum := false }
  | .thrown ds w => .thrown { k1 with energyDescs := ds } w

/-! ## GlobalTick and GlobalTock -/

/-- The loop of `GlobalTick`. -/
def globalTickLoop (fs : String → FileRead) : List energyDescriptor → LoopExit
  | [] => .finished []
  | desc :: rest =>
    if (fs desc.filename).opened then
      (globalTickLoop fs rest).cons { desc with globalTick := readCounter (fs desc.filename) }
    else .thrown (desc :: rest) (cannotRead desc.filename (fs desc.filename))

/-- The loop of `GlobalTock`. -/
def globalTockLoop (fs : String → FileRead) : List energyDescriptor → LoopExit
  | [] => .finished []
  | desc :: rest =>
    if (fs desc.filename).opened then
      (globalTockLoop fs rest).cons { desc with globalTock := readCounter (fs desc.filename) }
    else .thrown (desc :: rest) (cannotRead desc.filename (fs desc.filename))

/-- The member function `GlobalTick`. -/
def GlobalTick (k : KokkosEDPLogger) (fs : String → FileRead) (now : Int) : Outcome :=
  match globalTickLoop fs k.energyDescs with
  | .finished ds => .returned { k with energyDescs := ds, timeDesc := { k.timeDesc with globalTick := now } }
  | .stale ds => .returned { k with energyDescs := ds }
  | .thrown ds w => .thrown { k with energyDescs := ds } w

/-- The member function `GlobalTock`. -/
def GlobalTock (k : KokkosEDPLogger) (fs : String → FileRead) (now : Int) : Outcome :=
  match globalTockLoop fs k.energyDescs with
  | .finished ds => .returned { k with energyDescs := ds, timeDesc := { k.timeDesc with globalTock := now } }
  | .stale ds => .returned { k with energyDescs := ds }
  | .thrown ds w => .thrown { k with energyDescs := ds } w

/-! ## The callbacks -/

/-- The callback `kokkosp_init_library`, acting on the global `klaant`: a fresh engine
is constructed and assigned, then `GlobalTick` runs. The constructor opens both CSV
files with `trunc` before it tests anything, so when it throws the global engine is
left unassigned but the two files it writes to are already empty. -/
def kokkosp_init_library (klaant : KokkosEDPLogger) (getenv : Option String)
    (fileExists : String → Bool) (scq0 : Bool) (qs0 : Nat)
    (fs : String → FileRead) (now : Int) : Outcome :=
  match KokkosEDPLogger.new getenv fileExists scq0 qs0 with
  | .error e => .thrown { klaant with logFile := [], globalLogFile := [] } e
  | .ok k => GlobalTick k fs now

/-- The line written by `kokkosp_finalize_library`. -/
def globalSample (k : KokkosEDPLogger) : GlobalLine :=
  .sample (k.timeDesc.globalTock - k.timeDesc.globalTick)
    (k.energyDescs.map (fun energyDesc => sub64 energyDesc.globalTock energyDesc.globalTick))

/-- The callback `kokkosp_finalize_library`. -/
def kokkosp_finalize_library (klaant : KokkosEDPLogger) (fs : String → FileRead) (now : Int) :
    Outcome :=
  match GlobalTock klaant fs now with
  | .thrown k w => .thrown k w
  | .returned k => .returned { k with globalLogFile := k.globalLogFile ++ [globalSample k] }

/-- The callback `kokkosp_begin_parallel_for` (`devID` and `kID` are not used). -/
def kokkosp_begin_parallel_for (klaant : KokkosEDPLogger) (name : String)
    (fs : String → FileRead) (now : Int) : KokkosEDPLogger :=
  Tick { klaant with prevKernel := klaant.curKernel, curKernel := name } fs now

/-- The line written by `kokkosp_end_parallel_for` when the measure is valid. -/
def kernelSample (k : KokkosEDPLogger) : KernelLine :=
  .sample k.curKernel k.quantumSize (k.timeDesc.tock - k.timeDesc.tick)
    (k.energyDescs.map (fun energyDesc => sub64 energyDesc.tock energyDesc.tick))

/-- The callback `kokkosp_end_parallel_for` (`kID` is not used). -/
def kokkosp_end_parallel_for (klaant : KokkosEDPLogger) (fs : String → FileRead) (now : Int) :
    Outcome :=
  match Tock klaant fs now with
  | .thrown k w => .thrown k w
  | .returned k =>
    if k.HasValidMeasure then .returned { k with logFile := k.logFile ++ [kernelSample k] }
    else .returned k

/-! ## Runs of the callbacks -/

/-- One call of a launch callback by the host runtime, with the file system and clock
it finds. -/
inductive Event where
  | beginLaunch (name : String) (fs : String → FileRead) (now : Int) : Event
  | endLaunch (fs : String → FileRead) (now : Int) : Event

/-- The file system an event finds. -/
def Event.fs : Event → (String → FileRead)
  | .beginLaunch _ fs _ => fs
  | .endLaunch fs _ => fs

/-- One callback applied to the global engine. -/
def step (klaant : KokkosEDPLogger) : Event → Outcome
  | .beginLaunch name fs now => .returned (kokkosp_begin_parallel_for klaant name fs now)
  | .endLaunch fs now => kokkosp_end_parallel_for klaant fs now

/-- A sequence of callbacks; an exception leaves the callback and no later one runs. -/
def runEvents : KokkosEDPLogger → List Event → Outcome
  | k, [] => .returned k
  | k, e :: es =>
    match step k e with
    | .returned k1 => runEvents k1 es
    | .thrown k1 w => .thrown k1 w

/-- One kernel launch: its name, and what its begin and end callbacks find. -/
structure Launch where
  name : String
  beginFs : String → FileRead
  beginNow : Int
  endFs : String → FileRead
  endNow : Int

/-- The alternating begin/end callbacks of a list of launches. -/
def launchEvents : List Launch → List Event
  | [] => []
  | l :: ls => .beginLaunch l.name l.beginFs l.beginNow :: .endLaunch l.endFs l.endNow
      :: launchEvents ls

/-- A list of launches run from state `k`. -/
def runLaunches (k : KokkosEDPLogger) (ls : List Launch) : Outcome :=
  runEvents k (launchEvents ls)

/-- A `Tock`, optionally followed by the `Tick` of a further launch of the same kernel. -/
structure Round where
  tockFs : String → FileRead
  tockNow : Int
  thenTick : Option ((String → FileRead) × Int)

/-- The `Tick` of a launch whose name is the current kernel name again: the identity
shift of `kokkosp_begin_parallel_for` with `name = curKernel`, then `Tick`. -/
def sameNameTick (k : KokkosEDPLogger) : Option ((String → FileRead) × Int) → KokkosEDPLogger
  | none => k
  | some (fs, now) => kokkosp_begin_parallel_for k k.curKernel fs now

/-- One round: `Tock`, then the optional same-name `Tick`. -/
def runRound (k : KokkosEDPLogger) (r : Round) : Outcome :=
  match Tock k r.tockFs r.tockNow with
  | .returned k1 => .returned (sameNameTick k1 r.thenTick)
  | .thrown k1 w => .thrown k1 w

/-- A sequence of rounds. -/
def runRounds : KokkosEDPLogger → List Round → Outcome
  | k, [] => .returned k
  | k, r :: rs =>
    match runRound k r with
    | .returned k1 => runRounds k1 rs
    | .thrown k1 w => .thrown k1 w

/-! ## Vocabulary of the statements -/

/-- Every configured zone's counter file can be opened. -/
def allOpened (fs : String → FileRead) (descs : List energyDescriptor) : Prop :=
  ∀ d ∈ descs, (fs d.filename).opened = true

/-- The counter freshly read for zone `d` differs from the zone's `tick` baseline. -/
def moved (fs : String → FileRead) (d : energyDescriptor) : Prop :=
  readCounter (fs d.filename) ≠ d.tick

/-- Zone `d` with the freshly read counter stored in `tock`. -/
def recordTock (fs : String → FileRead) (d : energyDescriptor) : energyDescriptor :=
  { d with tock := readCounter (fs d.filename) }

/-- Zone `d` with the freshly read counter stored in `tick`. -/
def recordTick (fs : String → FileRead) (d : energyDescriptor) : energyDescriptor :=
  { d with tick := readCounter (fs d.filename) }

instance (fs : String → FileRead) (d : energyDescriptor) : Decidable (moved fs d) := by
  unfold moved; infer_instance

instance (fs : String → FileRead) (descs : List energyDescriptor) : Decidable (allOpened fs descs) := by
  unfold allOpened; infer_instance

/-! ## Example data for the concrete instances -/

/-- A file system with the two counter files `zone0` and `zone1` holding the texts
`a` and `b`; no other file can be opened. -/
def twoFiles (a b : String) : String → FileRead := fun f =>
  if f = "zone0" then .bytes a.toList
  else if f = "zone1" then .bytes b.toList
  else .openFails "No such file or directory"

/-- An engine with two zones whose `tick` baselines are `1000` and `2000`, as left
by a `Tick` for kernel `"A"`. -/
def twoZones : KokkosEDPLogger :=
  { shouldCreateQuantum := true
    energyDescs :=
      [ { filename := "zone0", globalTick := 900, globalTock := 0, tick := 1000, tock := 0 },
        { filename := "zone1", globalTick := 1900, globalTock := 0, tick := 2000, tock := 0 } ]
    timeDesc := { globalTick := 0, globalTock := 0, tick := 5, tock := 0 }
    logFile := []
    globalLogFile := []
    curKernel := "A"
    prevKernel := "A"
    quantumSize := 0 }

/-- The file system of a machine with the two RAPL zones 0 and 1, whose `energy_uj`
files hold the texts `a` and `b`. -/
def rapl (a b : String) : String → FileRead := fun f =>
  if f = zoneFilename 0 then .bytes a.toList
  else if f = zoneFilename 1 then .bytes b.toList
  else .openFails "No such file or directory"

/-- The engine `kokkosp_init_library` leaves on that machine with
`KEDP_NUM_POWER_ZONES=2`, counters at 900 and 1900, clock at 0, and the two
uninitialised members holding `false` and `7`. -/
def freshEngine : KokkosEDPLogger :=
  (kokkosp_init_library twoZones (some "2") (fun _ => true) false 7
    (rapl "900\n" "1900\n") 0).state

/-- The engine the constructor builds on that machine with `KEDP_NUM_POWER_ZONES=2`. -/
def constructedEngine : KokkosEDPLogger :=
  match KokkosEDPLogger.new (some "2") (fun _ => true) false 7 with
  | .ok k => k
  | .error _ => twoZones

/-- A launch of kernel `name` that finds the counters `a0`, `b0` when it begins (clock
`t0`) and `a1`, `b1` when it ends (clock `t1`). -/
def launchOf (name a0 b0 : String) (t0 : Int) (a1 b1 : String) (t1 : Int) : Launch :=
  { name := name, beginFs := rapl a0 b0, beginNow := t0, endFs := rapl a1 b1, endNow := t1 }

/-! ## States and invariants named in the proofs -/

/-- The state `Tock` leaves when every zone was read and had moved. -/
def closedState (k : KokkosEDPLogger) (fs : String → FileRead) (now : Int) : KokkosEDPLogger :=
  { k with
    quantumSize := (k.quantumSize + 1) % U64
    shouldCreateQuantum := true
    energyDescs := k.energyDescs.map (recordTock fs)
    timeDesc := { k.timeDesc with tock := now } }

/-- The state `Tock` leaves when it stops at the stale zone `d`. -/
def staleState (k : KokkosEDPLogger) (fs : String → FileRead)
    (pre : List energyDescriptor) (d : energyDescriptor) (post : List energyDescriptor) :
    KokkosEDPLogger :=
  { k with
    quantumSize := (k.quantumSize + 1) % U64
    shouldCreateQuantum := false
    energyDescs := pre.map (recordTock fs) ++ d :: post }

/-- The state `Tock` leaves when it throws at the zone `d`. -/
def thrownState (k : KokkosEDPLogger) (fs : String → FileRead)
    (pre : List energyDescriptor) (d : energyDescriptor) (post : List energyDescriptor) :
    KokkosEDPLogger :=
  { k with
    quantumSize := (k.quantumSize + 1) % U64
    shouldCreateQuantum := true
    energyDescs := pre.map (recordTock fs) ++ d :: post }

/-- The state `kokkosp_end_parallel_for` leaves when the quantum closes. -/
def emittedState (k : KokkosEDPLogger) (fs : String → FileRead) (now : Int) : KokkosEDPLogger :=
  { closedState k fs now with logFile := k.logFile ++ [kernelSample (closedState k fs now)] }

/-- The launches counted in `quantumSize` all carry the current kernel name: every
name among the `quantumSize` most recent ones (`recent` lists them latest first)
is `curKernel`. -/
def Coalesced (k : KokkosEDPLogger) (recent : List String) : Prop :=
  ∀ x ∈ recent.take k.quantumSize, x = k.curKernel

/-- The file name and `tick` baseline of every zone, in configured order. -/
def baselines (k : KokkosEDPLogger) : List (String × Nat) :=
  k.energyDescs.map (fun d => (d.filename, d.tick))

/-- A round in which zone 0 still reads 1000 and zone 1 reads 2500, followed by the
`Tick` of another launch of the same kernel. -/
def staleRound : Round :=
  { tockFs := twoFiles "1000\n" "2500\n", tockNow := 6,
    thenTick := some (twoFiles "1000\n" "2500\n", 7) }

/-- A run of `2 ^ 64 - 1` rounds that all find zone 0 stale. -/
def longStaleRun : List Round := List.replicate (2 ^ 64 - 1) staleRound

/-- Zone `d` with the freshly read counter stored in `globalTick`. -/
def recordGlobalTick (fs : String → FileRead) (d : energyDescriptor) : energyDescriptor :=
  { d with globalTick := readCounter (fs d.filename) }

/-- Zone `d` with the freshly read counter stored in `globalTock`. -/
def recordGlobalTock (fs : String → FileRead) (d : energyDescriptor) : energyDescriptor :=
  { d with globalTock := readCounter (fs d.filename) }

/-- The whole-run fields of an engine: per zone the file name, `globalTick` and
`globalTock`; the two whole-run time points; the whole-run log. -/
def globalPart (k : KokkosEDPLogger) :
    List (String × Nat × Nat) × Int × Int × List GlobalLine :=
  (k.energyDescs.map (fun d => (d.filename, d.globalTick, d.globalTock)),
    k.timeDesc.globalTick, k.timeDesc.globalTock, k.globalLogFile)

/-- The state `GlobalTock` leaves when every file is readable. -/
def globalTockState (k : KokkosEDPLogger) (fs : String → FileRead) (now : Int) :
    KokkosEDPLogger :=
  { k with
    energyDescs := k.energyDescs.map (recordGlobalTock fs)
    timeDesc := { k.timeDesc with globalTock := now } }

/-- The engine `kokkosp_init_library` leaves when construction succeeds and every
counter file is readable. -/
def initState (kc : KokkosEDPLogger) (fs : String → FileRead) (now : Int) : KokkosEDPLogger :=
  { kc with
    energyDescs := kc.energyDescs.map (recordGlobalTick fs)
    timeDesc := { kc.timeDesc with globalTick := now } }

/-- Every `tick` is a 64-bit value and every row of the kernel log has one non-zero
energy value per zone (`n` zones). -/
def RowsNonZero (n : Nat) (k : KokkosEDPLogger) : Prop :=
  k.energyDescs.length = n
  ∧ (∀ d ∈ k.energyDescs, d.tick < U64)
  ∧ ∀ name c t e, KernelLine.sample name c t e ∈ k.logFile → e.length = n ∧ ∀ v ∈ e, v ≠ 0

/-- Every `tick` baseline is 0 or a counter read from one of the file systems in `S`. -/
def TicksFrom (S : List (String → FileRead)) (k : KokkosEDPLogger) : Prop :=
  ∀ d ∈ k.energyDescs, d.tick = 0 ∨ ∃ x ∈ S, d.tick = readCounter (x d.filename)

/-- Zone by zone (over the configured zones of `kc`), the counters file system `a` shows
are at most those file system `b` shows. -/
def CountersLe (kc : KokkosEDPLogger) (a b : String → FileRead) : Prop :=
  ∀ d ∈ kc.energyDescs, readCounter (a d.filename) ≤ readCounter (b d.filename)

instance (kc : KokkosEDPLogger) (a b : String → FileRead) : Decidable (CountersLe kc a b) := by
  unfold CountersLe; infer_instance

/-- A file system in which only the counter file `zone0` exists, holding the text `a`. -/
def oneFile (a : String) : String → FileRead := fun f =>
  if f = "zone0" then .bytes a.toList
  else .openFails "No such file or directory"

/-- The engine `kokkosp_init_library` leaves on the two-zone machine when the storage
of the two uninitialised members happens to be zeroed (`false` and `0`). -/
def zeroedEngine : KokkosEDPLogger :=
  (kokkosp_init_library twoZones (some "2") (fun _ => true) false 0
    (rapl "900\n" "1900\n") 0).state

/-- The line is a per-quantum row (not the header). -/
def KernelLine.isSample : KernelLine → Bool
  | .header _ => false
  | .sample _ _ _ _ => true

/-- Number of per-quantum rows in a kernel log. -/
def sampleRows (log : List KernelLine) : Nat := log.countP KernelLine.isSample

/-- Number of launches of `ls`, run from `k`, whose `Tock` finds every zone's counter
different from the zone's `tick` baseline. -/
def closingTocks : KokkosEDPLogger → List Launch → Nat
  | _, [] => 0
  | k, l :: ls =>
    (if ∀ d ∈ (kokkosp_begin_parallel_for k l.name l.beginFs l.beginNow).energyDescs,
        moved l.endFs d then 1 else 0)
      + closingTocks (kokkosp_end_parallel_for
          (kokkosp_begin_parallel_for k l.name l.beginFs l.beginNow) l.endFs l.endNow).state ls

/-- The energy value of zone number `i` in a line of the kernel log (0 for the header). -/
def KernelLine.energyAt (i : Nat) : KernelLine → Nat
  | .header _ => 0
  | .sample _ _ _ energy => energy.getD i 0

/-- The energy value of zone number `i` in a line of the whole-run log (0 for the header). -/
def GlobalLine.energyAt (i : Nat) : GlobalLine → Nat
  | .header _ => 0
  | .sample _ energy => energy.getD i 0

/-- Sum, over all per-quantum rows of a kernel log, of the energy delta of zone `i`. -/
def quantaEnergy (i : Nat) (log : List KernelLine) : Nat :=
  (log.map (KernelLine.energyAt i)).sum

/-- Sum, over the rows of a whole-run log, of the energy delta of zone `i`. -/
def wholeRunEnergy (i : Nat) (log : List GlobalLine) : Nat :=
  (log.map (GlobalLine.energyAt i)).sum

/-- The quantum in progress has a baseline for zone `i` (file `f`) that lies between
the energy accounted so far (the rows' deltas for zone `i`, counted from the counter
value `R` read at initialisation) and every counter value still to be read. -/
def OpenBaseline (i : Nat) (f : String) (R : Nat) (fut : List (String → FileRead))
    (k : KokkosEDPLogger) : Prop :=
  ∃ t, (baselines k)[i]? = some (f, t)
    ∧ quantaEnergy i k.logFile + R ≤ t
    ∧ ∀ x ∈ fut, t ≤ readCounter (x f)

/-- The file systems still to be seen by a run of launches followed by finalize. -/
def futureReads (ls : List Launch) (fsFinal : String → FileRead) : List (String → FileRead) :=
  (launchEvents ls).map Event.fs ++ [fsFinal]

/-- One call made on the engine while a kernel keeps being launched: the `Tick` of a
further launch of the same kernel, or a `Tock`. -/
inductive Call where
  | tick (fs : String → FileRead) (now : Int) : Call
  | tock (fs : String → FileRead) (now : Int) : Call

/-- The call is a `Tock`. -/
def Call.isTock : Call → Bool
  | .tick _ _ => false
  | .tock _ _ => true

/-- One call applied to the engine. The `Tick` of a launch whose name is the current
kernel name again is the identity shift of `kokkosp_begin_parallel_for` with
`name = curKernel`, then `Tick`. -/
def runCall (k : KokkosEDPLogger) : Call → Outcome
  | .tick fs now => .returned (kokkosp_begin_parallel_for k k.curKernel fs now)
  | .tock fs now => Tock k fs now

/-- A sequence of `Tick`/`Tock` calls, in any order. -/
def runCalls : KokkosEDPLogger → List Call → Outcome
  | k, [] => .returned k
  | k, c :: cs =>
    match runCall k c with
    | .returned k1 => runCalls k1 cs
    | .thrown k1 w => .thrown k1 w

/-- Number of `Tock`s in a sequence of calls. -/
def tockCount (cs : List Call) : Nat := cs.countP Call.isTock

/-- A `Tock` that finds zone 0 still at 1000 (zone 1 at 2500). -/
def staleTock : Call := .tock (twoFiles "1000\n" "2500\n") 6

/-- A run of `2 ^ 64 - 1` `Tock`s that all find zone 0 stale. -/
def longStaleCalls : List Call := List.replicate (2 ^ 64 - 1) staleTock

/-! ## The loop of `Tock` -/

theorem tockLoop_cons_moved (fs : String → FileRead) (d : energyDescriptor)
    (rest : List energyDescriptor) (hopen : (fs d.filename).opened = true) (hmoved : moved fs d) :
    tockLoop fs (d :: rest) = (tockLoop fs rest).cons (recordTock fs d) := by
  have hne : ¬ readCounter (fs d.filename) = d.tick := hmoved
  rw [tockLoop]
  simp only [hopen, if_true, hne, if_false]
  rfl

theorem tockLoop_all_moved (fs : String → FileRead) (descs : List energyDescriptor)
    (h : ∀ d ∈ descs, (fs d.filename).opened = true ∧ moved fs d) :
    tockLoop fs descs = .finished (descs.map (recordTock fs)) := by
  induction descs with
  | nil => rfl
  | cons d rest ih =>
    have hd := h d (List.mem_cons_self _ _)
    have hr := ih (fun x hx => h x (List.mem_cons_of_mem _ hx))
    rw [tockLoop_cons_moved fs d rest hd.1 hd.2, hr]
    rfl

theorem tockLoop_stale_at (fs : String → FileRead) (pre : List energyDescriptor)
    (d : energyDescriptor) (post : List energyDescriptor)
    (hpre : ∀ p ∈ pre, (fs p.filename).opened = true ∧ moved fs p)
    (hopen : (fs d.filename).opened = true) (hstale : readCounter (fs d.filename) = d.tick) :
    tockLoop fs (pre ++ d :: post) = .stale (pre.map (recordTock fs) ++ d :: post) := by
  induction pre with
  | nil => simp [tockLoop, hopen, hstale]
  | cons p pre ih =>
    have hp := hpre p (List.mem_cons_self _ _)
    have hr := ih (fun x hx => hpre x (List.mem_cons_of_mem _ hx))
    rw [List.cons_append, tockLoop_cons_moved fs p _ hp.1 hp.2, hr]
    rfl

theorem tockLoop_thrown_at (fs : String → FileRead) (pre : List energyDescriptor)
    (d : energyDescriptor) (post : List energyDescriptor)
    (hpre : ∀ p ∈ pre, (fs p.filename).opened = true ∧ moved fs p)
    (hopen : (fs d.filename).opened = false) :
    tockLoop fs (pre ++ d :: post)
      = .thrown (pre.map (recordTock fs) ++ d :: post) (cannotRead d.filename (fs d.filename)) := by
  induction pre with
  | nil => simp [tockLoop, hopen]
  | cons p pre ih =>
    have hp := hpre p (List.mem_cons_self _ _)
    have hr := ih (fun x hx => hpre x (List.mem_cons_of_mem _ hx))
    rw [List.cons_append, tockLoop_cons_moved fs p _ hp.1 hp.2, hr]
    rfl

/-- The loop of `Tock` ends in exactly one of three ways, decided by the first zone
(in configured order) that is stale or cannot be opened. -/
theorem tockLoop_cases (fs : String → FileRead) (descs : List energyDescriptor) :
    (∀ d ∈ descs, (fs d.filename).opened = true ∧ moved fs d)
    ∨ (∃ pre d post, descs = pre ++ d :: post
        ∧ (∀ p ∈ pre, (fs p.filename).opened = true ∧ moved fs p)
        ∧ (fs d.filename).opened = true ∧ readCounter (fs d.filename) = d.tick)
    ∨ (∃ pre d post, descs = pre ++ d :: post
        ∧ (∀ p ∈ pre, (fs p.filename).opened = true ∧ moved fs p)
        ∧ (fs d.filename).opened = false) := by
  induction descs with
  | nil => left; simp
  | cons d rest ih =>
    by_cases hopen : (fs d.filename).opened = true
    · by_cases hst : readCounter (fs d.filename) = d.tick
      · right; left
        exact ⟨[], d, rest, rfl, by simp, hopen, hst⟩
      · rcases ih with hall | ⟨pre, x, post, he, hpre, hx⟩ | ⟨pre, x, post, he, hpre, hx⟩
        · left
          intro y hy
          rcases List.mem_cons.mp hy with rfl | hy
          · exact ⟨hopen, hst⟩
          · exact hall y hy
        · right; left
          refine ⟨d :: pre, x, post, by simp [he], ?_, hx⟩
          intro y hy
          rcases List.mem_cons.mp hy with rfl | hy
          · exact ⟨hopen, hst⟩
          · exact hpre y hy
        · right; right
          refine ⟨d :: pre, x, post, by simp [he], ?_, hx⟩
          intro y hy
          rcases List.mem_cons.mp hy with rfl | hy
          · exact ⟨hopen, hst⟩
          · exact hpre y hy
    · right; right
      exact ⟨[], d, rest, rfl, by simp, by simpa using hopen⟩

/-! ## Tock and the validity of the measure -/

theorem Tock_all_moved (k : KokkosEDPLogger) (fs : String → FileRead) (now : Int)
    (h : ∀ d ∈ k.energyDescs, (fs d.filename).opened = true ∧ moved fs d) :
    Tock k fs now = .returned
      { k with
        quantumSize := (k.quantumSize + 1) % U64
        shouldCreateQuantum := true
        energyDescs := k.energyDescs.map (recordTock fs)
        timeDesc := { k.timeDesc with tock := now } } := by
  simp only [Tock]
  rw [tockLoop_all_moved fs k.energyDescs h]

theorem Tock_stale_at (k : KokkosEDPLogger) (fs : String → FileRead) (now : Int)
    (pre : List energyDescriptor) (d : energyDescriptor) (post : List energyDescriptor)
    (he : k.energyDescs = pre ++ d :: post)
    (hpre : ∀ p ∈ pre, (fs p.filename).opened = true ∧ moved fs p)
    (hopen : (fs d.filename).opened = true) (hstale : readCounter (fs d.filename) = d.tick) :
    Tock k fs now = .returned
      { k with
        quantumSize := (k.quantumSize + 1) % U64
        shouldCreateQuantum := false
        energyDescs := pre.map (recordTock fs) ++ d :: post } := by
  simp only [Tock]
  rw [he, tockLoop_stale_at fs pre d post hpre hopen hstale]

theorem Tock_thrown_at (k : KokkosEDPLogger) (fs : String → FileRead) (now : Int)
    (pre : List energyDescriptor) (d : energyDescriptor) (post : List energyDescriptor)
    (he : k.energyDescs = pre ++ d :: post)
    (hpre : ∀ p ∈ pre, (fs p.filename).opened = true ∧ moved fs p)
    (hopen : (fs d.filename).opened = false) :
    Tock k fs now = .thrown
      { k with
        quantumSize := (k.quantumSize + 1) % U64
        shouldCreateQuantum := true
        energyDescs := pre.map (recordTock fs) ++ d :: post } (cannotRead d.filename (fs d.filename)) := by
  simp only [Tock]
  rw [he, tockLoop_thrown_at fs pre d post hpre hopen]

/-- C1: when every configured zone's counter file can be read, `Tock` returns and
`HasValidMeasure()` is then true exactly when every configured zone's freshly read
counter differs from that zone's `tick` baseline. -/
theorem C1_hasValidMeasure_iff_all_moved (k : KokkosEDPLogger) (fs : String → FileRead)
    (now : Int) (hread : allOpened fs k.energyDescs) :
    ∃ k', Tock k fs now = .returned k' ∧
      (k'.HasValidMeasure = true ↔ ∀ d ∈ k.energyDescs, moved fs d) := by
  rcases tockLoop_cases fs k.energyDescs with hall | ⟨pre, d, post, he, hpre, hopen, hst⟩
      | ⟨pre, d, post, he, _, hopen⟩
  · refine ⟨_, Tock_all_moved k fs now hall, ?_⟩
    simp only [KokkosEDPLogger.HasValidMeasure, true_iff]
    exact fun d hd => (hall d hd).2
  · refine ⟨_, Tock_stale_at k fs now pre d post he hpre hopen hst, ?_⟩
    simp only [KokkosEDPLogger.HasValidMeasure, Bool.false_eq_true, false_iff]
    intro hmv
    exact hmv d (by rw [he]; simp) hst
  · have := hread d (by rw [he]; simp)
    rw [hopen] at this
    exact absurd this (by decide)

/-- C1 at a concrete input: both zones moved (`1100 ≠ 1000`, `2600 ≠ 2000`). -/
theorem C1_hasValidMeasure_iff_all_moved_witness :
    allOpened (twoFiles "1100\n" "2600\n") twoZones.energyDescs ∧
    ∃ k', Tock twoZones (twoFiles "1100\n" "2600\n") 9 = .returned k' ∧
      (k'.HasValidMeasure = true ↔
        ∀ d ∈ twoZones.energyDescs, moved (twoFiles "1100\n" "2600\n") d) :=
  ⟨by decide, C1_hasValidMeasure_iff_all_moved twoZones (twoFiles "1100\n" "2600\n") 9 (by decide)⟩

/-! ## Tick -/

/-- C2: `Tick` is decided by its trigger. When `shouldCreateQuantum` is true or
`prevKernel` differs from `curKernel`, it stores in every zone's `tick` the counter
freshly read for that zone, stores the clock sample in the time `tick`, resets
`quantumSize` to 0 and changes nothing else (flag, kernel names, every `tock`, every
`globalTick`/`globalTock`, both logs). When `shouldCreateQuantum` is false and the
two names are equal, it leaves the whole state unchanged. -/
theorem C2_Tick_characterised (k : KokkosEDPLogger) (fs : String → FileRead) (now : Int) :
    ((k.shouldCreateQuantum = true ∨ k.prevKernel ≠ k.curKernel) →
      Tick k fs now =
        { shouldCreateQuantum := k.shouldCreateQuantum
          energyDescs := k.energyDescs.map (fun d =>
            { filename := d.filename, globalTick := d.globalTick, globalTock := d.globalTock,
              tick := readCounter (fs d.filename), tock := d.tock })
          timeDesc :=
            { globalTick := k.timeDesc.globalTick, globalTock := k.timeDesc.globalTock,
              tick := now, tock := k.timeDesc.tock }
          logFile := k.logFile
          globalLogFile := k.globalLogFile
          curKernel := k.curKernel
          prevKernel := k.prevKernel
          quantumSize := 0 })
    ∧ ((k.shouldCreateQuantum = false ∧ k.prevKernel = k.curKernel) → Tick k fs now = k) := by
  constructor
  · intro h
    simp only [Tick, if_pos h]
  · rintro ⟨h1, h2⟩
    have h : ¬ (k.shouldCreateQuantum = true ∨ k.prevKernel ≠ k.curKernel) := by
      simp [h1, h2]
    simp only [Tick, if_neg h]

/-- C2 at concrete inputs: a triggered `Tick` re-samples both baselines (to 1234 and
5678) and resets `quantumSize`; an untriggered `Tick` changes nothing. -/
theorem C2_Tick_characterised_witness :
    Tick { twoZones with quantumSize := 3 } (twoFiles "1234\n" "5678\n") 7 =
      { twoZones with
        energyDescs :=
          [ { filename := "zone0", globalTick := 900, globalTock := 0, tick := 1234, tock := 0 },
            { filename := "zone1", globalTick := 1900, globalTock := 0, tick := 5678, tock := 0 } ]
        timeDesc := { globalTick := 0, globalTock := 0, tick := 7, tock := 0 }
        quantumSize := 0 }
    ∧ Tick { twoZones with shouldCreateQuantum := false, quantumSize := 3 }
        (twoFiles "1234\n" "5678\n") 7
      = { twoZones with shouldCreateQuantum := false, quantumSize := 3 } :=
  ⟨((C2_Tick_characterised { twoZones with quantumSize := 3 }
        (twoFiles "1234\n" "5678\n") 7).1 (Or.inl rfl)).trans (by decide),
   (C2_Tick_characterised { twoZones with shouldCreateQuantum := false, quantumSize := 3 }
        (twoFiles "1234\n" "5678\n") 7).2 ⟨rfl, by decide⟩⟩

/-! ## The row written at the end of a launch -/

theorem endLaunch_all_moved (k : KokkosEDPLogger) (fs : String → FileRead) (now : Int)
    (h : ∀ d ∈ k.energyDescs, (fs d.filename).opened = true ∧ moved fs d) :
    kokkosp_end_parallel_for k fs now = .returned
      { closedState k fs now with
        logFile := k.logFile ++ [kernelSample (closedState k fs now)] } := by
  simp only [kokkosp_end_parallel_for, Tock_all_moved k fs now h,
    KokkosEDPLogger.HasValidMeasure, if_true]
  rfl

theorem endLaunch_stale_at (k : KokkosEDPLogger) (fs : String → FileRead) (now : Int)
    (pre : List energyDescriptor) (d : energyDescriptor) (post : List energyDescriptor)
    (he : k.energyDescs = pre ++ d :: post)
    (hpre : ∀ p ∈ pre, (fs p.filename).opened = true ∧ moved fs p)
    (hopen : (fs d.filename).opened = true) (hstale : readCounter (fs d.filename) = d.tick) :
    kokkosp_end_parallel_for k fs now = .returned
      { k with
        quantumSize := (k.quantumSize + 1) % U64
        shouldCreateQuantum := false
        energyDescs := pre.map (recordTock fs) ++ d :: post } := by
  simp [kokkosp_end_parallel_for, Tock_stale_at k fs now pre d post he hpre hopen hstale,
    KokkosEDPLogger.HasValidMeasure]

theorem kernelSample_closedState (k : KokkosEDPLogger) (fs : String → FileRead) (now : Int) :
    kernelSample (closedState k fs now) =
      .sample k.curKernel ((k.quantumSize + 1) % U64) (now - k.timeDesc.tick)
        (k.energyDescs.map (fun d => sub64 (readCounter (fs d.filename)) d.tick)) := by
  simp [kernelSample, closedState, List.map_map, Function.comp_def, recordTock]

/-- C3: `kokkosp_end_parallel_for` appends a row exactly when its `Tock` returned
normally with every zone read and different from its `tick` baseline. The row then
carries `curKernel`, the incremented `quantumSize`, the elapsed time, and for every
zone in configured order the 64-bit difference between the counter read by this very
`Tock` and the zone's `tick` baseline. In every other case the log is left as it was. -/
theorem C3_endLaunch_row (k : KokkosEDPLogger) (fs : String → FileRead) (now : Int) :
    (((Tock k fs now).isReturned = true
        ∧ ∀ d ∈ k.energyDescs, (fs d.filename).opened = true ∧ moved fs d) →
      ∃ k', kokkosp_end_parallel_for k fs now = .returned k' ∧
        k'.logFile = k.logFile ++
          [.sample k.curKernel ((k.quantumSize + 1) % U64) (now - k.timeDesc.tick)
            (k.energyDescs.map (fun d => sub64 (readCounter (fs d.filename)) d.tick))])
    ∧ (¬ ((Tock k fs now).isReturned = true
        ∧ ∀ d ∈ k.energyDescs, (fs d.filename).opened = true ∧ moved fs d) →
      (kokkosp_end_parallel_for k fs now).state.logFile = k.logFile) := by
  rcases tockLoop_cases fs k.energyDescs with hall | ⟨pre, d, post, he, hpre, hopen, hst⟩
      | ⟨pre, d, post, he, hpre, hopen⟩
  · have hT := Tock_all_moved k fs now hall
    constructor
    · intro _
      refine ⟨_, endLaunch_all_moved k fs now hall, ?_⟩
      simp only [kernelSample_closedState]
    · intro hn
      exact absurd ⟨by rw [hT]; rfl, hall⟩ hn
  · have hT := Tock_stale_at k fs now pre d post he hpre hopen hst
    constructor
    · rintro ⟨_, hmv⟩
      exact absurd hst (hmv d (by rw [he]; simp)).2
    · intro _
      rw [endLaunch_stale_at k fs now pre d post he hpre hopen hst]
      rfl
  · have hT := Tock_thrown_at k fs now pre d post he hpre hopen
    constructor
    · rintro ⟨_, hmv⟩
      have := (hmv d (by rw [he]; simp)).1
      rw [hopen] at this
      exact absurd this (by decide)
    · intro _
      simp [kokkosp_end_parallel_for, hT, Outcome.state]

/-- C3 at concrete inputs: with both zones moved the row `("A", 1, 4, [100, 600])` is
appended; with zone 0 stale nothing is appended. -/
theorem C3_endLaunch_row_witness :
    (∃ k', kokkosp_end_parallel_for twoZones (twoFiles "1100\n" "2600\n") 9 = .returned k' ∧
        k'.logFile = [.sample "A" 1 4 [100, 600]])
    ∧ (kokkosp_end_parallel_for twoZones (twoFiles "1000\n" "2500\n") 9).state.logFile = [] :=
  ⟨(C3_endLaunch_row twoZones (twoFiles "1100\n" "2600\n") 9).1 (by decide),
   (C3_endLaunch_row twoZones (twoFiles "1000\n" "2500\n") 9).2 (by decide)⟩

/-! ## The short circuit of Tock -/

/-- C4: when zone `d` is the first zone in configured order whose freshly read counter
equals its `tick` baseline, and every zone before it was read and had moved, `Tock`
returns with `shouldCreateQuantum` false, has stored the fresh reading in `tock` for
exactly the zones before `d`, and leaves unchanged the `tock` of `d` and of every later
zone, the whole time descriptor (time `tock` and time `tick`) and every `tick` baseline. -/
theorem C4_Tock_short_circuit (k : KokkosEDPLogger) (fs : String → FileRead) (now : Int)
    (pre : List energyDescriptor) (d : energyDescriptor) (post : List energyDescriptor)
    (he : k.energyDescs = pre ++ d :: post)
    (hpre : ∀ p ∈ pre, (fs p.filename).opened = true ∧ moved fs p)
    (hopen : (fs d.filename).opened = true) (hstale : readCounter (fs d.filename) = d.tick) :
    ∃ k', Tock k fs now = .returned k' ∧ k'.shouldCreateQuantum = false
      ∧ k'.energyDescs = pre.map (fun p =>
            { filename := p.filename, globalTick := p.globalTick, globalTock := p.globalTock,
              tick := p.tick, tock := readCounter (fs p.filename) }) ++ d :: post
      ∧ k'.timeDesc = k.timeDesc
      ∧ k'.energyDescs.map (fun x => x.tick) = k.energyDescs.map (fun x => x.tick) := by
  refine ⟨_, Tock_stale_at k fs now pre d post he hpre hopen hstale, rfl, rfl, rfl, ?_⟩
  simp [he, List.map_map, Function.comp_def, recordTock]

/-- C4 at a concrete input: zone 0 moved (1100), zone 1 is stale (2000). -/
theorem C4_Tock_short_circuit_witness :
    ∃ k', Tock twoZones (twoFiles "1100\n" "2000\n") 9 = .returned k'
      ∧ k'.shouldCreateQuantum = false
      ∧ k'.energyDescs =
          [ { filename := "zone0", globalTick := 900, globalTock := 0, tick := 1000, tock := 1100 },
            { filename := "zone1", globalTick := 1900, globalTock := 0, tick := 2000, tock := 0 } ]
      ∧ k'.timeDesc = twoZones.timeDesc
      ∧ k'.energyDescs.map (fun x => x.tick) = twoZones.energyDescs.map (fun x => x.tick) :=
  C4_Tock_short_circuit twoZones (twoFiles "1100\n" "2000\n") 9
    [{ filename := "zone0", globalTick := 900, globalTock := 0, tick := 1000, tock := 0 }]
    { filename := "zone1", globalTick := 1900, globalTock := 0, tick := 2000, tock := 0 } []
    rfl (by decide) (by decide) (by decide)

/-! ## The three ways a launch can end -/

/-- Every call of `kokkosp_end_parallel_for` ends in one of three ways: the quantum
closes and a row is written, `Tock` stops at a first stale zone, or `Tock` throws at a
first zone that cannot be opened. -/
theorem endLaunch_cases (k : KokkosEDPLogger) (fs : String → FileRead) (now : Int) :
    ((∀ d ∈ k.energyDescs, (fs d.filename).opened = true ∧ moved fs d)
      ∧ kokkosp_end_parallel_for k fs now = .returned (emittedState k fs now))
    ∨ (∃ pre d post, k.energyDescs = pre ++ d :: post
        ∧ (∀ p ∈ pre, (fs p.filename).opened = true ∧ moved fs p)
        ∧ (fs d.filename).opened = true ∧ readCounter (fs d.filename) = d.tick
        ∧ kokkosp_end_parallel_for k fs now = .returned (staleState k fs pre d post))
    ∨ (∃ pre d post, k.energyDescs = pre ++ d :: post
        ∧ (∀ p ∈ pre, (fs p.filename).opened = true ∧ moved fs p)
        ∧ (fs d.filename).opened = false
        ∧ kokkosp_end_parallel_for k fs now
            = .thrown (thrownState k fs pre d post) (cannotRead d.filename (fs d.filename))) := by
  rcases tockLoop_cases fs k.energyDescs with hall | ⟨pre, d, post, he, hpre, hopen, hst⟩
      | ⟨pre, d, post, he, hpre, hopen⟩
  · exact Or.inl ⟨hall, endLaunch_all_moved k fs now hall⟩
  · exact Or.inr (Or.inl ⟨pre, d, post, he, hpre, hopen, hst,
      endLaunch_stale_at k fs now pre d post he hpre hopen hst⟩)
  · refine Or.inr (Or.inr ⟨pre, d, post, he, hpre, hopen, ?_⟩)
    simp only [kokkosp_end_parallel_for, Tock_thrown_at k fs now pre d post he hpre hopen]
    rfl

/-- With every counter file readable, `kokkosp_end_parallel_for` returns: either the
quantum closes, or `Tock` stops at a first stale zone. -/
theorem endLaunch_cases_opened (k : KokkosEDPLogger) (fs : String → FileRead) (now : Int)
    (hread : allOpened fs k.energyDescs) :
    ((∀ d ∈ k.energyDescs, (fs d.filename).opened = true ∧ moved fs d)
      ∧ kokkosp_end_parallel_for k fs now = .returned (emittedState k fs now))
    ∨ (∃ pre d post, k.energyDescs = pre ++ d :: post
        ∧ (∀ p ∈ pre, (fs p.filename).opened = true ∧ moved fs p)
        ∧ (fs d.filename).opened = true ∧ readCounter (fs d.filename) = d.tick
        ∧ kokkosp_end_parallel_for k fs now = .returned (staleState k fs pre d post)) := by
  rcases endLaunch_cases k fs now with h | h | ⟨pre, d, post, he, _, hopen, _⟩
  · exact Or.inl h
  · exact Or.inr h
  · have := hread d (by rw [he]; simp)
    rw [hopen] at this
    exact absurd this (by decide)

/-! ## Frame facts -/

theorem map_filename_recordTock (fs : String → FileRead) (ds : List energyDescriptor) :
    (ds.map (recordTock fs)).map (fun d => d.filename) = ds.map (fun d => d.filename) := by
  simp [List.map_map, Function.comp_def, recordTock]

theorem map_filename_recordTick (fs : String → FileRead) (ds : List energyDescriptor) :
    (ds.map (recordTick fs)).map (fun d => d.filename) = ds.map (fun d => d.filename) := by
  simp [List.map_map, Function.comp_def, recordTick]

/-- Whether all files open depends only on the file names of the zones. -/
theorem allOpened_congr (fs : String → FileRead) (ds es : List energyDescriptor)
    (h : ds.map (fun d => d.filename) = es.map (fun d => d.filename)) :
    allOpened fs ds ↔ allOpened fs es := by
  have key : ∀ xs : List energyDescriptor,
      allOpened fs xs ↔ ∀ f ∈ xs.map (fun d => d.filename), (fs f).opened = true := by
    intro xs
    simp [allOpened]
  rw [key, key, h]

/-- The result of `Tick` when its trigger holds. -/
theorem Tick_triggered (k : KokkosEDPLogger) (fs : String → FileRead) (now : Int)
    (h : k.shouldCreateQuantum = true ∨ k.prevKernel ≠ k.curKernel) :
    Tick k fs now =
      { k with
        energyDescs := k.energyDescs.map (recordTick fs)
        timeDesc := { k.timeDesc with tick := now }
        quantumSize := 0 } := by
  simp only [Tick, if_pos h]
  rfl

/-- The result of `Tick` when its trigger does not hold. -/
theorem Tick_idle (k : KokkosEDPLogger) (fs : String → FileRead) (now : Int)
    (h : ¬ (k.shouldCreateQuantum = true ∨ k.prevKernel ≠ k.curKernel)) :
    Tick k fs now = k := by
  simp only [Tick, if_neg h]

/-- The two ways `kokkosp_begin_parallel_for` can go. -/
theorem beginLaunch_cases (k : KokkosEDPLogger) (name : String) (fs : String → FileRead)
    (now : Int) :
    ((k.shouldCreateQuantum = true ∨ k.curKernel ≠ name)
      ∧ kokkosp_begin_parallel_for k name fs now =
        { k with
          prevKernel := k.curKernel
          curKernel := name
          energyDescs := k.energyDescs.map (recordTick fs)
          timeDesc := { k.timeDesc with tick := now }
          quantumSize := 0 })
    ∨ ((k.shouldCreateQuantum = false ∧ k.curKernel = name)
      ∧ kokkosp_begin_parallel_for k name fs now =
        { k with prevKernel := k.curKernel, curKernel := name }) := by
  by_cases h : k.shouldCreateQuantum = true ∨ k.curKernel ≠ name
  · left
    exact ⟨h, Tick_triggered { k with prevKernel := k.curKernel, curKernel := name } fs now h⟩
  · right
    exact ⟨by simpa using h,
      Tick_idle { k with prevKernel := k.curKernel, curKernel := name } fs now h⟩

/-- What a returning `kokkosp_end_parallel_for` keeps and what it changes. -/
theorem endLaunch_returned_frame (k : KokkosEDPLogger) (fs : String → FileRead) (now : Int)
    (k' : KokkosEDPLogger) (h : kokkosp_end_parallel_for k fs now = .returned k') :
    k'.curKernel = k.curKernel
    ∧ k'.quantumSize = (k.quantumSize + 1) % U64
    ∧ k'.energyDescs.map (fun d => d.filename) = k.energyDescs.map (fun d => d.filename)
    ∧ k'.energyDescs.map (fun d => d.tick) = k.energyDescs.map (fun d => d.tick)
    ∧ ((k'.shouldCreateQuantum = false ∧ k'.logFile = k.logFile)
      ∨ (k'.shouldCreateQuantum = true
          ∧ (∀ d ∈ k.energyDescs, (fs d.filename).opened = true ∧ moved fs d)
          ∧ k' = emittedState k fs now)) := by
  rcases endLaunch_cases k fs now with ⟨hall, he⟩ | ⟨pre, d, post, hd, _, _, _, he⟩
      | ⟨pre, d, post, _, _, _, he⟩
  · rw [he] at h
    injection h with h
    subst h
    refine ⟨rfl, rfl, ?_, ?_, Or.inr ⟨rfl, hall, rfl⟩⟩
    · simp [emittedState, closedState, List.map_map, Function.comp_def, recordTock]
    · simp [emittedState, closedState, List.map_map, Function.comp_def, recordTock]
  · rw [he] at h
    injection h with h
    subst h
    refine ⟨rfl, rfl, ?_, ?_, Or.inl ⟨rfl, rfl⟩⟩
    · simp [staleState, hd, List.map_map, Function.comp_def, recordTock]
    · simp [staleState, hd, List.map_map, Function.comp_def, recordTock]
  · rw [he] at h
    exact Outcome.noConfusion h

/-- What `kokkosp_begin_parallel_for` keeps. -/
theorem beginLaunch_frame (k : KokkosEDPLogger) (name : String) (fs : String → FileRead)
    (now : Int) :
    (kokkosp_begin_parallel_for k name fs now).curKernel = name
    ∧ (kokkosp_begin_parallel_for k name fs now).logFile = k.logFile
    ∧ (kokkosp_begin_parallel_for k name fs now).energyDescs.map (fun d => d.filename)
        = k.energyDescs.map (fun d => d.filename) := by
  rcases beginLaunch_cases k name fs now with ⟨_, he⟩ | ⟨_, he⟩
  · rw [he]
    exact ⟨rfl, rfl, map_filename_recordTick fs k.energyDescs⟩
  · rw [he]
    exact ⟨rfl, rfl, rfl⟩

/-! ## Runs -/

theorem runEvents_append (k : KokkosEDPLogger) (es fs : List Event) :
    runEvents k (es ++ fs) =
      match runEvents k es with
      | .returned k1 => runEvents k1 fs
      | .thrown k1 w => .thrown k1 w := by
  induction es generalizing k with
  | nil => rfl
  | cons e es ih =>
    simp only [List.cons_append, runEvents]
    cases step k e with
    | returned k1 => exact ih k1
    | thrown k1 w => rfl

theorem launchEvents_append (ls ms : List Launch) :
    launchEvents (ls ++ ms) = launchEvents ls ++ launchEvents ms := by
  induction ls with
  | nil => rfl
  | cons l ls ih => simp [launchEvents, ih]

/-- Running one more launch after a run that returned. -/
theorem runLaunches_snoc (k0 k : KokkosEDPLogger) (ls : List Launch) (l : Launch)
    (h : runLaunches k0 ls = .returned k) :
    runLaunches k0 (ls ++ [l]) =
      kokkosp_end_parallel_for (kokkosp_begin_parallel_for k l.name l.beginFs l.beginNow)
        l.endFs l.endNow := by
  unfold runLaunches at h ⊢
  rw [launchEvents_append, runEvents_append, h]
  simp only [launchEvents, runEvents, step]
  cases kokkosp_end_parallel_for (kokkosp_begin_parallel_for k l.name l.beginFs l.beginNow)
      l.endFs l.endNow <;> rfl

theorem mem_take_of_le {α : Type} (l : List α) (m n : Nat) (h : m ≤ n) (x : α)
    (hx : x ∈ l.take m) : x ∈ l.take n := by
  have : l.take m = (l.take n).take m := by
    rw [List.take_take, Nat.min_eq_left h]
  rw [this] at hx
  exact List.mem_of_mem_take hx

/-- One launch keeps the launches of a quantum under one name. -/
theorem Coalesced_launch (k k' : KokkosEDPLogger) (recent : List String) (l : Launch)
    (hc : Coalesced k recent)
    (h : kokkosp_end_parallel_for (kokkosp_begin_parallel_for k l.name l.beginFs l.beginNow)
        l.endFs l.endNow = .returned k') :
    Coalesced k' (l.name :: recent) := by
  obtain ⟨hcur, hq, _, _, _⟩ := endLaunch_returned_frame _ _ _ _ h
  intro x hx
  rw [hcur, (beginLaunch_frame k l.name l.beginFs l.beginNow).1]
  rw [hq] at hx
  rcases beginLaunch_cases k l.name l.beginFs l.beginNow with ⟨_, he⟩ | ⟨⟨_, hname⟩, he⟩
  · rw [he] at hx
    have h1 : (0 + 1) % U64 = 1 := by decide
    simp only [h1, List.take_succ_cons, List.take_zero, List.mem_singleton] at hx
    exact hx
  · rw [he] at hx
    have hx' := mem_take_of_le (l.name :: recent) _ (k.quantumSize + 1)
      (Nat.mod_le _ _) x hx
    rw [List.take_succ_cons] at hx'
    rcases List.mem_cons.mp hx' with rfl | hx'
    · rfl
    · rw [← hname]
      exact hc x hx'

/-- With readable counter files a launch returns. -/
theorem launch_returns (k : KokkosEDPLogger) (l : Launch)
    (hread : allOpened l.endFs k.energyDescs) :
    ∃ k', kokkosp_end_parallel_for (kokkosp_begin_parallel_for k l.name l.beginFs l.beginNow)
        l.endFs l.endNow = .returned k' := by
  have hopen : allOpened l.endFs
      (kokkosp_begin_parallel_for k l.name l.beginFs l.beginNow).energyDescs :=
    (allOpened_congr l.endFs _ _ (beginLaunch_frame k l.name l.beginFs l.beginNow).2.2).mpr hread
  rcases endLaunch_cases_opened _ l.endFs l.endNow hopen with ⟨_, he⟩ | ⟨_, _, _, _, _, _, _, he⟩
  · exact ⟨_, he⟩
  · exact ⟨_, he⟩

/-- A run of launches whose end-of-launch reads all succeed returns, keeps the zones'
file names, keeps every quantum under one name, and ends with `curKernel` equal to the
name of its last launch. -/
theorem runLaunches_spec (k0 : KokkosEDPLogger) (ls : List Launch)
    (hreads : ∀ x ∈ ls, allOpened x.endFs k0.energyDescs) :
    ∃ k, runLaunches k0 ls = .returned k
      ∧ k.energyDescs.map (fun d => d.filename) = k0.energyDescs.map (fun d => d.filename)
      ∧ Coalesced k ((ls.map (fun x => x.name)).reverse)
      ∧ (∀ p, ls.getLast? = some p → k.curKernel = p.name) := by
  induction ls using List.reverseRecOn with
  | nil =>
    refine ⟨k0, rfl, rfl, ?_, ?_⟩
    · intro x hx
      simp at hx
    · intro p hp
      simp at hp
  | append_singleton ls l ih =>
    obtain ⟨k, hk, hfn, hco, _⟩ := ih (fun x hx => hreads x (by simp [hx]))
    have hl : allOpened l.endFs k.energyDescs :=
      (allOpened_congr l.endFs _ _ hfn).mpr (hreads l (by simp))
    obtain ⟨k', hk'⟩ := launch_returns k l hl
    obtain ⟨hcur, _, hfn', _, _⟩ := endLaunch_returned_frame _ _ _ _ hk'
    refine ⟨k', by rw [runLaunches_snoc k0 k ls l hk, hk'], ?_, ?_, ?_⟩
    · rw [hfn', (beginLaunch_frame k l.name l.beginFs l.beginNow).2.2, hfn]
    · have := Coalesced_launch k k' _ l hco hk'
      simpa using this
    · intro p hp
      have hp' : l = p := by simpa [Option.or] using hp
      rw [hcur, (beginLaunch_frame k l.name l.beginFs l.beginNow).1, hp']

/-! ## Kernel names and quanta -/

/-- C5: in a run of alternating begin/end launch callbacks from any engine state `k0`
(in particular the one `kokkosp_init_library` leaves) whose end-of-launch reads all
succeed, every callback returns; a launch whose name differs from the previous launch's
name re-samples every zone's `tick` baseline and the time `tick` and resets
`quantumSize` to 0, whatever the counters show; and whenever the last launch appends a
row with name `n` and launch count `c`, every launch among the `c` most recent ones of
the run has name `n`. -/
theorem C5_names_never_coalesced (k0 : KokkosEDPLogger) (ls : List Launch) (l : Launch)
    (hreads : ∀ x ∈ ls ++ [l], allOpened x.endFs k0.energyDescs) :
    ∃ k k', runLaunches k0 ls = .returned k ∧ runLaunches k0 (ls ++ [l]) = .returned k'
      ∧ (∀ p, ls.getLast? = some p → l.name ≠ p.name →
          kokkosp_begin_parallel_for k l.name l.beginFs l.beginNow =
            { k with
              prevKernel := p.name
              curKernel := l.name
              energyDescs := k.energyDescs.map (fun d =>
                { filename := d.filename, globalTick := d.globalTick,
                  globalTock := d.globalTock, tick := readCounter (l.beginFs d.filename),
                  tock := d.tock })
              timeDesc := { k.timeDesc with tick := l.beginNow }
              quantumSize := 0 })
      ∧ (∀ n c t e, k'.logFile = k.logFile ++ [.sample n c t e] →
          ∀ x ∈ (ls ++ [l]).reverse.take c, x.name = n) := by
  obtain ⟨k, hk, hfn, hco, hlast⟩ := runLaunches_spec k0 ls (fun x hx => hreads x (by simp [hx]))
  have hl : allOpened l.endFs k.energyDescs :=
    (allOpened_congr l.endFs _ _ hfn).mpr (hreads l (by simp))
  obtain ⟨k', hk'⟩ := launch_returns k l hl
  refine ⟨k, k', hk, by rw [runLaunches_snoc k0 k ls l hk, hk'], ?_, ?_⟩
  · intro p hp hne
    have hcur := hlast p hp
    rcases beginLaunch_cases k l.name l.beginFs l.beginNow with ⟨_, he⟩ | ⟨⟨_, hname⟩, _⟩
    · rw [he, hcur]
      rfl
    · exact absurd (hname.symm.trans hcur) hne
  · intro n c t e hlog x hx
    have hco' := Coalesced_launch k k' _ l hco hk'
    obtain ⟨hcur, _, _, _, hcase⟩ := endLaunch_returned_frame _ _ _ _ hk'
    have hb := beginLaunch_frame k l.name l.beginFs l.beginNow
    rcases hcase with ⟨_, hsame⟩ | ⟨_, _, hem⟩
    · rw [hsame, hb.2.1] at hlog
      have := congrArg List.length hlog
      simp at this
    · have hlog' : k'.logFile = k.logFile ++
          [kernelSample (closedState (kokkosp_begin_parallel_for k l.name l.beginFs l.beginNow)
            l.endFs l.endNow)] := by
        rw [hem]
        simp [emittedState, hb.2.1]
      rw [hlog'] at hlog
      have hrow := List.append_cancel_left hlog
      simp only [kernelSample_closedState, List.cons.injEq, KernelLine.sample.injEq,
        and_true] at hrow
      obtain ⟨hn, hc, _, _⟩ := hrow
      have hq : k'.quantumSize = c := by
        rw [hem]
        simpa [emittedState, closedState] using hc
      have hx' : x.name ∈ (l.name :: (ls.map (fun y => y.name)).reverse).take k'.quantumSize := by
        rw [hq]
        have : (l.name :: (ls.map (fun y => y.name)).reverse)
            = ((ls ++ [l]).reverse).map (fun y => y.name) := by
          simp [List.map_reverse]
        rw [this, ← List.map_take]
        exact List.mem_map_of_mem _ hx
      rw [hco' _ hx', hcur, ← hn]

/-- C5 at a concrete run from the freshly initialised engine: kernel `"A"` is launched
with zone 0 stale, then kernel `"B"` is launched and closes. -/
theorem C5_names_never_coalesced_witness :
    (∀ x ∈ [launchOf "A" "1000\n" "2000\n" 1 "1000\n" "2500\n" 2]
          ++ [launchOf "B" "1000\n" "2500\n" 3 "1100\n" "2600\n" 4],
        allOpened x.endFs freshEngine.energyDescs)
    ∧ ∃ k k', runLaunches freshEngine [launchOf "A" "1000\n" "2000\n" 1 "1000\n" "2500\n" 2]
          = .returned k
      ∧ runLaunches freshEngine ([launchOf "A" "1000\n" "2000\n" 1 "1000\n" "2500\n" 2]
          ++ [launchOf "B" "1000\n" "2500\n" 3 "1100\n" "2600\n" 4]) = .returned k'
      ∧ (∀ p, [launchOf "A" "1000\n" "2000\n" 1 "1000\n" "2500\n" 2].getLast? = some p →
          (launchOf "B" "1000\n" "2500\n" 3 "1100\n" "2600\n" 4).name ≠ p.name →
          kokkosp_begin_parallel_for k (launchOf "B" "1000\n" "2500\n" 3 "1100\n" "2600\n" 4).name
              (launchOf "B" "1000\n" "2500\n" 3 "1100\n" "2600\n" 4).beginFs
              (launchOf "B" "1000\n" "2500\n" 3 "1100\n" "2600\n" 4).beginNow =
            { k with
              prevKernel := p.name
              curKernel := (launchOf "B" "1000\n" "2500\n" 3 "1100\n" "2600\n" 4).name
              energyDescs := k.energyDescs.map (fun d =>
                { filename := d.filename, globalTick := d.globalTick,
                  globalTock := d.globalTock,
                  tick := readCounter
                    ((launchOf "B" "1000\n" "2500\n" 3 "1100\n" "2600\n" 4).beginFs d.filename),
                  tock := d.tock })
              timeDesc :=
                { k.timeDesc with
                  tick := (launchOf "B" "1000\n" "2500\n" 3 "1100\n" "2600\n" 4).beginNow }
              quantumSize := 0 })
      ∧ (∀ n c t e, k'.logFile = k.logFile ++ [.sample n c t e] →
          ∀ x ∈ ([launchOf "A" "1000\n" "2000\n" 1 "1000\n" "2500\n" 2]
              ++ [launchOf "B" "1000\n" "2500\n" 3 "1100\n" "2600\n" 4]).reverse.take c,
            x.name = n) :=
  ⟨by decide,
   C5_names_never_coalesced freshEngine [launchOf "A" "1000\n" "2000\n" 1 "1000\n" "2500\n" 2]
    (launchOf "B" "1000\n" "2500\n" 3 "1100\n" "2600\n" 4) (by decide)⟩

/-! ## Rounds of an open quantum -/

/-- The three ways `Tock` can end. -/
theorem Tock_cases (k : KokkosEDPLogger) (fs : String → FileRead) (now : Int) :
    ((∀ d ∈ k.energyDescs, (fs d.filename).opened = true ∧ moved fs d)
      ∧ Tock k fs now = .returned (closedState k fs now))
    ∨ (∃ pre d post, k.energyDescs = pre ++ d :: post
        ∧ (∀ p ∈ pre, (fs p.filename).opened = true ∧ moved fs p)
        ∧ (fs d.filename).opened = true ∧ readCounter (fs d.filename) = d.tick
        ∧ Tock k fs now = .returned (staleState k fs pre d post))
    ∨ (∃ pre d post, k.energyDescs = pre ++ d :: post
        ∧ (∀ p ∈ pre, (fs p.filename).opened = true ∧ moved fs p)
        ∧ (fs d.filename).opened = false
        ∧ Tock k fs now = .thrown (thrownState k fs pre d post) (cannotRead d.filename (fs d.filename))) := by
  rcases tockLoop_cases fs k.energyDescs with hall | ⟨pre, d, post, he, hpre, hopen, hst⟩
      | ⟨pre, d, post, he, hpre, hopen⟩
  · exact Or.inl ⟨hall, Tock_all_moved k fs now hall⟩
  · exact Or.inr (Or.inl ⟨pre, d, post, he, hpre, hopen, hst,
      Tock_stale_at k fs now pre d post he hpre hopen hst⟩)
  · exact Or.inr (Or.inr ⟨pre, d, post, he, hpre, hopen,
      Tock_thrown_at k fs now pre d post he hpre hopen⟩)

theorem baselines_staleState (k : KokkosEDPLogger) (fs : String → FileRead)
    (pre : List energyDescriptor) (d : energyDescriptor) (post : List energyDescriptor)
    (he : k.energyDescs = pre ++ d :: post) :
    baselines (staleState k fs pre d post) = baselines k := by
  simp [baselines, staleState, he, List.map_map, Function.comp_def, recordTock]

/-- A property of file name and baseline that holds for all zones of one engine holds
for all zones of any engine with the same baselines. -/
theorem forall_of_baselines (k k' : KokkosEDPLogger) (h : baselines k' = baselines k)
    (P : String → Nat → Prop) (hP : ∀ d ∈ k.energyDescs, P d.filename d.tick) :
    ∀ d ∈ k'.energyDescs, P d.filename d.tick := by
  intro d hd
  have hmem : (d.filename, d.tick) ∈ baselines k' :=
    List.mem_map_of_mem (fun d => (d.filename, d.tick)) hd
  rw [h] at hmem
  obtain ⟨x, hx, hxe⟩ := List.mem_map.mp hmem
  have h1 : x.filename = d.filename := congrArg Prod.fst hxe
  have h2 : x.tick = d.tick := congrArg Prod.snd hxe
  rw [← h1, ← h2]
  exact hP x hx

/-- With all files readable and some zone stale, `Tock` returns with the flag false,
the count incremented, and every baseline, the time descriptor, the names and the log
untouched. -/
theorem Tock_of_stale_zone (k : KokkosEDPLogger) (fs : String → FileRead) (now : Int)
    (hread : allOpened fs k.energyDescs)
    (hz : ∃ z ∈ k.energyDescs, readCounter (fs z.filename) = z.tick) :
    ∃ k', Tock k fs now = .returned k'
      ∧ k'.shouldCreateQuantum = false
      ∧ k'.quantumSize = (k.quantumSize + 1) % U64
      ∧ baselines k' = baselines k
      ∧ k'.timeDesc = k.timeDesc
      ∧ k'.curKernel = k.curKernel
      ∧ k'.logFile = k.logFile := by
  obtain ⟨z, hzmem, hzst⟩ := hz
  rcases Tock_cases k fs now with ⟨hall, _⟩ | ⟨pre, d, post, he, _, _, _, hT⟩
      | ⟨pre, d, post, he, _, hopen, _⟩
  · exact absurd hzst (hall z hzmem).2
  · exact ⟨_, hT, rfl, rfl, baselines_staleState k fs pre d post he, rfl, rfl, rfl⟩
  · have := hread d (by rw [he]; simp)
    rw [hopen] at this
    exact absurd this (by decide)

/-- After a `Tock` that left the flag false, the `Tick` of a further launch of the
same kernel changes nothing the accounting looks at. -/
theorem sameNameTick_idle (k : KokkosEDPLogger) (t : Option ((String → FileRead) × Int))
    (h : k.shouldCreateQuantum = false) :
    (sameNameTick k t).shouldCreateQuantum = false
    ∧ (sameNameTick k t).quantumSize = k.quantumSize
    ∧ baselines (sameNameTick k t) = baselines k
    ∧ (sameNameTick k t).timeDesc = k.timeDesc
    ∧ (sameNameTick k t).curKernel = k.curKernel
    ∧ (sameNameTick k t).logFile = k.logFile := by
  cases t with
  | none => exact ⟨h, rfl, rfl, rfl, rfl, rfl⟩
  | some p =>
    obtain ⟨fs, now⟩ := p
    rcases beginLaunch_cases k k.curKernel fs now with ⟨ht, _⟩ | ⟨_, he⟩
    · rcases ht with ht | ht
      · rw [h] at ht
        exact absurd ht (by decide)
      · exact absurd rfl ht
    · have hs : sameNameTick k (some (fs, now))
          = { k with prevKernel := k.curKernel, curKernel := k.curKernel } := he
      rw [hs]
      exact ⟨h, rfl, rfl, rfl, rfl, rfl⟩

theorem allOpened_of_baselines (fs : String → FileRead) (k k' : KokkosEDPLogger)
    (h : baselines k' = baselines k) (hread : allOpened fs k.energyDescs) :
    allOpened fs k'.energyDescs :=
  forall_of_baselines k k' h (fun f _ => (fs f).opened = true) hread

theorem U64_eq : U64 = 18446744073709551616 := by decide

theorem exists_of_baselines (k k' : KokkosEDPLogger) (h : baselines k' = baselines k)
    (P : String → Nat → Prop) (hP : ∃ d ∈ k.energyDescs, P d.filename d.tick) :
    ∃ d ∈ k'.energyDescs, P d.filename d.tick := by
  obtain ⟨d, hd, hPd⟩ := hP
  have hmem : (d.filename, d.tick) ∈ baselines k :=
    List.mem_map_of_mem (fun d => (d.filename, d.tick)) hd
  rw [← h] at hmem
  obtain ⟨x, hx, hxe⟩ := List.mem_map.mp hmem
  have h1 : x.filename = d.filename := congrArg Prod.fst hxe
  have h2 : x.tick = d.tick := congrArg Prod.snd hxe
  exact ⟨x, hx, by rw [h1, h2]; exact hPd⟩

/-- One round with all files readable and some zone stale. -/
theorem runRound_stale (k : KokkosEDPLogger) (r : Round)
    (hread : allOpened r.tockFs k.energyDescs)
    (hz : ∃ z ∈ k.energyDescs, readCounter (r.tockFs z.filename) = z.tick) :
    ∃ k', runRound k r = .returned k'
      ∧ k'.shouldCreateQuantum = false
      ∧ k'.quantumSize = (k.quantumSize + 1) % U64
      ∧ baselines k' = baselines k
      ∧ k'.timeDesc = k.timeDesc
      ∧ k'.curKernel = k.curKernel
      ∧ k'.logFile = k.logFile := by
  obtain ⟨k1, hT, hs, hq, hb, ht, hc, hl⟩ := Tock_of_stale_zone k r.tockFs r.tockNow hread hz
  obtain ⟨hs', hq', hb', ht', hc', hl'⟩ := sameNameTick_idle k1 r.thenTick hs
  refine ⟨sameNameTick k1 r.thenTick, ?_, hs', hq'.trans hq, hb'.trans hb, ht'.trans ht,
    hc'.trans hc, hl'.trans hl⟩
  simp only [runRound, hT]

/-- A sequence of rounds, each with all files readable and some zone stale, returns;
it leaves the count advanced by the number of rounds (modulo `2 ^ 64`) and every
baseline, the time descriptor, the kernel name and the log untouched. -/
theorem runRounds_stale (rs : List Round) (k : KokkosEDPLogger) (hq : k.quantumSize < U64)
    (hreads : ∀ r ∈ rs, allOpened r.tockFs k.energyDescs)
    (hstale : ∀ r ∈ rs, ∃ z ∈ k.energyDescs, readCounter (r.tockFs z.filename) = z.tick) :
    ∃ k', runRounds k rs = .returned k'
      ∧ k'.quantumSize = (k.quantumSize + rs.length) % U64
      ∧ baselines k' = baselines k
      ∧ k'.timeDesc = k.timeDesc
      ∧ k'.curKernel = k.curKernel
      ∧ k'.logFile = k.logFile
      ∧ (rs ≠ [] → k'.shouldCreateQuantum = false) := by
  induction rs generalizing k with
  | nil =>
    refine ⟨k, rfl, ?_, rfl, rfl, rfl, rfl, fun h => absurd rfl h⟩
    simp only [List.length_nil, Nat.add_zero]
    exact (Nat.mod_eq_of_lt hq).symm
  | cons r rs ih =>
    obtain ⟨k1, hr, hs1, hq1, hb1, ht1, hc1, hl1⟩ :=
      runRound_stale k r (hreads r (List.mem_cons_self _ _)) (hstale r (List.mem_cons_self _ _))
    have hq1' : k1.quantumSize < U64 := by
      rw [hq1]
      exact Nat.mod_lt _ (by decide)
    obtain ⟨k2, hrun, hq2, hb2, ht2, hc2, hl2, hs2⟩ := ih k1 hq1'
      (fun x hx => allOpened_of_baselines x.tockFs k k1 hb1 (hreads x (List.mem_cons_of_mem _ hx)))
      (fun x hx => exists_of_baselines k k1 hb1 (fun f t => readCounter (x.tockFs f) = t)
        (hstale x (List.mem_cons_of_mem _ hx)))
    refine ⟨k2, ?_, ?_, hb2.trans hb1, ht2.trans ht1, hc2.trans hc1, hl2.trans hl1, ?_⟩
    · simp only [runRounds, hr, hrun]
    · rw [hq2, hq1, List.length_cons, U64_eq]
      omega
    · intro _
      cases rs with
      | nil =>
        simp only [runRounds] at hrun
        injection hrun with hrun
        rw [← hrun]
        exact hs1
      | cons x xs => exact hs2 (by simp)

/-- The state an opening `Tick` leaves: count 0, baselines freshly read. -/
theorem Tick_opened (kpre : KokkosEDPLogger) (fs0 : String → FileRead) (now0 : Int)
    (hopen : kpre.shouldCreateQuantum = true ∨ kpre.prevKernel ≠ kpre.curKernel) :
    (Tick kpre fs0 now0).quantumSize = 0
    ∧ baselines (Tick kpre fs0 now0)
        = kpre.energyDescs.map (fun d => (d.filename, readCounter (fs0 d.filename)))
    ∧ (Tick kpre fs0 now0).timeDesc.tick = now0
    ∧ (Tick kpre fs0 now0).curKernel = kpre.curKernel
    ∧ (Tick kpre fs0 now0).logFile = kpre.logFile
    ∧ (Tick kpre fs0 now0).energyDescs.map (fun d => d.filename)
        = kpre.energyDescs.map (fun d => d.filename) := by
  rw [Tick_triggered kpre fs0 now0 hopen]
  refine ⟨rfl, ?_, rfl, rfl, rfl, ?_⟩
  · simp [baselines, List.map_map, Function.comp_def, recordTick]
  · simp [List.map_map, Function.comp_def, recordTick]

/-- A zone of the engine before an opening `Tick` that a later reading finds stale
against the freshly sampled baseline is a stale zone of the opened engine. -/
theorem stale_zone_of_opened (kpre : KokkosEDPLogger) (fs0 fs : String → FileRead) (now0 : Int)
    (hopen : kpre.shouldCreateQuantum = true ∨ kpre.prevKernel ≠ kpre.curKernel)
    (hz : ∃ z ∈ kpre.energyDescs, readCounter (fs z.filename) = readCounter (fs0 z.filename)) :
    ∃ z ∈ (Tick kpre fs0 now0).energyDescs, readCounter (fs z.filename) = z.tick := by
  obtain ⟨z, hzm, hzs⟩ := hz
  rw [Tick_triggered kpre fs0 now0 hopen]
  exact ⟨recordTick fs0 z, List.mem_map_of_mem _ hzm, hzs⟩

theorem length_longStaleRun : longStaleRun.length = 2 ^ 64 - 1 :=
  List.length_replicate _ _

theorem eq_of_mem_longStaleRun (x : Round) (h : x ∈ longStaleRun ++ [staleRound]) :
    x = staleRound := by
  rcases List.mem_append.mp h with h | h
  · exact List.eq_of_mem_replicate h
  · exact List.mem_singleton.mp h

/-! ## A quantum that closes late -/

/-- The energy column of a row depends only on the zones' file names and baselines. -/
theorem energy_of_baselines (k : KokkosEDPLogger) (fs : String → FileRead) :
    k.energyDescs.map (fun d => sub64 (readCounter (fs d.filename)) d.tick)
      = (baselines k).map (fun p => sub64 (readCounter (fs p.1)) p.2) := by
  simp [baselines, List.map_map, Function.comp_def]

/-- C7 (amended): a quantum is opened by a triggered `Tick` that samples the baselines
`t`; then come `Tock`s that each find at least one zone stale (each optionally followed
by the `Tick` of a further launch of the same kernel); then the end of a launch whose
readings `r` differ from `t` on every zone. That last call closes the quantum: it
returns with `HasValidMeasure()` true, `quantumSize` equal to the number `k` of `Tock`s
modulo `2 ^ 64`, and appends the row carrying that count, the time since the open and
the 64-bit differences `r_i - t_i` against the original baselines. -/
theorem C7_delayed_close (kpre : KokkosEDPLogger) (fs0 : String → FileRead) (now0 : Int)
    (stales : List Round) (fs : String → FileRead) (now : Int)
    (hopen : kpre.shouldCreateQuantum = true ∨ kpre.prevKernel ≠ kpre.curKernel)
    (hreads : ∀ x ∈ stales, allOpened x.tockFs kpre.energyDescs)
    (hstale : ∀ x ∈ stales, ∃ z ∈ kpre.energyDescs,
      readCounter (x.tockFs z.filename) = readCounter (fs0 z.filename))
    (hclose : ∀ d ∈ kpre.energyDescs,
      (fs d.filename).opened = true ∧ readCounter (fs d.filename) ≠ readCounter (fs0 d.filename)) :
    ∃ k k', runRounds (Tick kpre fs0 now0) stales = .returned k
      ∧ kokkosp_end_parallel_for k fs now = .returned k'
      ∧ k'.HasValidMeasure = true
      ∧ k'.quantumSize = (stales.length + 1) % U64
      ∧ k'.logFile = kpre.logFile ++
          [.sample kpre.curKernel ((stales.length + 1) % U64) (now - now0)
            (kpre.energyDescs.map (fun d =>
              sub64 (readCounter (fs d.filename)) (readCounter (fs0 d.filename))))] := by
  obtain ⟨hq0, hb0, ht0, hc0, hl0, hfn0⟩ := Tick_opened kpre fs0 now0 hopen
  obtain ⟨k, hrun, hq, hb, ht, hc, hl, _⟩ := runRounds_stale stales (Tick kpre fs0 now0)
    (by rw [hq0]; decide)
    (fun x hx => (allOpened_congr x.tockFs _ _ hfn0).mpr (hreads x hx))
    (fun x hx => stale_zone_of_opened kpre fs0 x.tockFs now0 hopen (hstale x hx))
  have hbk : baselines k = kpre.energyDescs.map (fun d => (d.filename, readCounter (fs0 d.filename))) :=
    hb.trans hb0
  have hmoved : ∀ d ∈ k.energyDescs, (fs d.filename).opened = true ∧ moved fs d := by
    intro d hd
    have hmem : (d.filename, d.tick) ∈ baselines k :=
      List.mem_map_of_mem (fun d => (d.filename, d.tick)) hd
    rw [hbk] at hmem
    obtain ⟨x, hx, hxe⟩ := List.mem_map.mp hmem
    have h1 : x.filename = d.filename := congrArg Prod.fst hxe
    have h2 : readCounter (fs0 x.filename) = d.tick := congrArg Prod.snd hxe
    have := hclose x hx
    rw [h1] at this
    refine ⟨this.1, ?_⟩
    unfold moved
    rw [← h2, h1]
    exact this.2
  have hqk : (k.quantumSize + 1) % U64 = (stales.length + 1) % U64 := by
    rw [hq, hq0, U64_eq]
    omega
  refine ⟨k, _, hrun, endLaunch_all_moved k fs now hmoved, rfl, hqk, ?_⟩
  show k.logFile ++ [kernelSample (closedState k fs now)] = _
  rw [kernelSample_closedState, hl, hl0, hc, hc0, ht, ht0, hqk, energy_of_baselines, hbk]
  simp [List.map_map, Function.comp_def]

/-- C7 at the scenario of the specification: two zones, `Tick` records the baselines
(1000, 2000); the first `Tock` reads (1000, 2500) and leaves the quantum open with
`quantumSize = 1`; the second reads (1100, 2600) and closes with `quantumSize = 2` and
the energy deltas (100, 600). -/
theorem C7_delayed_close_witness :
    (∃ k k', runRounds (Tick twoZones (twoFiles "1000\n" "2000\n") 5) [staleRound] = .returned k
      ∧ kokkosp_end_parallel_for k (twoFiles "1100\n" "2600\n") 9 = .returned k'
      ∧ k'.HasValidMeasure = true
      ∧ k'.quantumSize = ([staleRound].length + 1) % U64
      ∧ k'.logFile = twoZones.logFile ++
          [.sample twoZones.curKernel (([staleRound].length + 1) % U64) (9 - 5)
            (twoZones.energyDescs.map (fun d =>
              sub64 (readCounter (twoFiles "1100\n" "2600\n" d.filename))
                (readCounter (twoFiles "1000\n" "2000\n" d.filename))))])
    ∧ (Tick twoZones (twoFiles "1000\n" "2000\n") 5).energyDescs.map (fun d => d.tick)
        = [1000, 2000]
    ∧ (Tock (Tick twoZones (twoFiles "1000\n" "2000\n") 5) (twoFiles "1000\n" "2500\n") 6).state.quantumSize
        = 1
    ∧ (Tock (Tick twoZones (twoFiles "1000\n" "2000\n") 5) (twoFiles "1000\n" "2500\n") 6).state.HasValidMeasure
        = false
    ∧ (kokkosp_end_parallel_for
          (runRounds (Tick twoZones (twoFiles "1000\n" "2000\n") 5) [staleRound]).state
          (twoFiles "1100\n" "2600\n") 9).state.logFile
        = [.sample "A" 2 4 [100, 600]] :=
  ⟨C7_delayed_close twoZones (twoFiles "1000\n" "2000\n") 5 [staleRound]
      (twoFiles "1100\n" "2600\n") 9 (Or.inl rfl) (by decide) (by decide) (by decide),
    by decide, by decide, by decide, by decide⟩

/-- C7 as stated fails when `2 ^ 64 - 1` stale `Tock`s precede the closing one: all
hypotheses hold, and the quantum closes with `quantumSize` 0, not `2 ^ 64`. -/
theorem C7_counterexample :
    (twoZones.shouldCreateQuantum = true ∨ twoZones.prevKernel ≠ twoZones.curKernel)
    ∧ (∀ x ∈ longStaleRun, allOpened x.tockFs twoZones.energyDescs)
    ∧ (∀ x ∈ longStaleRun, ∃ z ∈ twoZones.energyDescs,
        readCounter (x.tockFs z.filename) = readCounter (twoFiles "1000\n" "2000\n" z.filename))
    ∧ (∀ d ∈ twoZones.energyDescs, (twoFiles "1100\n" "2600\n" d.filename).opened = true
        ∧ readCounter (twoFiles "1100\n" "2600\n" d.filename)
            ≠ readCounter (twoFiles "1000\n" "2000\n" d.filename))
    ∧ ∃ k k', runRounds (Tick twoZones (twoFiles "1000\n" "2000\n") 5) longStaleRun
          = .returned k
      ∧ kokkosp_end_parallel_for k (twoFiles "1100\n" "2600\n") 9 = .returned k'
      ∧ k'.HasValidMeasure = true
      ∧ k'.quantumSize = 0
      ∧ k'.quantumSize ≠ longStaleRun.length + 1 := by
  have hopen : twoZones.shouldCreateQuantum = true ∨ twoZones.prevKernel ≠ twoZones.curKernel :=
    Or.inl rfl
  have h2 : allOpened staleRound.tockFs twoZones.energyDescs := by decide
  have h3 : ∃ z ∈ twoZones.energyDescs, readCounter (staleRound.tockFs z.filename)
      = readCounter (twoFiles "1000\n" "2000\n" z.filename) :=
    ⟨{ filename := "zone0", globalTick := 900, globalTock := 0, tick := 1000, tock := 0 },
      by decide, by decide⟩
  have hrd : ∀ x ∈ longStaleRun, allOpened x.tockFs twoZones.energyDescs := by
    intro x hx
    rw [eq_of_mem_longStaleRun x (List.mem_append_left _ hx)]
    exact h2
  have hst : ∀ x ∈ longStaleRun, ∃ z ∈ twoZones.energyDescs,
      readCounter (x.tockFs z.filename)
        = readCounter (twoFiles "1000\n" "2000\n" z.filename) := by
    intro x hx
    rw [eq_of_mem_longStaleRun x (List.mem_append_left _ hx)]
    exact h3
  have hcl : ∀ d ∈ twoZones.energyDescs, (twoFiles "1100\n" "2600\n" d.filename).opened = true
      ∧ readCounter (twoFiles "1100\n" "2600\n" d.filename)
          ≠ readCounter (twoFiles "1000\n" "2000\n" d.filename) := by decide
  refine ⟨hopen, hrd, hst, hcl, ?_⟩
  obtain ⟨hq0, hb0, _, _, _, hfn0⟩ := Tick_opened twoZones (twoFiles "1000\n" "2000\n") 5 hopen
  obtain ⟨k, hrun, hq, hb, _, _, _, _⟩ := runRounds_stale longStaleRun
    (Tick twoZones (twoFiles "1000\n" "2000\n") 5) (by rw [hq0]; decide)
    (fun x hx => (allOpened_congr x.tockFs _ _ hfn0).mpr (hrd x hx))
    (fun x hx => stale_zone_of_opened twoZones (twoFiles "1000\n" "2000\n") x.tockFs 5 hopen
      (hst x hx))
  have hmoved : ∀ d ∈ k.energyDescs,
      ((twoFiles "1100\n" "2600\n") d.filename).opened = true
        ∧ moved (twoFiles "1100\n" "2600\n") d := by
    refine forall_of_baselines (Tick twoZones (twoFiles "1000\n" "2000\n") 5) k hb
      (fun f t => ((twoFiles "1100\n" "2600\n") f).opened = true
        ∧ readCounter ((twoFiles "1100\n" "2600\n") f) ≠ t) ?_
    decide
  have hzero : (k.quantumSize + 1) % U64 = 0 := by
    rw [hq, hq0, length_longStaleRun, U64_eq]
    norm_num
  refine ⟨k, _, hrun, endLaunch_all_moved k (twoFiles "1100\n" "2600\n") 9 hmoved, rfl, hzero, ?_⟩
  show (k.quantumSize + 1) % U64 ≠ _
  rw [hzero, length_longStaleRun]
  norm_num

/-! ## Machine arithmetic -/

theorem toU64_lt (v : Int) : toU64 v < U64 := by
  unfold toU64
  have h1 : (0 : Int) ≤ v % (2 ^ 64 : Int) := Int.emod_nonneg v (by norm_num)
  have h2 : v % (2 ^ 64 : Int) < 2 ^ 64 := Int.emod_lt_of_pos v (by norm_num)
  rw [U64_eq]
  omega

theorem readCounter_lt (r : FileRead) : readCounter r < U64 := toU64_lt _

theorem sub64_ne_zero (a b : Nat) (ha : a < U64) (hb : b < U64) (h : a ≠ b) :
    sub64 a b ≠ 0 := by
  unfold sub64
  rw [U64_eq] at *
  omega

theorem sub64_eq_sub (a b : Nat) (ha : a < U64) (hab : b ≤ a) : sub64 a b = a - b := by
  unfold sub64
  rw [U64_eq] at *
  omega

/-! ## The freshly constructed engine -/

theorem openZones_spec (fileExists : String → Bool) (n i : Nat) (ds : List energyDescriptor)
    (h : openZones fileExists i n = .ok ds) :
    ds = (List.range' i n).map newDescriptor := by
  induction n generalizing i ds with
  | zero =>
    simp only [openZones] at h
    injection h with h
    rw [← h]
    rfl
  | succ n ih =>
    simp only [openZones] at h
    split at h
    · split at h
      · rename_i ds' hds
        injection h with h
        rw [← h, ih (i + 1) ds' hds]
        rfl
      · exact Except.noConfusion h
    · exact Except.noConfusion h

/-- The engine the constructor builds, when it does not throw. -/
theorem new_spec (getenv : Option String) (fileExists : String → Bool) (scq0 : Bool) (qs0 : Nat)
    (kc : KokkosEDPLogger) (h : KokkosEDPLogger.new getenv fileExists scq0 qs0 = .ok kc) :
    ∃ n, kc =
      { shouldCreateQuantum := scq0
        energyDescs := (List.range' 0 n).map newDescriptor
        timeDesc := { globalTick := 0, globalTock := 0, tick := 0, tock := 0 }
        logFile := [.header (["kernel_name", "count", "time_ms"] ++ energyColumns n)]
        globalLogFile := [.header (["time_ms"] ++ energyColumns n)]
        curKernel := ""
        prevKernel := ""
        quantumSize := qs0 % U64 } := by
  unfold KokkosEDPLogger.new at h
  cases getenv with
  | none => exact Except.noConfusion h
  | some s =>
    simp only at h
    split at h
    · exact Except.noConfusion h
    · rename_i descs hd
      injection h with h
      refine ⟨(atoi s.toList).toNat, ?_⟩
      rw [← h, openZones_spec fileExists _ 0 descs hd]

/-! ## GlobalTick and GlobalTock with readable files -/

theorem globalTickLoop_opened (fs : String → FileRead) (descs : List energyDescriptor)
    (h : allOpened fs descs) :
    globalTickLoop fs descs = .finished (descs.map (recordGlobalTick fs)) := by
  induction descs with
  | nil => rfl
  | cons d rest ih =>
    have hd : (fs d.filename).opened = true := h d (List.mem_cons_self _ _)
    have hr := ih (fun x hx => h x (List.mem_cons_of_mem _ hx))
    rw [globalTickLoop]
    simp only [hd, if_true]
    rw [hr]
    rfl

theorem globalTockLoop_opened (fs : String → FileRead) (descs : List energyDescriptor)
    (h : allOpened fs descs) :
    globalTockLoop fs descs = .finished (descs.map (recordGlobalTock fs)) := by
  induction descs with
  | nil => rfl
  | cons d rest ih =>
    have hd : (fs d.filename).opened = true := h d (List.mem_cons_self _ _)
    have hr := ih (fun x hx => h x (List.mem_cons_of_mem _ hx))
    rw [globalTockLoop]
    simp only [hd, if_true]
    rw [hr]
    rfl

theorem GlobalTick_opened (k : KokkosEDPLogger) (fs : String → FileRead) (now : Int)
    (h : allOpened fs k.energyDescs) :
    GlobalTick k fs now = .returned
      { k with
        energyDescs := k.energyDescs.map (recordGlobalTick fs)
        timeDesc := { k.timeDesc with globalTick := now } } := by
  simp only [GlobalTick, globalTickLoop_opened fs k.energyDescs h]

theorem GlobalTock_opened (k : KokkosEDPLogger) (fs : String → FileRead) (now : Int)
    (h : allOpened fs k.energyDescs) :
    GlobalTock k fs now = .returned
      { k with
        energyDescs := k.energyDescs.map (recordGlobalTock fs)
        timeDesc := { k.timeDesc with globalTock := now } } := by
  simp only [GlobalTock, globalTockLoop_opened fs k.energyDescs h]

/-! ## Invariants of a run -/

/-- A property kept by both launch callbacks holds in the state any run leaves. -/
theorem runEvents_preserves (P : KokkosEDPLogger → Prop)
    (hbegin : ∀ k name fs now, P k → P (kokkosp_begin_parallel_for k name fs now))
    (hend : ∀ k fs now, P k → P (kokkosp_end_parallel_for k fs now).state)
    (es : List Event) (k : KokkosEDPLogger) (h : P k) : P (runEvents k es).state := by
  induction es generalizing k with
  | nil => exact h
  | cons e es ih =>
    cases e with
    | beginLaunch name fs now =>
      simp only [runEvents, step]
      exact ih _ (hbegin k name fs now h)
    | endLaunch fs now =>
      have h1 := hend k fs now h
      simp only [runEvents, step]
      cases hs : kokkosp_end_parallel_for k fs now with
      | returned k1 =>
        rw [hs] at h1
        exact ih k1 h1
      | thrown k1 w =>
        rw [hs] at h1
        exact h1

theorem globalPart_begin (k : KokkosEDPLogger) (name : String) (fs : String → FileRead)
    (now : Int) : globalPart (kokkosp_begin_parallel_for k name fs now) = globalPart k := by
  rcases beginLaunch_cases k name fs now with ⟨_, he⟩ | ⟨_, he⟩
  · rw [he]
    simp [globalPart, List.map_map, Function.comp_def, recordTick]
  · rw [he]
    rfl

theorem globalPart_end (k : KokkosEDPLogger) (fs : String → FileRead) (now : Int) :
    globalPart (kokkosp_end_parallel_for k fs now).state = globalPart k := by
  rcases endLaunch_cases k fs now with ⟨_, he⟩ | ⟨pre, d, post, hd, _, _, _, he⟩
      | ⟨pre, d, post, hd, _, _, he⟩
  · rw [he]
    simp [globalPart, Outcome.state, emittedState, closedState, List.map_map,
      Function.comp_def, recordTock]
  · rw [he]
    simp [globalPart, Outcome.state, staleState, hd, List.map_map, Function.comp_def,
      recordTock]
  · rw [he]
    simp [globalPart, Outcome.state, thrownState, hd, List.map_map, Function.comp_def,
      recordTock]

/-- No launch callback touches the whole-run fields. -/
theorem globalPart_runEvents (k : KokkosEDPLogger) (es : List Event) :
    globalPart (runEvents k es).state = globalPart k :=
  runEvents_preserves (fun x => globalPart x = globalPart k)
    (fun x name fs now h => (globalPart_begin x name fs now).trans h)
    (fun x fs now h => (globalPart_end x fs now).trans h) es k rfl

theorem filenames_of_globalPart (k k' : KokkosEDPLogger) (h : globalPart k' = globalPart k) :
    k'.energyDescs.map (fun d => d.filename) = k.energyDescs.map (fun d => d.filename) := by
  have := congrArg (fun p => p.1.map (fun t => t.1)) h
  simpa [globalPart, List.map_map, Function.comp_def] using this

/-- With readable files at every end of launch a run returns. -/
theorem runEvents_returns (es : List Event) (k : KokkosEDPLogger)
    (hreads : ∀ e ∈ es, allOpened e.fs k.energyDescs) :
    ∃ k', runEvents k es = .returned k' := by
  induction es generalizing k with
  | nil => exact ⟨k, rfl⟩
  | cons e es ih =>
    cases e with
    | beginLaunch name fs now =>
      simp only [runEvents, step]
      refine ih _ (fun x hx => ?_)
      exact (allOpened_congr x.fs _ _ (beginLaunch_frame k name fs now).2.2).mpr
        (hreads x (List.mem_cons_of_mem _ hx))
    | endLaunch fs now =>
      have hopen : allOpened fs k.energyDescs := hreads _ (List.mem_cons_self _ _)
      have hcase : ∃ k1, kokkosp_end_parallel_for k fs now = .returned k1 := by
        rcases endLaunch_cases_opened k fs now hopen with ⟨_, he⟩ | ⟨_, _, _, _, _, _, _, he⟩
        · exact ⟨_, he⟩
        · exact ⟨_, he⟩
      obtain ⟨k1, hk1⟩ := hcase
      simp only [runEvents, step, hk1]
      refine ih k1 (fun x hx => ?_)
      have hfn := (endLaunch_returned_frame k fs now k1 hk1).2.2.1
      exact (allOpened_congr x.fs _ _ hfn).mpr (hreads x (List.mem_cons_of_mem _ hx))

/-! ## The whole-run sample -/

theorem finalize_opened (k : KokkosEDPLogger) (fs : String → FileRead) (now : Int)
    (h : allOpened fs k.energyDescs) :
    kokkosp_finalize_library k fs now = .returned
      { globalTockState k fs now with
        globalLogFile := k.globalLogFile ++ [globalSample (globalTockState k fs now)] } := by
  simp only [kokkosp_finalize_library, GlobalTock_opened k fs now h]
  rfl

/-- C8: after a successful construction, with every counter file readable at
`kokkosp_init_library`, at every launch callback and at `kokkosp_finalize_library`:
all calls return; whatever launch callbacks run in between (none included), no zone's
`globalTick`/`globalTock` and neither whole-run time point is modified by them; and
`kokkosp_finalize_library` leaves the whole-run log with exactly one row after the
header, whose energy values are, per zone in configured order, the 64-bit difference
between the counter read by `GlobalTock` and the counter read by `GlobalTick`. -/
theorem C8_whole_run_row (klaant : KokkosEDPLogger) (getenv : Option String)
    (fileExists : String → Bool) (scq0 : Bool) (qs0 : Nat) (kc : KokkosEDPLogger)
    (fsInit : String → FileRead) (nowInit : Int) (es : List Event)
    (fsFinal : String → FileRead) (nowFinal : Int)
    (hnew : KokkosEDPLogger.new getenv fileExists scq0 qs0 = .ok kc)
    (hinit : allOpened fsInit kc.energyDescs)
    (hreads : ∀ e ∈ es, allOpened e.fs kc.energyDescs)
    (hfinal : allOpened fsFinal kc.energyDescs) :
    ∃ k0 k kf cols,
      kokkosp_init_library klaant getenv fileExists scq0 qs0 fsInit nowInit = .returned k0
      ∧ runEvents k0 es = .returned k
      ∧ k.energyDescs.map (fun d => (d.globalTick, d.globalTock))
          = k0.energyDescs.map (fun d => (d.globalTick, d.globalTock))
      ∧ k.timeDesc.globalTick = k0.timeDesc.globalTick
      ∧ k.timeDesc.globalTock = k0.timeDesc.globalTock
      ∧ kokkosp_finalize_library k fsFinal nowFinal = .returned kf
      ∧ kf.globalLogFile =
          [.header cols,
           .sample (nowFinal - nowInit) (kc.energyDescs.map (fun d =>
              sub64 (readCounter (fsFinal d.filename)) (readCounter (fsInit d.filename))))] := by
  obtain ⟨n, hkc⟩ := new_spec getenv fileExists scq0 qs0 kc hnew
  have hk0 : kokkosp_init_library klaant getenv fileExists scq0 qs0 fsInit nowInit
      = .returned
        { kc with
          energyDescs := kc.energyDescs.map (recordGlobalTick fsInit)
          timeDesc := { kc.timeDesc with globalTick := nowInit } } := by
    simp only [kokkosp_init_library, hnew]
    exact GlobalTick_opened kc fsInit nowInit hinit
  have hfn0 : (kc.energyDescs.map (recordGlobalTick fsInit)).map (fun d => d.filename)
      = kc.energyDescs.map (fun d => d.filename) := by
    simp [List.map_map, Function.comp_def, recordGlobalTick]
  obtain ⟨k, hk⟩ := runEvents_returns es
    { kc with
      energyDescs := kc.energyDescs.map (recordGlobalTick fsInit)
      timeDesc := { kc.timeDesc with globalTick := nowInit } }
    (fun e he => (allOpened_congr e.fs _ _ hfn0).mpr (hreads e he))
  have hg := globalPart_runEvents
    { kc with
      energyDescs := kc.energyDescs.map (recordGlobalTick fsInit)
      timeDesc := { kc.timeDesc with globalTick := nowInit } } es
  rw [hk] at hg
  have hg' : globalPart k = _ := hg
  have hfnk := (filenames_of_globalPart _ k hg').trans hfn0
  have hkf := finalize_opened k fsFinal nowFinal
    ((allOpened_congr fsFinal _ _ hfnk).mpr hfinal)
  have hz : k.energyDescs.map (fun d => (d.filename, d.globalTick, d.globalTock))
      = (kc.energyDescs.map (recordGlobalTick fsInit)).map
          (fun d => (d.filename, d.globalTick, d.globalTock)) :=
    congrArg (fun p => p.1) hg'
  have ht1 : k.timeDesc.globalTick = nowInit := congrArg (fun p => p.2.1) hg'
  have ht2 : k.timeDesc.globalTock = kc.timeDesc.globalTock := congrArg (fun p => p.2.2.1) hg'
  have hlog : k.globalLogFile = kc.globalLogFile := congrArg (fun p => p.2.2.2) hg'
  refine ⟨_, k, _, ["time_ms"] ++ energyColumns n, hk0, hk, ?_, ht1, ht2, hkf, ?_⟩
  · have := congrArg (List.map (fun t : String × Nat × Nat => (t.2.1, t.2.2))) hz
    simpa [List.map_map, Function.comp_def] using this
  · have hen : (k.energyDescs.map (recordGlobalTock fsFinal)).map
          (fun d => sub64 d.globalTock d.globalTick)
        = kc.energyDescs.map (fun d =>
            sub64 (readCounter (fsFinal d.filename)) (readCounter (fsInit d.filename))) := by
      have := congrArg (List.map (fun t : String × Nat × Nat =>
        sub64 (readCounter (fsFinal t.1)) t.2.1)) hz
      simpa [List.map_map, Function.comp_def, recordGlobalTock, recordGlobalTick] using this
    show k.globalLogFile ++ [globalSample (globalTockState k fsFinal nowFinal)] = _
    have hs : globalSample (globalTockState k fsFinal nowFinal)
        = .sample (nowFinal - nowInit) (kc.energyDescs.map (fun d =>
            sub64 (readCounter (fsFinal d.filename)) (readCounter (fsInit d.filename)))) := by
      simp only [globalSample, globalTockState, ht1, hen]
    rw [hs, hlog]
    have hh : kc.globalLogFile = [.header (["time_ms"] ++ energyColumns n)] := by
      rw [hkc]
    rw [hh]
    rfl

/-- C8 at a concrete run: two zones at (900, 1900) when the library is loaded, one
launch, (1500, 2900) when it is unloaded; the whole-run row is (12, [600, 1000]). -/
theorem C8_whole_run_row_witness :
    ∃ k0 k kf cols,
      kokkosp_init_library twoZones (some "2") (fun _ => true) false 7
          (rapl "900\n" "1900\n") 0 = .returned k0
      ∧ runEvents k0 [.beginLaunch "A" (rapl "1000\n" "2000\n") 1,
          .endLaunch (rapl "1100\n" "2600\n") 2] = .returned k
      ∧ k.energyDescs.map (fun d => (d.globalTick, d.globalTock))
          = k0.energyDescs.map (fun d => (d.globalTick, d.globalTock))
      ∧ k.timeDesc.globalTick = k0.timeDesc.globalTick
      ∧ k.timeDesc.globalTock = k0.timeDesc.globalTock
      ∧ kokkosp_finalize_library k (rapl "1500\n" "2900\n") 12 = .returned kf
      ∧ kf.globalLogFile =
          [.header cols,
           .sample (12 - 0) (constructedEngine.energyDescs.map (fun d =>
              sub64 (readCounter (rapl "1500\n" "2900\n" d.filename))
                (readCounter (rapl "900\n" "1900\n" d.filename))))] :=
  C8_whole_run_row twoZones (some "2") (fun _ => true) false 7 constructedEngine
    (rapl "900\n" "1900\n") 0
    [.beginLaunch "A" (rapl "1000\n" "2000\n") 1, .endLaunch (rapl "1100\n" "2600\n") 2]
    (rapl "1500\n" "2900\n") 12 rfl (by decide) (by decide) (by decide)

/-! ## Baselines along a run -/

theorem baselines_end (k : KokkosEDPLogger) (fs : String → FileRead) (now : Int) :
    baselines (kokkosp_end_parallel_for k fs now).state = baselines k := by
  rcases endLaunch_cases k fs now with ⟨_, he⟩ | ⟨pre, d, post, hd, _, _, _, he⟩
      | ⟨pre, d, post, hd, _, _, he⟩
  · rw [he]
    simp [baselines, Outcome.state, emittedState, closedState, List.map_map,
      Function.comp_def, recordTock]
  · rw [he]
    exact baselines_staleState k fs pre d post hd
  · rw [he]
    simp [baselines, Outcome.state, thrownState, hd, List.map_map, Function.comp_def,
      recordTock]

theorem init_returned (klaant : KokkosEDPLogger) (getenv : Option String)
    (fileExists : String → Bool) (scq0 : Bool) (qs0 : Nat) (kc : KokkosEDPLogger)
    (fsInit : String → FileRead) (nowInit : Int)
    (hnew : KokkosEDPLogger.new getenv fileExists scq0 qs0 = .ok kc)
    (hinit : allOpened fsInit kc.energyDescs) :
    kokkosp_init_library klaant getenv fileExists scq0 qs0 fsInit nowInit
      = .returned (initState kc fsInit nowInit) := by
  simp only [kokkosp_init_library, hnew]
  exact GlobalTick_opened kc fsInit nowInit hinit

/-- In the freshly initialised engine every `tick` and `tock` is 0 and the kernel log
holds only its header. -/
theorem initState_fresh (getenv : Option String) (fileExists : String → Bool) (scq0 : Bool)
    (qs0 : Nat) (kc : KokkosEDPLogger) (fsInit : String → FileRead) (nowInit : Int)
    (hnew : KokkosEDPLogger.new getenv fileExists scq0 qs0 = .ok kc) :
    (∀ d ∈ (initState kc fsInit nowInit).energyDescs, d.tick = 0 ∧ d.tock = 0
        ∧ d.globalTick = readCounter (fsInit d.filename))
    ∧ (∃ cols, (initState kc fsInit nowInit).logFile = [.header cols])
    ∧ (initState kc fsInit nowInit).energyDescs.map (fun d => d.filename)
        = kc.energyDescs.map (fun d => d.filename) := by
  obtain ⟨n, hkc⟩ := new_spec getenv fileExists scq0 qs0 kc hnew
  refine ⟨?_, ⟨_, by rw [hkc]; rfl⟩, ?_⟩
  · intro d hd
    simp only [initState, List.mem_map] at hd
    obtain ⟨x, hx, rfl⟩ := hd
    rw [hkc] at hx
    simp only [List.mem_map] at hx
    obtain ⟨i, _, rfl⟩ := hx
    exact ⟨rfl, rfl, rfl⟩
  · simp [initState, List.map_map, Function.comp_def, recordGlobalTick]

/-! ## No zero delta in a row -/

theorem RowsNonZero_begin (n : Nat) (k : KokkosEDPLogger) (name : String)
    (fs : String → FileRead) (now : Int) (h : RowsNonZero n k) :
    RowsNonZero n (kokkosp_begin_parallel_for k name fs now) := by
  obtain ⟨hl, ht, hr⟩ := h
  rcases beginLaunch_cases k name fs now with ⟨_, he⟩ | ⟨_, he⟩
  · rw [he]
    refine ⟨by simpa using hl, ?_, hr⟩
    intro d hd
    simp only [List.mem_map] at hd
    obtain ⟨x, _, rfl⟩ := hd
    exact readCounter_lt _
  · rw [he]
    exact ⟨hl, ht, hr⟩

theorem RowsNonZero_end (n : Nat) (k : KokkosEDPLogger) (fs : String → FileRead) (now : Int)
    (h : RowsNonZero n k) : RowsNonZero n (kokkosp_end_parallel_for k fs now).state := by
  obtain ⟨hl, ht, hr⟩ := h
  rcases endLaunch_cases k fs now with ⟨hall, he⟩ | ⟨pre, d, post, hd, _, _, _, he⟩
      | ⟨pre, d, post, hd, _, _, he⟩
  · rw [he]
    refine ⟨by simpa [Outcome.state, emittedState, closedState] using hl, ?_, ?_⟩
    · intro x hx
      simp only [Outcome.state, emittedState, closedState, List.mem_map] at hx
      obtain ⟨y, hy, rfl⟩ := hx
      exact ht y hy
    · intro name c t e hmem
      simp only [Outcome.state, emittedState, List.mem_append, List.mem_singleton] at hmem
      rcases hmem with hmem | hmem
      · exact hr name c t e hmem
      · rw [kernelSample_closedState] at hmem
        injection hmem with _ _ _ hen
        subst hen
        refine ⟨by simpa using hl, ?_⟩
        intro v hv
        simp only [List.mem_map] at hv
        obtain ⟨x, hx, rfl⟩ := hv
        exact sub64_ne_zero _ _ (readCounter_lt _) (ht x hx) (hall x hx).2
  · rw [he]
    refine ⟨?_, ?_, hr⟩
    · rw [← hl, hd]
      simp [Outcome.state, staleState]
    · intro x hx
      refine forall_of_baselines k _ (baselines_staleState k fs pre d post hd)
        (fun _ t => t < U64) ht x hx
  · rw [he]
    have hb : baselines (thrownState k fs pre d post) = baselines k := by
      simp [baselines, thrownState, hd, List.map_map, Function.comp_def, recordTock]
    refine ⟨?_, ?_, hr⟩
    · rw [← hl, hd]
      simp [Outcome.state, thrownState]
    · intro x hx
      exact forall_of_baselines k _ hb (fun _ t => t < U64) ht x hx

/-- C10: from the freshly initialised engine, after any sequence of launch callbacks
(whether it returned or was cut short by an exception), every row of the kernel log
carries one energy value per configured zone and none of these values, computed as
`tock - tick` modulo `2 ^ 64`, is zero. -/
theorem C10_no_zero_delta (klaant : KokkosEDPLogger) (getenv : Option String)
    (fileExists : String → Bool) (scq0 : Bool) (qs0 : Nat) (kc : KokkosEDPLogger)
    (fsInit : String → FileRead) (nowInit : Int) (es : List Event)
    (hnew : KokkosEDPLogger.new getenv fileExists scq0 qs0 = .ok kc)
    (hinit : allOpened fsInit kc.energyDescs) :
    ∃ k0, kokkosp_init_library klaant getenv fileExists scq0 qs0 fsInit nowInit = .returned k0
      ∧ ∀ name c t e, KernelLine.sample name c t e ∈ (runEvents k0 es).state.logFile →
          e.length = k0.energyDescs.length ∧ ∀ v ∈ e, v ≠ 0 := by
  refine ⟨_, init_returned klaant getenv fileExists scq0 qs0 kc fsInit nowInit hnew hinit, ?_⟩
  obtain ⟨hz, ⟨cols, hlog⟩, _⟩ := initState_fresh getenv fileExists scq0 qs0 kc fsInit nowInit hnew
  have h0 : RowsNonZero (initState kc fsInit nowInit).energyDescs.length
      (initState kc fsInit nowInit) := by
    refine ⟨rfl, ?_, ?_⟩
    · intro d hd
      rw [(hz d hd).1]
      decide
    · intro name c t e hmem
      rw [hlog] at hmem
      simp at hmem
  exact (runEvents_preserves (RowsNonZero (initState kc fsInit nowInit).energyDescs.length)
    (fun k name fs now h => RowsNonZero_begin _ k name fs now h)
    (fun k fs now h => RowsNonZero_end _ k fs now h) es _ h0).2.2

/-- C10 at a concrete run: the launch of `"A"` finds zone 0 stale, the launch of `"B"`
closes; the log then holds the single row `("B", 1, 1, [100, 100])`. -/
theorem C10_no_zero_delta_witness :
    ∃ k0, kokkosp_init_library twoZones (some "2") (fun _ => true) false 7
        (rapl "900\n" "1900\n") 0 = .returned k0
      ∧ ∀ name c t e, KernelLine.sample name c t e ∈
          (runEvents k0 (launchEvents
            [launchOf "A" "1000\n" "2000\n" 1 "1000\n" "2500\n" 2,
             launchOf "B" "1000\n" "2500\n" 3 "1100\n" "2600\n" 4])).state.logFile →
          e.length = k0.energyDescs.length ∧ ∀ v ∈ e, v ≠ 0 :=
  C10_no_zero_delta twoZones (some "2") (fun _ => true) false 7 constructedEngine
    (rapl "900\n" "1900\n") 0
    (launchEvents [launchOf "A" "1000\n" "2000\n" 1 "1000\n" "2500\n" 2,
      launchOf "B" "1000\n" "2500\n" 3 "1100\n" "2600\n" 4]) rfl (by decide)

/-! ## Monotonic counters -/

/-- A property kept by every callback of the run holds in the state the run leaves. -/
theorem runEvents_preserves_mem (P : KokkosEDPLogger → Prop) (es : List Event)
    (hstep : ∀ e ∈ es, ∀ k, P k → P (step k e).state)
    (k : KokkosEDPLogger) (h : P k) : P (runEvents k es).state := by
  induction es generalizing k with
  | nil => exact h
  | cons e es ih =>
    have h1 := hstep e (List.mem_cons_self _ _) k h
    simp only [runEvents]
    cases hs : step k e with
    | returned k1 =>
      rw [hs] at h1
      exact ih (fun x hx => hstep x (List.mem_cons_of_mem _ hx)) k1 h1
    | thrown k1 w =>
      rw [hs] at h1
      exact h1

theorem TicksFrom_step (S : List (String → FileRead)) (e : Event) (he : e.fs ∈ S)
    (k : KokkosEDPLogger) (h : TicksFrom S k) : TicksFrom S (step k e).state := by
  cases e with
  | beginLaunch name fs now =>
    simp only [step, Outcome.state]
    rcases beginLaunch_cases k name fs now with ⟨_, hb⟩ | ⟨_, hb⟩
    · rw [hb]
      intro d hd
      simp only [List.mem_map] at hd
      obtain ⟨x, _, rfl⟩ := hd
      exact Or.inr ⟨fs, he, rfl⟩
    · rw [hb]
      exact h
  | endLaunch fs now =>
    simp only [step]
    exact forall_of_baselines k _ (baselines_end k fs now)
      (fun f t => t = 0 ∨ ∃ x ∈ S, t = readCounter (x f)) h

theorem TicksFrom_runEvents (es : List Event) (k : KokkosEDPLogger)
    (h : ∀ d ∈ k.energyDescs, d.tick = 0) :
    TicksFrom (es.map Event.fs) (runEvents k es).state :=
  runEvents_preserves_mem (TicksFrom (es.map Event.fs)) es
    (fun e he x hx => TicksFrom_step _ e (List.mem_map_of_mem _ he) x hx) k
    (fun d hd => Or.inl (h d hd))

theorem exists_same_filename (ds es : List energyDescriptor)
    (h : ds.map (fun d => d.filename) = es.map (fun d => d.filename))
    (x : energyDescriptor) (hx : x ∈ ds) : ∃ z ∈ es, z.filename = x.filename := by
  have hmem : x.filename ∈ ds.map (fun d => d.filename) :=
    List.mem_map_of_mem (fun d => d.filename) hx
  rw [h] at hmem
  obtain ⟨z, hz, hze⟩ := List.mem_map.mp hmem
  exact ⟨z, hz, hze⟩

/-- The zones of the engine a run from the initialised engine leaves carry the file
names of the constructed engine. -/
theorem filenames_run (kc : KokkosEDPLogger) (fsInit : String → FileRead) (nowInit : Int)
    (es : List Event) :
    (runEvents (initState kc fsInit nowInit) es).state.energyDescs.map (fun d => d.filename)
      = kc.energyDescs.map (fun d => d.filename) := by
  rw [filenames_of_globalPart _ _ (globalPart_runEvents (initState kc fsInit nowInit) es)]
  simp [initState, List.map_map, Function.comp_def, recordGlobalTick]

/-- C9: take a run from a successful `kokkosp_init_library` through any launch
callbacks to `kokkosp_finalize_library` in which every counter file is readable and,
for every configured zone, the counters shown by the successive file systems (at
init, at each callback in call order, at finalize) never decrease. Then all calls
return; at every end of launch that emits a row, every zone has `tock ≥ tick` and
the 64-bit subtraction `tock - tick` is the exact difference; and at finalize every
zone has `globalTock ≥ globalTick` and `globalTock - globalTick` is exact. -/
theorem C9_no_wraparound (klaant : KokkosEDPLogger) (getenv : Option String)
    (fileExists : String → Bool) (scq0 : Bool) (qs0 : Nat) (kc : KokkosEDPLogger)
    (fsInit : String → FileRead) (nowInit : Int) (es : List Event)
    (fsFinal : String → FileRead) (nowFinal : Int)
    (hnew : KokkosEDPLogger.new getenv fileExists scq0 qs0 = .ok kc)
    (hinit : allOpened fsInit kc.energyDescs)
    (hreads : ∀ e ∈ es, allOpened e.fs kc.energyDescs)
    (hfinal : allOpened fsFinal kc.energyDescs)
    (hmono : List.Pairwise (CountersLe kc) (fsInit :: (es.map Event.fs ++ [fsFinal]))) :
    ∃ k0, kokkosp_init_library klaant getenv fileExists scq0 qs0 fsInit nowInit = .returned k0
      ∧ (∀ pre fs now post, es = pre ++ .endLaunch fs now :: post →
          ∃ kpre k', runEvents k0 pre = .returned kpre
            ∧ kokkosp_end_parallel_for kpre fs now = .returned k'
            ∧ (k'.HasValidMeasure = true →
                ∀ d ∈ k'.energyDescs, d.tick ≤ d.tock ∧ sub64 d.tock d.tick = d.tock - d.tick))
      ∧ ∃ k kf, runEvents k0 es = .returned k
          ∧ kokkosp_finalize_library k fsFinal nowFinal = .returned kf
          ∧ ∀ d ∈ kf.energyDescs, d.globalTick ≤ d.globalTock
              ∧ sub64 d.globalTock d.globalTick = d.globalTock - d.globalTick := by
  refine ⟨_, init_returned klaant getenv fileExists scq0 qs0 kc fsInit nowInit hnew hinit, ?_, ?_⟩
  · intro pre fs now post hes
    obtain ⟨hz, _, hfn0⟩ := initState_fresh getenv fileExists scq0 qs0 kc fsInit nowInit hnew
    have hpre : ∀ e ∈ pre, allOpened e.fs (initState kc fsInit nowInit).energyDescs :=
      fun e he => (allOpened_congr e.fs _ _ hfn0).mpr (hreads e (by rw [hes]; simp [he]))
    obtain ⟨kpre, hk⟩ := runEvents_returns pre _ hpre
    have hfn := filenames_run kc fsInit nowInit pre
    have hticks := TicksFrom_runEvents pre (initState kc fsInit nowInit) (fun d hd => (hz d hd).1)
    rw [hk] at hfn hticks
    have hopen : allOpened fs kpre.energyDescs :=
      (allOpened_congr fs _ _ hfn).mpr (hreads (.endLaunch fs now) (by rw [hes]; simp))
    have hle : ∀ s ∈ pre.map Event.fs, CountersLe kc s fs := by
      intro s hs
      have h1 := (List.pairwise_cons.mp hmono).2
      rw [hes, List.map_append, List.append_assoc] at h1
      exact (List.pairwise_append.mp h1).2.2 s hs fs (by simp [Event.fs])
    rcases endLaunch_cases_opened kpre fs now hopen with ⟨_, he⟩ | ⟨p, d, q, _, _, _, _, he⟩
    · refine ⟨kpre, _, hk, he, fun _ d hd => ?_⟩
      simp only [emittedState, closedState, List.mem_map] at hd
      obtain ⟨x, hx, rfl⟩ := hd
      have hxle : x.tick ≤ readCounter (fs x.filename) := by
        rcases hticks x hx with h0 | ⟨s, hs, hst⟩
        · rw [h0]
          exact Nat.zero_le _
        · obtain ⟨z, hz', hzf⟩ := exists_same_filename _ _ hfn x hx
          rw [hst, ← hzf]
          exact hle s hs z hz'
      exact ⟨hxle, sub64_eq_sub _ _ (readCounter_lt _) hxle⟩
    · refine ⟨kpre, _, hk, he, fun hv => ?_⟩
      exact absurd hv (by simp [KokkosEDPLogger.HasValidMeasure, staleState])
  · obtain ⟨hz, _, hfn0⟩ := initState_fresh getenv fileExists scq0 qs0 kc fsInit nowInit hnew
    obtain ⟨k, hk⟩ := runEvents_returns es (initState kc fsInit nowInit)
      (fun e he => (allOpened_congr e.fs _ _ hfn0).mpr (hreads e he))
    have hfn := filenames_run kc fsInit nowInit es
    have hg := globalPart_runEvents (initState kc fsInit nowInit) es
    rw [hk] at hfn hg
    have hgt : k.energyDescs.map (fun d => (d.filename, d.globalTick, d.globalTock))
        = (initState kc fsInit nowInit).energyDescs.map
            (fun d => (d.filename, d.globalTick, d.globalTock)) :=
      congrArg (fun p => p.1) hg
    have hle : CountersLe kc fsInit fsFinal :=
      (List.pairwise_cons.mp hmono).1 fsFinal (by simp)
    refine ⟨k, _, hk, finalize_opened k fsFinal nowFinal
      ((allOpened_congr fsFinal _ _ hfn).mpr hfinal), fun d hd => ?_⟩
    simp only [globalTockState, List.mem_map] at hd
    obtain ⟨x, hx, rfl⟩ := hd
    have hmem : (x.filename, x.globalTick, x.globalTock)
        ∈ k.energyDescs.map (fun d => (d.filename, d.globalTick, d.globalTock)) :=
      List.mem_map_of_mem (fun d => (d.filename, d.globalTick, d.globalTock)) hx
    rw [hgt] at hmem
    obtain ⟨y, hy, hye⟩ := List.mem_map.mp hmem
    have hyf : y.filename = x.filename := congrArg (fun t => t.1) hye
    have hyg : y.globalTick = x.globalTick := congrArg (fun t => t.2.1) hye
    obtain ⟨z, hz', hzf⟩ := exists_same_filename _ _ hfn0 y hy
    have hxle : x.globalTick ≤ readCounter (fsFinal x.filename) := by
      rw [← hyg, (hz y hy).2.2, ← hyf, ← hzf]
      exact hle z hz'
    exact ⟨hxle, sub64_eq_sub _ _ (readCounter_lt _) hxle⟩

/-- C9 at a concrete run with rising counters: init at (900, 1900), a launch of `"A"`
that finds zone 0 stale, a launch of `"B"` that closes at (1100, 2600), finalize at
(1500, 2900). -/
theorem C9_no_wraparound_witness :
    ∃ k0, kokkosp_init_library twoZones (some "2") (fun _ => true) false 7
        (rapl "900\n" "1900\n") 0 = .returned k0
      ∧ (∀ pre fs now post,
          launchEvents [launchOf "A" "1000\n" "2000\n" 1 "1000\n" "2500\n" 2,
            launchOf "B" "1000\n" "2500\n" 3 "1100\n" "2600\n" 4]
            = pre ++ .endLaunch fs now :: post →
          ∃ kpre k', runEvents k0 pre = .returned kpre
            ∧ kokkosp_end_parallel_for kpre fs now = .returned k'
            ∧ (k'.HasValidMeasure = true →
                ∀ d ∈ k'.energyDescs, d.tick ≤ d.tock ∧ sub64 d.tock d.tick = d.tock - d.tick))
      ∧ ∃ k kf, runEvents k0 (launchEvents
            [launchOf "A" "1000\n" "2000\n" 1 "1000\n" "2500\n" 2,
             launchOf "B" "1000\n" "2500\n" 3 "1100\n" "2600\n" 4]) = .returned k
          ∧ kokkosp_finalize_library k (rapl "1500\n" "2900\n") 12 = .returned kf
          ∧ ∀ d ∈ kf.energyDescs, d.globalTick ≤ d.globalTock
              ∧ sub64 d.globalTock d.globalTick = d.globalTock - d.globalTick :=
  C9_no_wraparound twoZones (some "2") (fun _ => true) false 7 constructedEngine
    (rapl "900\n" "1900\n") 0
    (launchEvents [launchOf "A" "1000\n" "2000\n" 1 "1000\n" "2500\n" 2,
      launchOf "B" "1000\n" "2500\n" 3 "1100\n" "2600\n" 4])
    (rapl "1500\n" "2900\n") 12 rfl (by decide) (by decide) (by decide) (by decide)

/-! ## The count of launches -/

/-- C12: whatever the outcome of `Tock` (all zones moved, a stale zone, or a counter
file that cannot be opened), the state it leaves has `quantumSize` incremented by
exactly 1 modulo `2 ^ 64`. -/
theorem C12_Tock_increments_quantumSize (k : KokkosEDPLogger) (fs : String → FileRead)
    (now : Int) :
    (Tock k fs now).state.quantumSize = (k.quantumSize + 1) % U64 := by
  rcases Tock_cases k fs now with ⟨_, he⟩ | ⟨pre, d, post, _, _, _, _, he⟩
      | ⟨pre, d, post, _, _, _, he⟩
  · rw [he]
    rfl
  · rw [he]
    rfl
  · rw [he]
    rfl

/-! ## Read errors -/

/-- C13: `Tock` throws exactly when, in configured order, it reaches a zone whose
counter file cannot be opened after every zone before it was opened and read a value
different from its `tick` baseline; `kokkosp_end_parallel_for` then throws too and
writes no row. A stale zone that comes first makes `Tock` return normally, whatever
the zones after it. -/
theorem C13_Tock_throws_iff (k : KokkosEDPLogger) (fs : String → FileRead) (now : Int) :
    ((Tock k fs now).isReturned = false ↔
      ∃ pre d post, k.energyDescs = pre ++ d :: post
        ∧ (∀ p ∈ pre, (fs p.filename).opened = true ∧ moved fs p)
        ∧ (fs d.filename).opened = false)
    ∧ ((Tock k fs now).isReturned = false →
        (kokkosp_end_parallel_for k fs now).isReturned = false
        ∧ (kokkosp_end_parallel_for k fs now).state.logFile = k.logFile)
    ∧ (∀ pre s rest, k.energyDescs = pre ++ s :: rest →
        (∀ p ∈ pre, (fs p.filename).opened = true ∧ moved fs p) →
        (fs s.filename).opened = true → readCounter (fs s.filename) = s.tick →
        (Tock k fs now).isReturned = true) := by
  refine ⟨⟨?_, ?_⟩, ?_, ?_⟩
  · intro h
    rcases Tock_cases k fs now with ⟨_, he⟩ | ⟨_, _, _, _, _, _, _, he⟩
        | ⟨pre, d, post, hd, hpre, hopen, _⟩
    · rw [he] at h
      exact absurd h (by simp [Outcome.isReturned])
    · rw [he] at h
      exact absurd h (by simp [Outcome.isReturned])
    · exact ⟨pre, d, post, hd, hpre, hopen⟩
  · rintro ⟨pre, d, post, hd, hpre, hopen⟩
    rw [Tock_thrown_at k fs now pre d post hd hpre hopen]
    rfl
  · intro h
    rcases endLaunch_cases k fs now with ⟨hall, _⟩ | ⟨pre, d, post, hd, hpre, hopen, hst, _⟩
        | ⟨pre, d, post, hd, hpre, hopen, he⟩
    · rw [Tock_all_moved k fs now hall] at h
      exact absurd h (by simp [Outcome.isReturned])
    · rw [Tock_stale_at k fs now pre d post hd hpre hopen hst] at h
      exact absurd h (by simp [Outcome.isReturned])
    · rw [he]
      exact ⟨rfl, rfl⟩
  · intro pre s rest hd hpre hopen hst
    rw [Tock_stale_at k fs now pre s rest hd hpre hopen hst]
    rfl

/-- C13 at concrete inputs: with zone 0 moved and the file of zone 1 missing `Tock`
throws and no row is written; with zone 0 stale `Tock` returns although the file of
zone 1 is missing. -/
theorem C13_Tock_throws_iff_witness :
    (Tock twoZones (oneFile "1100\n") 9).isReturned = false
    ∧ ((kokkosp_end_parallel_for twoZones (oneFile "1100\n") 9).isReturned = false
        ∧ (kokkosp_end_parallel_for twoZones (oneFile "1100\n") 9).state.logFile
            = twoZones.logFile)
    ∧ (Tock twoZones (oneFile "1000\n") 9).isReturned = true :=
  ⟨(C13_Tock_throws_iff twoZones (oneFile "1100\n") 9).1.2
      ⟨[{ filename := "zone0", globalTick := 900, globalTock := 0, tick := 1000, tock := 0 }],
        { filename := "zone1", globalTick := 1900, globalTock := 0, tick := 2000, tock := 0 },
        [], rfl, by decide, by decide⟩,
   (C13_Tock_throws_iff twoZones (oneFile "1100\n") 9).2.1 (by decide),
   (C13_Tock_throws_iff twoZones (oneFile "1000\n") 9).2.2 []
      { filename := "zone0", globalTick := 900, globalTock := 0, tick := 1000, tock := 0 }
      [{ filename := "zone1", globalTick := 1900, globalTock := 0, tick := 2000, tock := 0 }]
      rfl (by decide) (by decide) (by decide)⟩

/-- C19: when `Tock` throws at zone `d` (every zone before it was opened and had
moved, the file of `d` cannot be opened), the state it leaves has
`shouldCreateQuantum` true, so `HasValidMeasure()` reports true although the quantum
did not close; `quantumSize` is already incremented; `tock` already holds the fresh
reading for every zone before `d`; zone `d`, the later zones and the whole time
descriptor are unchanged. -/
theorem C19_Tock_no_rollback (k : KokkosEDPLogger) (fs : String → FileRead) (now : Int)
    (pre : List energyDescriptor) (d : energyDescriptor) (post : List energyDescriptor)
    (he : k.energyDescs = pre ++ d :: post)
    (hpre : ∀ p ∈ pre, (fs p.filename).opened = true ∧ moved fs p)
    (hopen : (fs d.filename).opened = false) :
    ∃ k' what, Tock k fs now = .thrown k' what
      ∧ k'.shouldCreateQuantum = true
      ∧ k'.HasValidMeasure = true
      ∧ k'.quantumSize = (k.quantumSize + 1) % U64
      ∧ k'.energyDescs = pre.map (fun p =>
            { filename := p.filename, globalTick := p.globalTick, globalTock := p.globalTock,
              tick := p.tick, tock := readCounter (fs p.filename) }) ++ d :: post
      ∧ k'.timeDesc = k.timeDesc :=
  ⟨_, _, Tock_thrown_at k fs now pre d post he hpre hopen, rfl, rfl, rfl, rfl, rfl⟩

/-- C19 at a concrete input: zone 0 moved to 1100, the file of zone 1 is missing. -/
theorem C19_Tock_no_rollback_witness :
    ∃ k' what, Tock twoZones (oneFile "1100\n") 9 = .thrown k' what
      ∧ k'.shouldCreateQuantum = true
      ∧ k'.HasValidMeasure = true
      ∧ k'.quantumSize = (twoZones.quantumSize + 1) % U64
      ∧ k'.energyDescs =
          [ { filename := "zone0", globalTick := 900, globalTock := 0, tick := 1000, tock := 1100 },
            { filename := "zone1", globalTick := 1900, globalTock := 0, tick := 2000, tock := 0 } ]
      ∧ k'.timeDesc = twoZones.timeDesc :=
  C19_Tock_no_rollback twoZones (oneFile "1100\n") 9
    [{ filename := "zone0", globalTick := 900, globalTock := 0, tick := 1000, tock := 0 }]
    { filename := "zone1", globalTick := 1900, globalTock := 0, tick := 2000, tock := 0 } []
    rfl (by decide) (by decide)

/-! ## Tick and unreadable counter files -/

theorem readCounter_openFails (e : String) : readCounter (.openFails e) = 0 := by
  simp [readCounter, readBuf, atoll, toU64]

/-- C15: `Tick` has no error path (it is a total function of the state, the file
system and the clock). When its trigger holds, then whatever the counter files
yield, it resets `quantumSize` to 0, samples the clock, and stores in every zone's
`tick` the parse of the buffer: the counter read for a zone whose file opens, and 0
(the parse of the untouched zero-filled buffer) for a zone whose file cannot be
opened. -/
theorem C15_Tick_never_fails (k : KokkosEDPLogger) (fs : String → FileRead) (now : Int)
    (h : k.shouldCreateQuantum = true ∨ k.prevKernel ≠ k.curKernel) :
    (Tick k fs now).quantumSize = 0
    ∧ (Tick k fs now).timeDesc.tick = now
    ∧ (Tick k fs now).energyDescs = k.energyDescs.map (fun d =>
        { filename := d.filename, globalTick := d.globalTick, globalTock := d.globalTock,
          tick := (match fs d.filename with
            | .openFails _ => 0
            | .bytes delivered => toU64 (atoll ((delivered.take 32).takeWhile
                (fun c => c.toNat ≠ 0)))),
          tock := d.tock }) := by
  rw [Tick_triggered k fs now h]
  refine ⟨rfl, rfl, ?_⟩
  apply List.map_congr_left
  intro d _
  cases hfs : fs d.filename with
  | openFails e =>
    simp only [recordTick, hfs, readCounter_openFails]
  | bytes delivered =>
    simp only [recordTick, hfs]
    rfl

/-- C15 at a concrete input: the file of zone 0 holds 1234, the file of zone 1 cannot
be opened; the baselines become 1234 and 0. -/
theorem C15_Tick_never_fails_witness :
    (Tick { twoZones with quantumSize := 3 } (oneFile "1234\n") 7).quantumSize = 0
    ∧ (Tick { twoZones with quantumSize := 3 } (oneFile "1234\n") 7).timeDesc.tick = 7
    ∧ (Tick { twoZones with quantumSize := 3 } (oneFile "1234\n") 7).energyDescs =
        [ { filename := "zone0", globalTick := 900, globalTock := 0, tick := 1234, tock := 0 },
          { filename := "zone1", globalTick := 1900, globalTock := 0, tick := 0, tock := 0 } ] :=
  ⟨(C15_Tick_never_fails { twoZones with quantumSize := 3 } (oneFile "1234\n") 7 (Or.inl rfl)).1,
   (C15_Tick_never_fails { twoZones with quantumSize := 3 } (oneFile "1234\n") 7 (Or.inl rfl)).2.1,
   (C15_Tick_never_fails { twoZones with quantumSize := 3 } (oneFile "1234\n") 7
      (Or.inl rfl)).2.2.trans (by decide)⟩

/-! ## Construction -/

theorem openZones_all_exist (fileExists : String → Bool) (n i : Nat)
    (h : ∀ j, j < n → fileExists (zoneFilename (i + j)) = true) :
    openZones fileExists i n = .ok ((List.range' i n).map newDescriptor) := by
  induction n generalizing i with
  | zero => rfl
  | succ n ih =>
    have h0 : fileExists (zoneFilename i) = true := h 0 (Nat.succ_pos n)
    have hr := ih (i + 1) (fun j hj => by
      have := h (j + 1) (Nat.succ_lt_succ hj)
      rwa [Nat.add_comm j 1, ← Nat.add_assoc] at this)
    simp only [openZones, h0, if_true, hr]
    rfl

theorem openZones_missing (fileExists : String → Bool) (n i : Nat)
    (h : ∃ j, j < n ∧ fileExists (zoneFilename (i + j)) = false) :
    ∃ e, openZones fileExists i n = .error e := by
  induction n generalizing i with
  | zero =>
    obtain ⟨j, hj, _⟩ := h
    exact absurd hj (Nat.not_lt_zero j)
  | succ n ih =>
    by_cases h0 : fileExists (zoneFilename i) = true
    · obtain ⟨j, hj, hjf⟩ := h
      have hrest : ∃ j', j' < n ∧ fileExists (zoneFilename (i + 1 + j')) = false := by
        cases j with
        | zero =>
          rw [Nat.add_zero, h0] at hjf
          exact absurd hjf (by decide)
        | succ j' =>
          refine ⟨j', Nat.lt_of_succ_lt_succ hj, ?_⟩
          rwa [Nat.add_assoc, Nat.add_comm 1 j']
      obtain ⟨e, he⟩ := ih (i + 1) hrest
      exact ⟨e, by simp only [openZones, h0, if_true, he]⟩
    · exact ⟨_, by simp only [openZones, h0]; rfl⟩

/-- C14 (amended): construction throws when `KEDP_NUM_POWER_ZONES` is not set, and
when for some zone index below the count the counter file does not exist, the count
being what `atoi` makes of the setting (0 for a text that does not start with a
number, and for a negative number); otherwise it succeeds with exactly that many
zone descriptors, for the indices `0 .. count - 1` in this order. -/
theorem C14_construction (getenv : Option String) (fileExists : String → Bool)
    (scq0 : Bool) (qs0 : Nat) :
    (getenv = none → ∃ e, KokkosEDPLogger.new getenv fileExists scq0 qs0 = .error e)
    ∧ (∀ s, getenv = some s →
        ((∃ i, i < (atoi s.toList).toNat ∧ fileExists (zoneFilename i) = false) →
          ∃ e, KokkosEDPLogger.new getenv fileExists scq0 qs0 = .error e)
        ∧ ((∀ i, i < (atoi s.toList).toNat → fileExists (zoneFilename i) = true) →
          ∃ k, KokkosEDPLogger.new getenv fileExists scq0 qs0 = .ok k
            ∧ k.energyDescs = (List.range (atoi s.toList).toNat).map newDescriptor)) := by
  constructor
  · intro h
    rw [h]
    exact ⟨_, rfl⟩
  · intro s h
    rw [h]
    constructor
    · rintro ⟨i, hi, hif⟩
      obtain ⟨e, he⟩ := openZones_missing fileExists (atoi s.toList).toNat 0
        ⟨i, hi, by rwa [Nat.zero_add]⟩
      exact ⟨e, by simp only [KokkosEDPLogger.new, he]⟩
    · intro hall
      have hz := openZones_all_exist fileExists (atoi s.toList).toNat 0
        (fun j hj => by rw [Nat.zero_add]; exact hall j hj)
      refine ⟨_, by simp only [KokkosEDPLogger.new, hz]; rfl, ?_⟩
      simp [List.range_eq_range']

/-- C14 (amended) at concrete inputs: an unset variable throws; with the setting `2`
and the file of zone 1 missing construction throws; with the setting `2` and both
files present there are the two descriptors of zones 0 and 1. -/
theorem C14_construction_witness :
    (∃ e, KokkosEDPLogger.new none (fun _ => true) false 0 = .error e)
    ∧ (∃ e, KokkosEDPLogger.new (some "2") (fun f => decide (f = zoneFilename 0)) false 0
        = .error e)
    ∧ (∃ k, KokkosEDPLogger.new (some "2") (fun _ => true) false 0 = .ok k
        ∧ k.energyDescs = (List.range (atoi "2".toList).toNat).map newDescriptor) :=
  ⟨(C14_construction none (fun _ => true) false 0).1 rfl,
   ((C14_construction (some "2") (fun f => decide (f = zoneFilename 0)) false 0).2 "2" rfl).1
      ⟨1, by decide, by decide⟩,
   ((C14_construction (some "2") (fun _ => true) false 0).2 "2" rfl).2 (fun _ _ => rfl)⟩

/-- C14 as stated fails for a setting that is not a decimal integer: with
`KEDP_NUM_POWER_ZONES=abc` construction succeeds, with no zone at all, even when no
counter file exists. -/
theorem C14_counterexample :
    ∃ k, KokkosEDPLogger.new (some "abc") (fun _ => false) false 0 = .ok k
      ∧ k.energyDescs = [] :=
  ⟨_, rfl, rfl⟩

/-! ## The first launch -/

/-- C16 at the failing input: in the engine `kokkosp_init_library` leaves when the
uninitialised flag holds `false`, a first `kokkosp_begin_parallel_for` with the empty
name changes nothing (no baseline is sampled, every `tick` stays 0), and the
`kokkosp_end_parallel_for` that follows compares the counters 1000 and 2500 against
these baselines and writes a row whose deltas are the raw counters. -/
theorem C16_first_launch_not_opened :
    kokkosp_begin_parallel_for zeroedEngine "" (rapl "1000\n" "2000\n") 1 = zeroedEngine
    ∧ zeroedEngine.energyDescs.map (fun d => d.tick) = [0, 0]
    ∧ (kokkosp_end_parallel_for
        (kokkosp_begin_parallel_for zeroedEngine "" (rapl "1000\n" "2000\n") 1)
        (rapl "1000\n" "2500\n") 2).state.logFile
      = zeroedEngine.logFile ++ [.sample "" 1 2 [1000, 2500]] := by
  decide

/-! ## One row per closure -/

theorem runLaunches_cons (k : KokkosEDPLogger) (l : Launch) (ls : List Launch) :
    runLaunches k (l :: ls) =
      match kokkosp_end_parallel_for (kokkosp_begin_parallel_for k l.name l.beginFs l.beginNow)
          l.endFs l.endNow with
      | .returned k1 => runLaunches k1 ls
      | .thrown k1 w => .thrown k1 w := by
  simp only [runLaunches, launchEvents, runEvents, step]

/-- In a run of launches whose end-of-launch reads succeed, the number of rows written
is the number of closing `Tock`s. -/
theorem sampleRows_runLaunches (ls : List Launch) (k0 : KokkosEDPLogger)
    (hreads : ∀ x ∈ ls, allOpened x.endFs k0.energyDescs) :
    ∃ k, runLaunches k0 ls = .returned k
      ∧ sampleRows k.logFile = sampleRows k0.logFile + closingTocks k0 ls := by
  induction ls generalizing k0 with
  | nil => exact ⟨k0, rfl, rfl⟩
  | cons l ls ih =>
    have hb := beginLaunch_frame k0 l.name l.beginFs l.beginNow
    have hopen : allOpened l.endFs
        (kokkosp_begin_parallel_for k0 l.name l.beginFs l.beginNow).energyDescs :=
      (allOpened_congr l.endFs _ _ hb.2.2).mpr (hreads l (List.mem_cons_self _ _))
    rcases endLaunch_cases_opened _ l.endFs l.endNow hopen with ⟨hall, he⟩
        | ⟨pre, d, post, hd, hpre, hdo, hst, he⟩
    · have hfn := (endLaunch_returned_frame _ _ _ _ he).2.2.1
      obtain ⟨k, hk, hrows⟩ := ih _ (fun x hx =>
        (allOpened_congr x.endFs _ _ (hfn.trans hb.2.2)).mpr
          (hreads x (List.mem_cons_of_mem _ hx)))
      refine ⟨k, by rw [runLaunches_cons, he]; exact hk, ?_⟩
      have hmv : ∀ d ∈ (kokkosp_begin_parallel_for k0 l.name l.beginFs l.beginNow).energyDescs,
          moved l.endFs d := fun d hd => (hall d hd).2
      have hlog : sampleRows (emittedState (kokkosp_begin_parallel_for k0 l.name l.beginFs
          l.beginNow) l.endFs l.endNow).logFile = sampleRows k0.logFile + 1 := by
        simp [sampleRows, emittedState, hb.2.1, List.countP_append, kernelSample,
          KernelLine.isSample]
      rw [hrows, hlog]
      simp only [closingTocks, he, Outcome.state, if_pos hmv]
      omega
    · have hfn := (endLaunch_returned_frame _ _ _ _ he).2.2.1
      obtain ⟨k, hk, hrows⟩ := ih _ (fun x hx =>
        (allOpened_congr x.endFs _ _ (hfn.trans hb.2.2)).mpr
          (hreads x (List.mem_cons_of_mem _ hx)))
      refine ⟨k, by rw [runLaunches_cons, he]; exact hk, ?_⟩
      have hmv : ¬ ∀ x ∈ (kokkosp_begin_parallel_for k0 l.name l.beginFs l.beginNow).energyDescs,
          moved l.endFs x := fun h => h d (by rw [hd]; simp) hst
      have hlog : (staleState (kokkosp_begin_parallel_for k0 l.name l.beginFs l.beginNow)
          l.endFs pre d post).logFile = k0.logFile := hb.2.1
      rw [hrows, hlog]
      simp only [closingTocks, he, Outcome.state, if_neg hmv]
      omega

/-- C11: in a run of alternating begin/end launch callbacks (from any engine state)
whose end-of-launch reads all succeed, every callback returns; the number of rows the
run appends to the kernel log equals the number of its `Tock`s that found every
zone's counter different from its baseline; and after such a closing `Tock` the next
`kokkosp_begin_parallel_for`, whatever its kernel name, re-samples every zone's
`tick` baseline and the time `tick` and resets `quantumSize` to 0. -/
theorem C11_one_row_per_closure (k0 : KokkosEDPLogger) (ls : List Launch)
    (hreads : ∀ x ∈ ls, allOpened x.endFs k0.energyDescs) :
    (∃ k, runLaunches k0 ls = .returned k
      ∧ sampleRows k.logFile = sampleRows k0.logFile + closingTocks k0 ls)
    ∧ (∀ pre l post, ls = pre ++ l :: post →
        ∃ kpre k', runLaunches k0 pre = .returned kpre
          ∧ kokkosp_end_parallel_for
              (kokkosp_begin_parallel_for kpre l.name l.beginFs l.beginNow) l.endFs l.endNow
              = .returned k'
          ∧ ((∀ d ∈ (kokkosp_begin_parallel_for kpre l.name l.beginFs l.beginNow).energyDescs,
                moved l.endFs d) →
              ∀ name fs now, kokkosp_begin_parallel_for k' name fs now =
                { k' with
                  prevKernel := k'.curKernel
                  curKernel := name
                  energyDescs := k'.energyDescs.map (fun d =>
                    { filename := d.filename, globalTick := d.globalTick,
                      globalTock := d.globalTock, tick := readCounter (fs d.filename),
                      tock := d.tock })
                  timeDesc := { k'.timeDesc with tick := now }
                  quantumSize := 0 })) := by
  refine ⟨sampleRows_runLaunches ls k0 hreads, ?_⟩
  intro pre l post hls
  obtain ⟨kpre, hk, hfn, _, _⟩ := runLaunches_spec k0 pre
    (fun x hx => hreads x (by rw [hls]; simp [hx]))
  have hl : allOpened l.endFs kpre.energyDescs :=
    (allOpened_congr l.endFs _ _ hfn).mpr (hreads l (by rw [hls]; simp))
  obtain ⟨k', hk'⟩ := launch_returns kpre l hl
  refine ⟨kpre, k', hk, hk', ?_⟩
  intro hmv name fs now
  obtain ⟨_, _, _, _, hcase⟩ := endLaunch_returned_frame _ _ _ _ hk'
  have hscq : k'.shouldCreateQuantum = true := by
    rcases hcase with ⟨hs, _⟩ | ⟨hs, _, _⟩
    · rcases endLaunch_cases _ l.endFs l.endNow with ⟨_, he⟩ | ⟨p, d, q, hd, _, _, hst, _⟩
          | ⟨p, d, q, _, _, _, he⟩
      · rw [he] at hk'
        injection hk' with hk'
        rw [← hk'] at hs
        exact absurd hs (by simp [emittedState, closedState])
      · exact absurd hst (hmv d (by rw [hd]; simp))
      · rw [he] at hk'
        exact Outcome.noConfusion hk'
    · exact hs
  rcases beginLaunch_cases k' name fs now with ⟨_, he⟩ | ⟨⟨hf, _⟩, _⟩
  · rw [he]
    rfl
  · rw [hscq] at hf
    exact absurd hf (by decide)

/-- C11 at a concrete run from the freshly initialised engine: the launch of `"A"`
finds zone 0 stale, the launch of `"B"` closes; one row is written. -/
theorem C11_one_row_per_closure_witness :
    (∃ k, runLaunches freshEngine
          [launchOf "A" "1000\n" "2000\n" 1 "1000\n" "2500\n" 2,
           launchOf "B" "1000\n" "2500\n" 3 "1100\n" "2600\n" 4] = .returned k
      ∧ sampleRows k.logFile = sampleRows freshEngine.logFile + closingTocks freshEngine
          [launchOf "A" "1000\n" "2000\n" 1 "1000\n" "2500\n" 2,
           launchOf "B" "1000\n" "2500\n" 3 "1100\n" "2600\n" 4])
    ∧ closingTocks freshEngine
          [launchOf "A" "1000\n" "2000\n" 1 "1000\n" "2500\n" 2,
           launchOf "B" "1000\n" "2500\n" 3 "1100\n" "2600\n" 4] = 1 :=
  ⟨(C11_one_row_per_closure freshEngine
      [launchOf "A" "1000\n" "2000\n" 1 "1000\n" "2500\n" 2,
       launchOf "B" "1000\n" "2500\n" 3 "1100\n" "2600\n" 4] (by decide)).1,
   by decide⟩

/-! ## An abandoned quantum -/

/-- With all files readable and some zone stale, `kokkosp_end_parallel_for` returns
without writing a row. -/
theorem endLaunch_of_stale_zone (k : KokkosEDPLogger) (fs : String → FileRead) (now : Int)
    (hread : allOpened fs k.energyDescs)
    (hz : ∃ z ∈ k.energyDescs, readCounter (fs z.filename) = z.tick) :
    ∃ k', kokkosp_end_parallel_for k fs now = .returned k'
      ∧ k'.shouldCreateQuantum = false
      ∧ k'.quantumSize = (k.quantumSize + 1) % U64
      ∧ baselines k' = baselines k
      ∧ k'.curKernel = k.curKernel
      ∧ k'.logFile = k.logFile := by
  obtain ⟨z, hzmem, hzst⟩ := hz
  rcases endLaunch_cases_opened k fs now hread with ⟨hall, _⟩ | ⟨pre, d, post, he, _, _, _, hE⟩
  · exact absurd hzst (hall z hzmem).2
  · exact ⟨_, hE, rfl, rfl, baselines_staleState k fs pre d post he, rfl, rfl⟩

/-- The name and count of a row written by `kokkosp_end_parallel_for`. -/
theorem row_of_emission (k k' : KokkosEDPLogger) (fs : String → FileRead) (now : Int)
    (h : kokkosp_end_parallel_for k fs now = .returned k')
    (n : String) (c : Nat) (t : Int) (e : List Nat)
    (hlog : k'.logFile = k.logFile ++ [.sample n c t e]) :
    n = k.curKernel ∧ c = k'.quantumSize
      ∧ e = k.energyDescs.map (fun d => sub64 (readCounter (fs d.filename)) d.tick) := by
  obtain ⟨_, _, _, _, hcase⟩ := endLaunch_returned_frame k fs now k' h
  rcases hcase with ⟨_, hsame⟩ | ⟨_, _, hem⟩
  · rw [hsame] at hlog
    have := congrArg List.length hlog
    simp at this
  · have hlog' : k'.logFile = k.logFile ++ [kernelSample (closedState k fs now)] := by
      rw [hem]
      rfl
    rw [hlog'] at hlog
    have hrow := List.append_cancel_left hlog
    simp only [kernelSample_closedState, List.cons.injEq, KernelLine.sample.injEq,
      and_true] at hrow
    obtain ⟨hn, hc, _, he⟩ := hrow
    refine ⟨hn.symm, ?_, he.symm⟩
    rw [hem]
    exact hc.symm

/-- One launch adds at most one to the count, and a launch whose `Tick` opens a quantum
leaves the count at most 1. -/
theorem quantumSize_launch (k k' : KokkosEDPLogger) (l : Launch) (m : Nat)
    (hm : k.quantumSize ≤ m ∨ k.shouldCreateQuantum = true ∨ k.curKernel ≠ l.name)
    (h : kokkosp_end_parallel_for (kokkosp_begin_parallel_for k l.name l.beginFs l.beginNow)
        l.endFs l.endNow = .returned k') :
    k'.quantumSize ≤ m + 1 := by
  obtain ⟨_, hq, _, _, _⟩ := endLaunch_returned_frame _ _ _ _ h
  rw [hq]
  rcases beginLaunch_cases k l.name l.beginFs l.beginNow with ⟨_, he⟩ | ⟨⟨hf, hname⟩, he⟩
  · rw [he]
    have h1 : (0 + 1) % U64 = 1 := by decide
    show (0 + 1) % U64 ≤ m + 1
    rw [h1]
    omega
  · rw [he]
    have hle : k.quantumSize ≤ m := by
      rcases hm with h1 | h1 | h1
      · exact h1
      · rw [hf] at h1
        exact absurd h1 (by decide)
      · exact absurd hname h1
    exact Nat.le_trans (Nat.mod_le _ _) (Nat.succ_le_succ hle)

/-- In a run of launches whose first `Tick` opens a quantum, the count never exceeds
the number of launches run. -/
theorem quantumSize_runLaunches (k0 : KokkosEDPLogger) (ls : List Launch)
    (hreads : ∀ x ∈ ls, allOpened x.endFs k0.energyDescs)
    (hfirst : ∀ l, ls.head? = some l → k0.shouldCreateQuantum = true ∨ k0.curKernel ≠ l.name) :
    ∃ k, runLaunches k0 ls = .returned k ∧ (ls ≠ [] → k.quantumSize ≤ ls.length) := by
  induction ls using List.reverseRecOn with
  | nil => exact ⟨k0, rfl, fun h => absurd rfl h⟩
  | append_singleton ls l ih =>
    obtain ⟨k, hk, hq⟩ := ih (fun x hx => hreads x (by simp [hx]))
      (fun x hx => hfirst x (by
        cases ls with
        | nil => simp at hx
        | cons y ys => simpa using hx))
    obtain ⟨k2, hk2, hfn, _, _⟩ := runLaunches_spec k0 ls (fun x hx => hreads x (by simp [hx]))
    have hkk : k = k2 := by
      rw [hk] at hk2
      injection hk2 with hk2
    subst hkk
    have hl : allOpened l.endFs k.energyDescs :=
      (allOpened_congr l.endFs _ _ hfn).mpr (hreads l (by simp))
    obtain ⟨k', hk'⟩ := launch_returns k l hl
    refine ⟨k', by rw [runLaunches_snoc k0 k ls l hk, hk'], fun _ => ?_⟩
    rw [List.length_append, List.length_singleton]
    apply quantumSize_launch k k' l ls.length _ hk'
    cases ls with
    | nil =>
      right
      have : k = k0 := by
        have h0 : runLaunches k0 [] = .returned k0 := rfl
        rw [h0] at hk
        injection hk with hk
        exact hk.symm
      rw [this]
      exact hfirst l (by simp)
    | cons y ys =>
      left
      exact hq (by simp)

theorem initState_names (getenv : Option String) (fileExists : String → Bool) (scq0 : Bool)
    (qs0 : Nat) (kc : KokkosEDPLogger) (fsInit : String → FileRead) (nowInit : Int)
    (hnew : KokkosEDPLogger.new getenv fileExists scq0 qs0 = .ok kc) :
    (initState kc fsInit nowInit).curKernel = ""
    ∧ (initState kc fsInit nowInit).prevKernel = ""
    ∧ (initState kc fsInit nowInit).shouldCreateQuantum = scq0 := by
  obtain ⟨n, hkc⟩ := new_spec getenv fileExists scq0 qs0 kc hnew
  rw [hkc]
  exact ⟨rfl, rfl, rfl⟩

/-- C17: take the run `kokkosp_init_library`, launch of `"A"` whose end finds some zone
stale, launch of `"B"`, further launches, with all reads succeeding. The launch of
`"A"` writes no row; the `kokkosp_begin_parallel_for` of `"B"` re-samples every `tick`
baseline and the time `tick` and resets `quantumSize` to 0; every row written from
then on carries the name of the launch that writes it (`"B"` for the launch of `"B"`)
and a count that is at most the number of launches since that begin, so that it
excludes the launch of `"A"`. And there is a run with non-decreasing counters in
which the per-quantum energy deltas of zone 0 sum to strictly less than the whole-run
delta of zone 0. -/
theorem C17_abandoned_quantum (klaant : KokkosEDPLogger) (getenv : Option String)
    (fileExists : String → Bool) (scq0 : Bool) (qs0 : Nat) (kc : KokkosEDPLogger)
    (fsInit : String → FileRead) (nowInit : Int) (lA lB : Launch) (more : List Launch)
    (hnew : KokkosEDPLogger.new getenv fileExists scq0 qs0 = .ok kc)
    (hinit : allOpened fsInit kc.energyDescs)
    (hA : lA.name = "A") (hB : lB.name = "B")
    (hreads : ∀ x ∈ lA :: lB :: more, allOpened x.endFs kc.energyDescs)
    (hstale : ∃ z ∈ kc.energyDescs,
      readCounter (lA.endFs z.filename) = readCounter (lA.beginFs z.filename)) :
    (∃ k0 kA,
      kokkosp_init_library klaant getenv fileExists scq0 qs0 fsInit nowInit = .returned k0
      ∧ runLaunches k0 [lA] = .returned kA
      ∧ kA.logFile = k0.logFile
      ∧ sampleRows kA.logFile = 0
      ∧ kokkosp_begin_parallel_for kA lB.name lB.beginFs lB.beginNow =
          { kA with
            prevKernel := "A"
            curKernel := "B"
            energyDescs := kA.energyDescs.map (fun d =>
              { filename := d.filename, globalTick := d.globalTick,
                globalTock := d.globalTock, tick := readCounter (lB.beginFs d.filename),
                tock := d.tock })
            timeDesc := { kA.timeDesc with tick := lB.beginNow }
            quantumSize := 0 }
      ∧ (∀ pre l post, lB :: more = pre ++ l :: post →
          ∃ kpre k', runLaunches kA pre = .returned kpre
            ∧ kokkosp_end_parallel_for
                (kokkosp_begin_parallel_for kpre l.name l.beginFs l.beginNow) l.endFs l.endNow
                = .returned k'
            ∧ ∀ n c t e, k'.logFile = kpre.logFile ++ [.sample n c t e] →
                n = l.name ∧ c ≤ pre.length + 1))
    ∧ (∃ (ls : List Launch) (fsI fsF : String → FileRead),
        List.Pairwise (CountersLe constructedEngine)
          (fsI :: ((launchEvents ls).map Event.fs ++ [fsF]))
        ∧ ∃ k0 k kf,
          kokkosp_init_library twoZones (some "2") (fun _ => true) false 7 fsI 0 = .returned k0
          ∧ runLaunches k0 ls = .returned k
          ∧ kokkosp_finalize_library k fsF 12 = .returned kf
          ∧ quantaEnergy 0 kf.logFile < wholeRunEnergy 0 kf.globalLogFile) := by
  constructor
  · obtain ⟨hcur0, _, _⟩ := initState_names getenv fileExists scq0 qs0 kc fsInit nowInit hnew
    obtain ⟨_, ⟨cols, hlog0⟩, hfn0⟩ :=
      initState_fresh getenv fileExists scq0 qs0 kc fsInit nowInit hnew
    have hbA := beginLaunch_frame (initState kc fsInit nowInit) lA.name lA.beginFs lA.beginNow
    -- the begin of "A" opens a quantum
    have htrig : (initState kc fsInit nowInit).shouldCreateQuantum = true
        ∨ (initState kc fsInit nowInit).curKernel ≠ lA.name := by
      right
      rw [hcur0, hA]
      decide
    have hzA : ∃ z ∈ (kokkosp_begin_parallel_for (initState kc fsInit nowInit) lA.name
        lA.beginFs lA.beginNow).energyDescs, readCounter (lA.endFs z.filename) = z.tick := by
      obtain ⟨z, hz, hzs⟩ := hstale
      rcases beginLaunch_cases (initState kc fsInit nowInit) lA.name lA.beginFs lA.beginNow
        with ⟨_, he⟩ | ⟨⟨hf, hn⟩, _⟩
      · rw [he]
        refine ⟨recordTick lA.beginFs (recordGlobalTick fsInit z), ?_, hzs⟩
        exact List.mem_map_of_mem _ (List.mem_map_of_mem _ hz)
      · rcases htrig with h | h
        · rw [hf] at h
          exact absurd h (by decide)
        · exact absurd hn h
    have hopenA : allOpened lA.endFs (kokkosp_begin_parallel_for (initState kc fsInit nowInit)
        lA.name lA.beginFs lA.beginNow).energyDescs :=
      (allOpened_congr lA.endFs _ _ (hbA.2.2.trans hfn0)).mpr (hreads lA (by simp))
    obtain ⟨kA, hkA, _, _, _, hcurA, hlogA⟩ :=
      endLaunch_of_stale_zone _ lA.endFs lA.endNow hopenA hzA
    have hfnA : kA.energyDescs.map (fun d => d.filename)
        = kc.energyDescs.map (fun d => d.filename) :=
      ((endLaunch_returned_frame _ _ _ _ hkA).2.2.1.trans hbA.2.2).trans hfn0
    have hcurA' : kA.curKernel = "A" := by rw [hcurA, hbA.1, hA]
    have hlogA' : kA.logFile = (initState kc fsInit nowInit).logFile := by rw [hlogA, hbA.2.1]
    refine ⟨_, kA, init_returned klaant getenv fileExists scq0 qs0 kc fsInit nowInit hnew hinit,
      ?_, hlogA', ?_, ?_, ?_⟩
    · rw [runLaunches_cons, hkA]
      rfl
    · rw [hlogA', hlog0]
      rfl
    · rcases beginLaunch_cases kA lB.name lB.beginFs lB.beginNow with ⟨_, he⟩ | ⟨⟨_, hn⟩, _⟩
      · rw [he, hcurA', hB]
        rfl
      · rw [hcurA', hB] at hn
        exact absurd hn (by decide)
    · intro pre l post hsplit
      have hmem : ∀ x ∈ pre ++ [l], x ∈ lB :: more := by
        intro x hx
        rw [hsplit]
        rcases List.mem_append.mp hx with h | h
        · exact List.mem_append_left _ h
        · exact List.mem_append_right _ (by rw [List.mem_singleton.mp h]; simp)
      have hreadsA : ∀ x ∈ pre ++ [l], allOpened x.endFs kA.energyDescs :=
        fun x hx => (allOpened_congr x.endFs _ _ hfnA).mpr
          (hreads x (List.mem_cons_of_mem _ (hmem x hx)))
      have hhead : ∀ x, (pre ++ [l]).head? = some x → kA.shouldCreateQuantum = true
          ∨ kA.curKernel ≠ x.name := by
        intro x hx
        right
        have hxB : x = lB := by
          cases pre with
          | nil =>
            simp only [List.nil_append, List.cons.injEq] at hsplit
            simp only [List.nil_append, List.head?_cons, Option.some.injEq] at hx
            rw [← hx, ← hsplit.1]
          | cons p ps =>
            simp only [List.cons_append, List.cons.injEq] at hsplit
            simp only [List.cons_append, List.head?_cons, Option.some.injEq] at hx
            rw [← hx, ← hsplit.1]
        rw [hxB, hcurA', hB]
        decide
      obtain ⟨kpre, hkpre, _, _, _⟩ := runLaunches_spec kA pre
        (fun x hx => hreadsA x (by simp [hx]))
      obtain ⟨k', hk', hq⟩ := quantumSize_runLaunches kA (pre ++ [l]) hreadsA hhead
      rw [runLaunches_snoc kA kpre pre l hkpre] at hk'
      refine ⟨kpre, k', hkpre, hk', ?_⟩
      intro n c t e hlog
      have hb := beginLaunch_frame kpre l.name l.beginFs l.beginNow
      rw [← hb.2.1] at hlog
      obtain ⟨hn, hc, _⟩ := row_of_emission _ k' l.endFs l.endNow hk' n c t e hlog
      refine ⟨by rw [hn, hb.1], ?_⟩
      rw [hc]
      have := hq (by simp)
      simpa using this
  · refine ⟨[launchOf "A" "1000\n" "2000\n" 1 "1000\n" "2500\n" 2,
        launchOf "B" "1000\n" "2500\n" 3 "1100\n" "2600\n" 4],
      rapl "900\n" "1900\n", rapl "1500\n" "2900\n", by decide, ?_⟩
    exact ⟨_, _, _, rfl, rfl, rfl, by decide⟩

/-- C17 at a concrete run: init at (900, 1900); the launch of `"A"` finds zone 0 stale;
the launch of `"B"` closes with the row `("B", 1, 1, [100, 100])`. -/
theorem C17_abandoned_quantum_witness :
    ∃ k0 kA,
      kokkosp_init_library twoZones (some "2") (fun _ => true) false 7
          (rapl "900\n" "1900\n") 0 = .returned k0
      ∧ runLaunches k0 [launchOf "A" "1000\n" "2000\n" 1 "1000\n" "2500\n" 2] = .returned kA
      ∧ kA.logFile = k0.logFile
      ∧ sampleRows kA.logFile = 0
      ∧ kokkosp_begin_parallel_for kA (launchOf "B" "1000\n" "2500\n" 3 "1100\n" "2600\n" 4).name
            (launchOf "B" "1000\n" "2500\n" 3 "1100\n" "2600\n" 4).beginFs
            (launchOf "B" "1000\n" "2500\n" 3 "1100\n" "2600\n" 4).beginNow =
          { kA with
            prevKernel := "A"
            curKernel := "B"
            energyDescs := kA.energyDescs.map (fun d =>
              { filename := d.filename, globalTick := d.globalTick,
                globalTock := d.globalTock,
                tick := readCounter
                  ((launchOf "B" "1000\n" "2500\n" 3 "1100\n" "2600\n" 4).beginFs d.filename),
                tock := d.tock })
            timeDesc :=
              { kA.timeDesc with
                tick := (launchOf "B" "1000\n" "2500\n" 3 "1100\n" "2600\n" 4).beginNow }
            quantumSize := 0 }
      ∧ (∀ pre l post,
          launchOf "B" "1000\n" "2500\n" 3 "1100\n" "2600\n" 4 :: [] = pre ++ l :: post →
          ∃ kpre k', runLaunches kA pre = .returned kpre
            ∧ kokkosp_end_parallel_for
                (kokkosp_begin_parallel_for kpre l.name l.beginFs l.beginNow) l.endFs l.endNow
                = .returned k'
            ∧ ∀ n c t e, k'.logFile = kpre.logFile ++ [.sample n c t e] →
                n = l.name ∧ c ≤ pre.length + 1) :=
  (C17_abandoned_quantum twoZones (some "2") (fun _ => true) false 7 constructedEngine
    (rapl "900\n" "1900\n") 0 (launchOf "A" "1000\n" "2000\n" 1 "1000\n" "2500\n" 2)
    (launchOf "B" "1000\n" "2500\n" 3 "1100\n" "2600\n" 4) [] rfl (by decide) rfl rfl
    (by decide) (by decide)).1

/-! ## Per-quantum samples against the whole run -/

theorem baselines_getElem? (k : KokkosEDPLogger) (i : Nat) (f : String) (t : Nat) :
    (baselines k)[i]? = some (f, t)
      ↔ ∃ d, k.energyDescs[i]? = some d ∧ d.filename = f ∧ d.tick = t := by
  unfold baselines
  rw [List.getElem?_map]
  cases k.energyDescs[i]? with
  | none => simp
  | some d => simp

theorem quantaEnergy_append (i : Nat) (log : List KernelLine) (row : KernelLine) :
    quantaEnergy i (log ++ [row]) = quantaEnergy i log + row.energyAt i := by
  simp [quantaEnergy, List.sum_append]

theorem OpenBaseline_mono (i : Nat) (f : String) (R : Nat) (fut fut' : List (String → FileRead))
    (k : KokkosEDPLogger) (hsub : ∀ x ∈ fut', x ∈ fut) (h : OpenBaseline i f R fut k) :
    OpenBaseline i f R fut' k := by
  obtain ⟨t, hb, hs, hf⟩ := h
  exact ⟨t, hb, hs, fun x hx => hf x (hsub x hx)⟩

/-- After `kokkosp_begin_parallel_for` the quantum in progress has a sound baseline:
a freshly sampled one when `Tick` was triggered, the one of the quantum that stays
open otherwise. -/
theorem OpenBaseline_begin (i : Nat) (f : String) (R : Nat) (fut : List (String → FileRead))
    (k : KokkosEDPLogger) (name : String) (fs : String → FileRead) (now : Int)
    (hz : ∃ t, (baselines k)[i]? = some (f, t))
    (ha : quantaEnergy i k.logFile + R ≤ readCounter (fs f))
    (hm : ∀ x ∈ fut, readCounter (fs f) ≤ readCounter (x f))
    (hidle : k.shouldCreateQuantum = false → k.curKernel = name → OpenBaseline i f R fut k) :
    OpenBaseline i f R fut (kokkosp_begin_parallel_for k name fs now) := by
  rcases beginLaunch_cases k name fs now with ⟨_, he⟩ | ⟨⟨hf, hn⟩, he⟩
  · rw [he]
    obtain ⟨t, ht⟩ := hz
    obtain ⟨d, hd, hdf, _⟩ := (baselines_getElem? k i f t).mp ht
    refine ⟨readCounter (fs f), ?_, ha, hm⟩
    rw [baselines_getElem?]
    refine ⟨recordTick fs d, ?_, hdf, ?_⟩
    · show (k.energyDescs.map (recordTick fs))[i]? = _
      rw [List.getElem?_map, hd]
      rfl
    · show readCounter (fs d.filename) = _
      rw [hdf]
  · rw [he]
    exact hidle hf hn

/-- What `kokkosp_end_parallel_for` does to the accounting of zone `i` when the
quantum in progress has a sound baseline and all files are readable. -/
theorem OpenBaseline_end (i : Nat) (f : String) (R : Nat) (fut : List (String → FileRead))
    (k : KokkosEDPLogger) (fs : String → FileRead) (now : Int)
    (hopen : allOpened fs k.energyDescs)
    (hm : ∀ x ∈ fut, readCounter (fs f) ≤ readCounter (x f))
    (h : OpenBaseline i f R (fs :: fut) k) :
    ∃ k1, kokkosp_end_parallel_for k fs now = .returned k1
      ∧ k1.energyDescs.map (fun d => d.filename) = k.energyDescs.map (fun d => d.filename)
      ∧ (∃ t, (baselines k1)[i]? = some (f, t))
      ∧ (∀ x ∈ fut, quantaEnergy i k1.logFile + R ≤ readCounter (x f))
      ∧ (k1.shouldCreateQuantum = false → OpenBaseline i f R fut k1) := by
  obtain ⟨t, hb, hs, hf⟩ := h
  have hbe := baselines_end k fs now
  rcases endLaunch_cases_opened k fs now hopen with ⟨_, he⟩ | ⟨pre, d, post, hd, _, _, _, he⟩
  · have hfn := (endLaunch_returned_frame _ _ _ _ he).2.2.1
    rw [he] at hbe
    have hb1 : (baselines (emittedState k fs now))[i]? = some (f, t) := by
      rw [show baselines (emittedState k fs now) = baselines k from hbe]
      exact hb
    refine ⟨_, he, hfn, ⟨t, hb1⟩, ?_, ?_⟩
    · intro x hx
      have hlog : (emittedState k fs now).logFile
          = k.logFile ++ [kernelSample (closedState k fs now)] := rfl
      have hrow : (kernelSample (closedState k fs now)).energyAt i
          = sub64 (readCounter (fs f)) t := by
        rw [kernelSample_closedState, energy_of_baselines]
        simp only [KernelLine.energyAt, List.getD_eq_getElem?_getD, List.getElem?_map, hb]
        rfl
      have htle : t ≤ readCounter (fs f) := hf fs (List.mem_cons_self _ _)
      rw [hlog, quantaEnergy_append, hrow, sub64_eq_sub _ _ (readCounter_lt _) htle]
      have := hm x hx
      omega
    · intro hscq
      exact absurd hscq (by simp [emittedState, closedState])
  · have hfn := (endLaunch_returned_frame _ _ _ _ he).2.2.1
    rw [he] at hbe
    have hb1 : (baselines (staleState k fs pre d post))[i]? = some (f, t) := by
      rw [show baselines (staleState k fs pre d post) = baselines k from hbe]
      exact hb
    have hlog : (staleState k fs pre d post).logFile = k.logFile := rfl
    refine ⟨_, he, hfn, ⟨t, hb1⟩, ?_, ?_⟩
    · intro x hx
      rw [hlog]
      exact Nat.le_trans hs (hf x (List.mem_cons_of_mem _ hx))
    · intro _
      exact ⟨t, hb1, by rw [hlog]; exact hs, fun x hx => hf x (List.mem_cons_of_mem _ hx)⟩

theorem futureReads_cons (l : Launch) (ls : List Launch) (fsFinal : String → FileRead) :
    futureReads (l :: ls) fsFinal = l.beginFs :: l.endFs :: futureReads ls fsFinal := rfl

/-- Along a run of launches with readable files and non-decreasing counters, the
deltas written for zone `i` never add up to more than the counter has advanced since
initialisation. -/
theorem quantaEnergy_runLaunches (i : Nat) (f : String) (R : Nat)
    (fsFinal : String → FileRead) (ls : List Launch) (k : KokkosEDPLogger)
    (hz : ∃ t, (baselines k)[i]? = some (f, t))
    (ha : ∀ x ∈ futureReads ls fsFinal, quantaEnergy i k.logFile + R ≤ readCounter (x f))
    (hmono : List.Pairwise (fun a b => readCounter (a f) ≤ readCounter (b f))
      (futureReads ls fsFinal))
    (hidle : ∀ l, ls.head? = some l → k.shouldCreateQuantum = false → k.curKernel = l.name →
      OpenBaseline i f R (futureReads ls fsFinal) k)
    (hreads : ∀ x ∈ ls, allOpened x.endFs k.energyDescs) :
    ∃ k', runLaunches k ls = .returned k'
      ∧ quantaEnergy i k'.logFile + R ≤ readCounter (fsFinal f) := by
  induction ls generalizing k with
  | nil =>
    exact ⟨k, rfl, ha fsFinal (by simp [futureReads, launchEvents])⟩
  | cons l ls ih =>
    rw [futureReads_cons] at ha hmono hidle
    obtain ⟨hm1, hmono1⟩ := List.pairwise_cons.mp hmono
    obtain ⟨hm2, hmono2⟩ := List.pairwise_cons.mp hmono1
    have hb := beginLaunch_frame k l.name l.beginFs l.beginNow
    have hmid := OpenBaseline_begin i f R (l.endFs :: futureReads ls fsFinal) k l.name
      l.beginFs l.beginNow hz (ha l.beginFs (List.mem_cons_self _ _)) hm1
      (fun h1 h2 => OpenBaseline_mono i f R _ _ k
        (fun x hx => List.mem_cons_of_mem _ hx) (hidle l rfl h1 h2))
    have hopen : allOpened l.endFs
        (kokkosp_begin_parallel_for k l.name l.beginFs l.beginNow).energyDescs :=
      (allOpened_congr l.endFs _ _ hb.2.2).mpr (hreads l (List.mem_cons_self _ _))
    obtain ⟨k1, hk1, hfn1, hz1, ha1, hidle1⟩ := OpenBaseline_end i f R (futureReads ls fsFinal)
      _ l.endFs l.endNow hopen hm2 hmid
    obtain ⟨k', hk', hle⟩ := ih k1 hz1 ha1 hmono2 (fun _ _ h1 _ => hidle1 h1)
      (fun x hx => (allOpened_congr x.endFs _ _ (hfn1.trans hb.2.2)).mpr
        (hreads x (List.mem_cons_of_mem _ hx)))
    exact ⟨k', by rw [runLaunches_cons, hk1]; exact hk', hle⟩

/-- The two logs after `kokkosp_finalize_library`, for a run of launch callbacks from the
initialised engine that returned. -/
theorem finalize_after_run (getenv : Option String) (fileExists : String → Bool)
    (scq0 : Bool) (qs0 : Nat) (kc : KokkosEDPLogger) (fsInit : String → FileRead)
    (nowInit : Int) (es : List Event) (fsFinal : String → FileRead) (nowFinal : Int)
    (k : KokkosEDPLogger)
    (hnew : KokkosEDPLogger.new getenv fileExists scq0 qs0 = .ok kc)
    (hk : runEvents (initState kc fsInit nowInit) es = .returned k)
    (hfinal : allOpened fsFinal kc.energyDescs) :
    ∃ kf cols, kokkosp_finalize_library k fsFinal nowFinal = .returned kf
      ∧ kf.logFile = k.logFile
      ∧ kf.globalLogFile =
          [.header cols,
           .sample (nowFinal - nowInit) (kc.energyDescs.map (fun d =>
              sub64 (readCounter (fsFinal d.filename)) (readCounter (fsInit d.filename))))] := by
  obtain ⟨n, hkc⟩ := new_spec getenv fileExists scq0 qs0 kc hnew
  have hfn := filenames_run kc fsInit nowInit es
  have hg := globalPart_runEvents (initState kc fsInit nowInit) es
  rw [hk] at hfn hg
  have hg' : globalPart k = globalPart (initState kc fsInit nowInit) := hg
  have hz : k.energyDescs.map (fun d => (d.filename, d.globalTick, d.globalTock))
      = (kc.energyDescs.map (recordGlobalTick fsInit)).map
          (fun d => (d.filename, d.globalTick, d.globalTock)) :=
    congrArg (fun p => p.1) hg'
  have ht1 : k.timeDesc.globalTick = nowInit := congrArg (fun p => p.2.1) hg'
  have hlog : k.globalLogFile = kc.globalLogFile := congrArg (fun p => p.2.2.2) hg'
  have hkf := finalize_opened k fsFinal nowFinal
    ((allOpened_congr fsFinal _ _ hfn).mpr hfinal)
  refine ⟨_, ["time_ms"] ++ energyColumns n, hkf, rfl, ?_⟩
  have hen : (k.energyDescs.map (recordGlobalTock fsFinal)).map
        (fun d => sub64 d.globalTock d.globalTick)
      = kc.energyDescs.map (fun d =>
          sub64 (readCounter (fsFinal d.filename)) (readCounter (fsInit d.filename))) := by
    have := congrArg (List.map (fun t : String × Nat × Nat =>
      sub64 (readCounter (fsFinal t.1)) t.2.1)) hz
    simpa [List.map_map, Function.comp_def, recordGlobalTock, recordGlobalTick] using this
  show k.globalLogFile ++ [globalSample (globalTockState k fsFinal nowFinal)] = _
  have hs : globalSample (globalTockState k fsFinal nowFinal)
      = .sample (nowFinal - nowInit) (kc.energyDescs.map (fun d =>
          sub64 (readCounter (fsFinal d.filename)) (readCounter (fsInit d.filename)))) := by
    simp only [globalSample, globalTockState, ht1, hen]
  rw [hs, hlog]
  have hh : kc.globalLogFile = [.header (["time_ms"] ++ energyColumns n)] := by
    rw [hkc]
  rw [hh]
  rfl

/-- C18: take a run `kokkosp_init_library`, alternating begin/end launch callbacks,
`kokkosp_finalize_library`, in which every counter file is readable, the counters
shown by the successive file systems never decrease for any configured zone, and the
first launch's kernel name is not empty. Then all calls return, and for every
configured zone the energy deltas of that zone in the per-quantum rows add up to at
most the zone's delta in the whole-run row. -/
theorem C18_quanta_never_overcount (klaant : KokkosEDPLogger) (getenv : Option String)
    (fileExists : String → Bool) (scq0 : Bool) (qs0 : Nat) (kc : KokkosEDPLogger)
    (fsInit : String → FileRead) (nowInit : Int) (ls : List Launch)
    (fsFinal : String → FileRead) (nowFinal : Int)
    (hnew : KokkosEDPLogger.new getenv fileExists scq0 qs0 = .ok kc)
    (hinit : allOpened fsInit kc.energyDescs)
    (hreads : ∀ x ∈ ls, allOpened x.endFs kc.energyDescs)
    (hfinal : allOpened fsFinal kc.energyDescs)
    (hmono : List.Pairwise (CountersLe kc) (fsInit :: futureReads ls fsFinal))
    (hname : ∀ l, ls.head? = some l → l.name ≠ "") :
    ∃ k0 k kf,
      kokkosp_init_library klaant getenv fileExists scq0 qs0 fsInit nowInit = .returned k0
      ∧ runLaunches k0 ls = .returned k
      ∧ kokkosp_finalize_library k fsFinal nowFinal = .returned kf
      ∧ ∀ i, i < kc.energyDescs.length →
          quantaEnergy i kf.logFile ≤ wholeRunEnergy i kf.globalLogFile := by
  obtain ⟨hz0, ⟨cols0, hlog0⟩, hfn0⟩ :=
    initState_fresh getenv fileExists scq0 qs0 kc fsInit nowInit hnew
  obtain ⟨hcur0, _, _⟩ := initState_names getenv fileExists scq0 qs0 kc fsInit nowInit hnew
  have hreads0 : ∀ x ∈ ls, allOpened x.endFs (initState kc fsInit nowInit).energyDescs :=
    fun x hx => (allOpened_congr x.endFs _ _ hfn0).mpr (hreads x hx)
  obtain ⟨k, hk, _, _, _⟩ := runLaunches_spec (initState kc fsInit nowInit) ls hreads0
  obtain ⟨kf, cols, hkf, hlogf, hglob⟩ := finalize_after_run getenv fileExists scq0 qs0 kc
    fsInit nowInit (launchEvents ls) fsFinal nowFinal k hnew hk hfinal
  refine ⟨_, k, kf,
    init_returned klaant getenv fileExists scq0 qs0 kc fsInit nowInit hnew hinit, hk, hkf, ?_⟩
  intro i hi
  obtain ⟨hm0, hmono1⟩ := List.pairwise_cons.mp hmono
  have hdz : kc.energyDescs[i]? = some kc.energyDescs[i] := List.getElem?_eq_getElem hi
  have hdzmem : kc.energyDescs[i] ∈ kc.energyDescs := List.getElem_mem hi
  -- the zone's baseline in the initialised engine is 0
  have hz : ∃ t, (baselines (initState kc fsInit nowInit))[i]? = some (kc.energyDescs[i].filename, t) := by
    refine ⟨0, ?_⟩
    rw [baselines_getElem?]
    have hget : (initState kc fsInit nowInit).energyDescs[i]?
        = some (recordGlobalTick fsInit kc.energyDescs[i]) := by
      show (kc.energyDescs.map (recordGlobalTick fsInit))[i]? = _
      rw [List.getElem?_map, hdz]
      rfl
    refine ⟨_, hget, rfl, ?_⟩
    have hmem : recordGlobalTick fsInit kc.energyDescs[i]
        ∈ (initState kc fsInit nowInit).energyDescs :=
      List.mem_map_of_mem _ hdzmem
    exact (hz0 _ hmem).1
  have hS0 : quantaEnergy i (initState kc fsInit nowInit).logFile = 0 := by
    rw [hlog0]
    rfl
  have ha : ∀ x ∈ futureReads ls fsFinal,
      quantaEnergy i (initState kc fsInit nowInit).logFile
          + readCounter (fsInit kc.energyDescs[i].filename)
        ≤ readCounter (x kc.energyDescs[i].filename) := by
    intro x hx
    rw [hS0, Nat.zero_add]
    exact hm0 x hx _ hdzmem
  have hmono' : List.Pairwise (fun a b => readCounter (a kc.energyDescs[i].filename)
      ≤ readCounter (b kc.energyDescs[i].filename)) (futureReads ls fsFinal) :=
    hmono1.imp (fun hab => hab _ hdzmem)
  obtain ⟨k', hk', hle⟩ := quantaEnergy_runLaunches i kc.energyDescs[i].filename
    (readCounter (fsInit kc.energyDescs[i].filename)) fsFinal ls (initState kc fsInit nowInit)
    hz ha hmono'
    (fun l hl _ hcur => absurd (hcur0.symm.trans hcur).symm (hname l hl)) hreads0
  have hkk : k' = k := by
    rw [hk] at hk'
    injection hk' with hk'
    exact hk'.symm
  rw [hkk] at hle
  have hfin : readCounter (fsInit kc.energyDescs[i].filename)
      ≤ readCounter (fsFinal kc.energyDescs[i].filename) :=
    hm0 fsFinal (by simp [futureReads]) _ hdzmem
  have hwhole : wholeRunEnergy i kf.globalLogFile
      = readCounter (fsFinal kc.energyDescs[i].filename)
        - readCounter (fsInit kc.energyDescs[i].filename) := by
    rw [hglob, ← sub64_eq_sub _ _ (readCounter_lt _) hfin]
    simp [wholeRunEnergy, GlobalLine.energyAt, List.getD_eq_getElem?_getD, List.getElem?_map,
      hdz]
  rw [hlogf, hwhole]
  omega

/-- C18 at a concrete run: init at (900, 1900), a launch of `"A"` that finds zone 0
stale, a launch of `"B"` that closes at (1100, 2600), finalize at (1500, 2900): the
rows sum to (100, 100), the whole-run row is (600, 1000). -/
theorem C18_quanta_never_overcount_witness :
    ∃ k0 k kf,
      kokkosp_init_library twoZones (some "2") (fun _ => true) false 7
          (rapl "900\n" "1900\n") 0 = .returned k0
      ∧ runLaunches k0 [launchOf "A" "1000\n" "2000\n" 1 "1000\n" "2500\n" 2,
          launchOf "B" "1000\n" "2500\n" 3 "1100\n" "2600\n" 4] = .returned k
      ∧ kokkosp_finalize_library k (rapl "1500\n" "2900\n") 12 = .returned kf
      ∧ ∀ i, i < constructedEngine.energyDescs.length →
          quantaEnergy i kf.logFile ≤ wholeRunEnergy i kf.globalLogFile :=
  C18_quanta_never_overcount twoZones (some "2") (fun _ => true) false 7 constructedEngine
    (rapl "900\n" "1900\n") 0
    [launchOf "A" "1000\n" "2000\n" 1 "1000\n" "2500\n" 2,
     launchOf "B" "1000\n" "2500\n" 3 "1100\n" "2600\n" 4]
    (rapl "1500\n" "2900\n") 12 rfl (by decide) (by decide) (by decide) (by decide) (by decide)

/-- When the first launch carries a non-empty name, or the uninitialised flag happens to
hold `true`, the first `kokkosp_begin_parallel_for` does open a quantum. -/
theorem first_begin_opens (getenv : Option String) (fileExists : String → Bool) (scq0 : Bool)
    (qs0 : Nat) (kc : KokkosEDPLogger) (fsInit : String → FileRead) (nowInit : Int)
    (name : String) (fs : String → FileRead) (now : Int)
    (hnew : KokkosEDPLogger.new getenv fileExists scq0 qs0 = .ok kc)
    (h : scq0 = true ∨ name ≠ "") :
    kokkosp_begin_parallel_for (initState kc fsInit nowInit) name fs now =
      { initState kc fsInit nowInit with
        prevKernel := ""
        curKernel := name
        energyDescs := (initState kc fsInit nowInit).energyDescs.map (recordTick fs)
        timeDesc := { (initState kc fsInit nowInit).timeDesc with tick := now }
        quantumSize := 0 } := by
  obtain ⟨hcur, _, hscq⟩ := initState_names getenv fileExists scq0 qs0 kc fsInit nowInit hnew
  rcases beginLaunch_cases (initState kc fsInit nowInit) name fs now with ⟨_, he⟩
      | ⟨⟨hf, hn⟩, _⟩
  · rw [he, hcur]
  · rcases h with h | h
    · rw [hscq, h] at hf
      exact absurd hf (by decide)
    · rw [hcur] at hn
      exact absurd hn.symm h

/-! ## Tick and Tock calls in any order while a zone is stale -/

/-- A sequence of same-name `Tick`s and `Tock`s in any order, every `Tock` with all
files readable and some zone stale, in which no `Tick` comes before the first `Tock`
while `shouldCreateQuantum` is still true: it returns, leaves the count advanced by the
number of `Tock`s (modulo `2 ^ 64`) and every baseline, the time descriptor, the
kernel name and the log untouched. -/
theorem runCalls_stale (cs : List Call) (k : KokkosEDPLogger) (hq : k.quantumSize < U64)
    (hfirst : k.shouldCreateQuantum = false ∨ ∀ c, cs.head? = some c → c.isTock = true)
    (hreads : ∀ fs now, Call.tock fs now ∈ cs → allOpened fs k.energyDescs)
    (hstale : ∀ fs now, Call.tock fs now ∈ cs →
      ∃ z ∈ k.energyDescs, readCounter (fs z.filename) = z.tick) :
    ∃ k', runCalls k cs = .returned k'
      ∧ k'.quantumSize = (k.quantumSize + tockCount cs) % U64
      ∧ baselines k' = baselines k
      ∧ k'.timeDesc = k.timeDesc
      ∧ k'.curKernel = k.curKernel
      ∧ k'.logFile = k.logFile
      ∧ (k.shouldCreateQuantum = false ∨ cs ≠ [] → k'.shouldCreateQuantum = false) := by
  induction cs generalizing k with
  | nil =>
    refine ⟨k, rfl, ?_, rfl, rfl, rfl, rfl, fun h => h.elim id (fun h' => absurd rfl h')⟩
    simp only [tockCount, List.countP_nil, Nat.add_zero]
    exact (Nat.mod_eq_of_lt hq).symm
  | cons c cs ih =>
    cases c with
    | tick fs now =>
      have hflag : k.shouldCreateQuantum = false := by
        rcases hfirst with h | h
        · exact h
        · exact absurd (h (.tick fs now) rfl) (by simp [Call.isTock])
      obtain ⟨hs1, hq1, hb1, ht1, hc1, hl1⟩ := sameNameTick_idle k (some (fs, now)) hflag
      obtain ⟨k2, hrun, hq2, hb2, ht2, hc2, hl2, hs2⟩ := ih (sameNameTick k (some (fs, now)))
        (by rw [hq1]; exact hq) (Or.inl hs1)
        (fun gs tn hm => allOpened_of_baselines gs k _ hb1
          (hreads gs tn (List.mem_cons_of_mem _ hm)))
        (fun gs tn hm => exists_of_baselines k _ hb1 (fun f t => readCounter (gs f) = t)
          (hstale gs tn (List.mem_cons_of_mem _ hm)))
      refine ⟨k2, ?_, ?_, hb2.trans hb1, ht2.trans ht1, hc2.trans hc1, hl2.trans hl1, ?_⟩
      · simp only [runCalls, runCall]
        exact hrun
      · rw [hq2, hq1]
        simp [tockCount, Call.isTock]
      · exact fun _ => hs2 (Or.inl hs1)
    | tock fs now =>
      obtain ⟨k1, hT, hs1, hq1, hb1, ht1, hc1, hl1⟩ := Tock_of_stale_zone k fs now
        (hreads fs now (List.mem_cons_self _ _)) (hstale fs now (List.mem_cons_self _ _))
      have hq1' : k1.quantumSize < U64 := by
        rw [hq1]
        exact Nat.mod_lt _ (by decide)
      obtain ⟨k2, hrun, hq2, hb2, ht2, hc2, hl2, hs2⟩ := ih k1 hq1' (Or.inl hs1)
        (fun gs tn hm => allOpened_of_baselines gs k k1 hb1
          (hreads gs tn (List.mem_cons_of_mem _ hm)))
        (fun gs tn hm => exists_of_baselines k k1 hb1 (fun f t => readCounter (gs f) = t)
          (hstale gs tn (List.mem_cons_of_mem _ hm)))
      refine ⟨k2, ?_, ?_, hb2.trans hb1, ht2.trans ht1, hc2.trans hc1, hl2.trans hl1, ?_⟩
      · simp only [runCalls, runCall, hT]
        exact hrun
      · rw [hq2, hq1]
        have : tockCount (Call.tock fs now :: cs) = tockCount cs + 1 := by
          simp [tockCount, Call.isTock]
        rw [this, U64_eq]
        omega
      · exact fun _ => hs2 (Or.inl hs1)

/-- C6 (amended): after a quantum is opened by a triggered `Tick`, take any sequence of
`Tock`s and `Tick`s of further launches of the same kernel, in any order, in which no
`Tick` comes before the first `Tock` while `shouldCreateQuantum` is still true, all
files are readable at every `Tock`, and one fixed zone `z` reads at every `Tock` the
value of its `tick` baseline. Then every call returns, `HasValidMeasure()` is false
after every `Tock`, the `quantumSize` after the `j`-th `Tock` is `j` modulo `2 ^ 64`,
and at every point of the sequence every zone's `tick` baseline and the time `tick`
still hold the values sampled at the open. -/
theorem C6_stale_zone_keeps_quantum_open (kpre : KokkosEDPLogger) (fs0 : String → FileRead)
    (now0 : Int) (done : List Call) (fs : String → FileRead) (now : Int)
    (z : energyDescriptor)
    (hopen : kpre.shouldCreateQuantum = true ∨ kpre.prevKernel ≠ kpre.curKernel)
    (hfirst : kpre.shouldCreateQuantum = false ∨ ∀ c, done.head? = some c → c.isTock = true)
    (hz : z ∈ kpre.energyDescs)
    (hstale : ∀ gs tn, Call.tock gs tn ∈ done ++ [.tock fs now] →
      readCounter (gs z.filename) = readCounter (fs0 z.filename))
    (hreads : ∀ gs tn, Call.tock gs tn ∈ done ++ [.tock fs now] →
      allOpened gs kpre.energyDescs) :
    ∃ k k', runCalls (Tick kpre fs0 now0) done = .returned k
      ∧ Tock k fs now = .returned k'
      ∧ k'.HasValidMeasure = false
      ∧ k'.quantumSize = (tockCount done + 1) % U64
      ∧ k.energyDescs.map (fun d => d.tick)
          = kpre.energyDescs.map (fun d => readCounter (fs0 d.filename))
      ∧ k.timeDesc.tick = now0
      ∧ k'.energyDescs.map (fun d => d.tick)
          = kpre.energyDescs.map (fun d => readCounter (fs0 d.filename))
      ∧ k'.timeDesc.tick = now0 := by
  obtain ⟨hq0, hb0, ht0, _, _, hfn0⟩ := Tick_opened kpre fs0 now0 hopen
  have hscq : (Tick kpre fs0 now0).shouldCreateQuantum = kpre.shouldCreateQuantum := by
    rw [Tick_triggered kpre fs0 now0 hopen]
  have hro : ∀ gs tn, Call.tock gs tn ∈ done ++ [.tock fs now] →
      allOpened gs (Tick kpre fs0 now0).energyDescs :=
    fun gs tn hx => (allOpened_congr gs _ _ hfn0).mpr (hreads gs tn hx)
  have hso : ∀ gs tn, Call.tock gs tn ∈ done ++ [.tock fs now] →
      ∃ y ∈ (Tick kpre fs0 now0).energyDescs, readCounter (gs y.filename) = y.tick :=
    fun gs tn hx => stale_zone_of_opened kpre fs0 gs now0 hopen ⟨z, hz, hstale gs tn hx⟩
  obtain ⟨k, hrun, hq, hb, ht, _, _, _⟩ := runCalls_stale done (Tick kpre fs0 now0)
    (by rw [hq0]; decide) (by rw [hscq]; exact hfirst)
    (fun gs tn hx => hro gs tn (List.mem_append_left _ hx))
    (fun gs tn hx => hso gs tn (List.mem_append_left _ hx))
  have hlast : Call.tock fs now ∈ done ++ [.tock fs now] :=
    List.mem_append_right _ (List.mem_singleton_self _)
  obtain ⟨k', hT, hs', hq', hb', ht', _, _⟩ := Tock_of_stale_zone k fs now
    (allOpened_of_baselines fs _ k hb (hro fs now hlast))
    (exists_of_baselines _ k hb (fun f t => readCounter (fs f) = t) (hso fs now hlast))
  have hticks : ∀ x : KokkosEDPLogger,
      baselines x = kpre.energyDescs.map (fun d => (d.filename, readCounter (fs0 d.filename))) →
      x.energyDescs.map (fun d => d.tick)
        = kpre.energyDescs.map (fun d => readCounter (fs0 d.filename)) := by
    intro x hx
    have := congrArg (List.map Prod.snd) hx
    simpa [baselines, List.map_map, Function.comp_def] using this
  refine ⟨k, k', hrun, hT, hs', ?_, hticks k (hb.trans hb0), by rw [ht, ht0],
    hticks k' ((hb'.trans hb).trans hb0), by rw [ht', ht, ht0]⟩
  rw [hq', hq, hq0, U64_eq]
  omega

/-- C6 (amended) at a concrete input: baselines (1000, 2000) sampled at clock 5; then a
`Tock`, two `Tick`s in a row, a `Tock`, and a third `Tock`, zone 0 reading 1000 at each
`Tock`. -/
theorem C6_stale_zone_keeps_quantum_open_witness :
    ∃ k k', runCalls (Tick twoZones (twoFiles "1000\n" "2000\n") 5)
          [staleTock, .tick (twoFiles "1000\n" "2500\n") 7,
            .tick (twoFiles "1000\n" "2600\n") 8, staleTock] = .returned k
      ∧ Tock k (twoFiles "1000\n" "2700\n") 9 = .returned k'
      ∧ k'.HasValidMeasure = false
      ∧ k'.quantumSize = (tockCount [staleTock, .tick (twoFiles "1000\n" "2500\n") 7,
            .tick (twoFiles "1000\n" "2600\n") 8, staleTock] + 1) % U64
      ∧ k.energyDescs.map (fun d => d.tick)
          = twoZones.energyDescs.map (fun d => readCounter (twoFiles "1000\n" "2000\n" d.filename))
      ∧ k.timeDesc.tick = 5
      ∧ k'.energyDescs.map (fun d => d.tick)
          = twoZones.energyDescs.map (fun d => readCounter (twoFiles "1000\n" "2000\n" d.filename))
      ∧ k'.timeDesc.tick = 5 :=
  C6_stale_zone_keeps_quantum_open twoZones (twoFiles "1000\n" "2000\n") 5
    [staleTock, .tick (twoFiles "1000\n" "2500\n") 7, .tick (twoFiles "1000\n" "2600\n") 8,
      staleTock]
    (twoFiles "1000\n" "2700\n") 9
    { filename := "zone0", globalTick := 900, globalTock := 0, tick := 1000, tock := 0 }
    (Or.inl rfl) (Or.inr (by decide)) (by decide)
    (by
      intro gs tn hm
      simp only [List.cons_append, List.nil_append, List.mem_cons, List.mem_singleton,
        List.not_mem_nil, or_false, staleTock, Call.tock.injEq, false_or, reduceCtorEq] at hm
      rcases hm with ⟨h, _⟩ | ⟨h, _⟩ | ⟨h, _⟩ <;> (rw [h]; decide))
    (by
      intro gs tn hm
      simp only [List.cons_append, List.nil_append, List.mem_cons, List.mem_singleton,
        List.not_mem_nil, or_false, staleTock, Call.tock.injEq, false_or, reduceCtorEq] at hm
      rcases hm with ⟨h, _⟩ | ⟨h, _⟩ | ⟨h, _⟩ <;> (rw [h]; decide))

theorem tockCount_longStaleCalls : tockCount longStaleCalls = 2 ^ 64 - 1 := by
  unfold tockCount longStaleCalls
  rw [List.countP_replicate]
  rfl

theorem eq_of_mem_longStaleCalls (fs : String → FileRead) (now : Int)
    (h : Call.tock fs now ∈ longStaleCalls ++ [staleTock]) :
    fs = twoFiles "1000\n" "2500\n" := by
  have hc : Call.tock fs now = staleTock := by
    rcases List.mem_append.mp h with h | h
    · exact List.eq_of_mem_replicate h
    · exact List.mem_singleton.mp h
  injection hc

/-- C6 as stated fails in two ways. After `2 ^ 64` `Tock`s with zone 0 stale throughout
(all hypotheses hold) the `quantumSize` is 0, not `2 ^ 64`. And when the opening `Tick`
found `shouldCreateQuantum` true, a `Tick` of the same kernel that comes before the
first `Tock` samples again: the baselines (1000, 2000) taken at clock 5 become
(1000, 2500) taken at clock 7, although the kernel name did not change and zone 0 is
stale at the `Tock` that follows. -/
theorem C6_counterexample :
    ((twoZones.shouldCreateQuantum = true ∨ twoZones.prevKernel ≠ twoZones.curKernel)
      ∧ (∀ gs tn, Call.tock gs tn ∈ longStaleCalls ++ [staleTock] →
          readCounter (gs "zone0") = readCounter (twoFiles "1000\n" "2000\n" "zone0"))
      ∧ (∀ gs tn, Call.tock gs tn ∈ longStaleCalls ++ [staleTock] →
          allOpened gs twoZones.energyDescs)
      ∧ ∃ k k', runCalls (Tick twoZones (twoFiles "1000\n" "2000\n") 5) longStaleCalls
            = .returned k
        ∧ Tock k (twoFiles "1000\n" "2500\n") 6 = .returned k'
        ∧ k'.quantumSize = 0
        ∧ k'.quantumSize ≠ tockCount longStaleCalls + 1)
    ∧ (twoZones.shouldCreateQuantum = true
      ∧ (Tick twoZones (twoFiles "1000\n" "2000\n") 5).energyDescs.map (fun d => d.tick)
          = [1000, 2000]
      ∧ (Tick twoZones (twoFiles "1000\n" "2000\n") 5).timeDesc.tick = 5
      ∧ (runCalls (Tick twoZones (twoFiles "1000\n" "2000\n") 5)
            [.tick (twoFiles "1000\n" "2500\n") 7, .tock (twoFiles "1000\n" "2600\n") 8]).isReturned
          = true
      ∧ (runCalls (Tick twoZones (twoFiles "1000\n" "2000\n") 5)
            [.tick (twoFiles "1000\n" "2500\n") 7,
              .tock (twoFiles "1000\n" "2600\n") 8]).state.energyDescs.map (fun d => d.tick)
          = [1000, 2500]
      ∧ (runCalls (Tick twoZones (twoFiles "1000\n" "2000\n") 5)
            [.tick (twoFiles "1000\n" "2500\n") 7,
              .tock (twoFiles "1000\n" "2600\n") 8]).state.timeDesc.tick = 7
      ∧ readCounter (twoFiles "1000\n" "2600\n" "zone0")
          = readCounter (twoFiles "1000\n" "2000\n" "zone0")) := by
  refine ⟨?_, by decide⟩
  have hopen : twoZones.shouldCreateQuantum = true ∨ twoZones.prevKernel ≠ twoZones.curKernel :=
    Or.inl rfl
  have h1 : readCounter (twoFiles "1000\n" "2500\n" "zone0")
      = readCounter (twoFiles "1000\n" "2000\n" "zone0") := by decide
  have h2 : allOpened (twoFiles "1000\n" "2500\n") twoZones.energyDescs := by decide
  have hlast : staleTock ∈ longStaleCalls ++ [staleTock] :=
    List.mem_append_right _ (List.mem_singleton_self _)
  have hst : ∀ gs tn, Call.tock gs tn ∈ longStaleCalls ++ [staleTock] →
      readCounter (gs "zone0") = readCounter (twoFiles "1000\n" "2000\n" "zone0") := by
    intro gs tn hx
    rw [eq_of_mem_longStaleCalls gs tn hx]
    exact h1
  have hrd : ∀ gs tn, Call.tock gs tn ∈ longStaleCalls ++ [staleTock] →
      allOpened gs twoZones.energyDescs := by
    intro gs tn hx
    rw [eq_of_mem_longStaleCalls gs tn hx]
    exact h2
  refine ⟨hopen, hst, hrd, ?_⟩
  obtain ⟨hq0, _, _, _, _, hfn0⟩ := Tick_opened twoZones (twoFiles "1000\n" "2000\n") 5 hopen
  have hro : ∀ gs tn, Call.tock gs tn ∈ longStaleCalls ++ [staleTock] →
      allOpened gs (Tick twoZones (twoFiles "1000\n" "2000\n") 5).energyDescs :=
    fun gs tn hx => (allOpened_congr gs _ _ hfn0).mpr (hrd gs tn hx)
  have hso : ∀ gs tn, Call.tock gs tn ∈ longStaleCalls ++ [staleTock] →
      ∃ y ∈ (Tick twoZones (twoFiles "1000\n" "2000\n") 5).energyDescs,
        readCounter (gs y.filename) = y.tick :=
    fun gs tn hx => stale_zone_of_opened twoZones (twoFiles "1000\n" "2000\n") gs 5 hopen
      ⟨{ filename := "zone0", globalTick := 900, globalTock := 0, tick := 1000, tock := 0 },
        by decide, hst gs tn hx⟩
  have hhead : ∀ c, longStaleCalls.head? = some c → c.isTock = true := by
    intro c hc
    have hmem : c ∈ longStaleCalls := List.mem_of_mem_head? hc
    rw [List.eq_of_mem_replicate hmem]
    rfl
  obtain ⟨k, hrun, hq, hb, _, _, _, _⟩ := runCalls_stale longStaleCalls
    (Tick twoZones (twoFiles "1000\n" "2000\n") 5) (by rw [hq0]; decide) (Or.inr hhead)
    (fun gs tn hx => hro gs tn (List.mem_append_left _ hx))
    (fun gs tn hx => hso gs tn (List.mem_append_left _ hx))
  obtain ⟨k', hT, _, hq', _, _, _, _⟩ := Tock_of_stale_zone k (twoFiles "1000\n" "2500\n") 6
    (allOpened_of_baselines _ _ k hb (hro _ 6 hlast))
    (exists_of_baselines _ k hb (fun f t => readCounter (twoFiles "1000\n" "2500\n" f) = t)
      (hso _ 6 hlast))
  have hzero : k'.quantumSize = 0 := by
    rw [hq', hq, hq0, tockCount_longStaleCalls, U64_eq]
    norm_num
  refine ⟨k, k', hrun, hT, hzero, ?_⟩
  rw [hzero, tockCount_longStaleCalls]
  norm_num

end KokkosEDP
